import Mathlib

/-!
The picostation-loader serial controller bus and GPU command chains.

A shallow embedding of `src/controller.c` and `src/gpu.c`.

Memory-mapped registers are accessed through `readReg` / `writeReg`, which
thread an explicit machine state `Bus σ`.  The attached hardware (serial
interface, interrupt controller, DMA channel, GPU and whatever is plugged into
the controller port) is a deterministic state machine `Hardware σ`: it decides
what a volatile read returns and how it reacts to reads, writes and delays.
Every access is also appended to a trace, newest event first, so that
statements about what was put on the wire can be read off the trace.

Busy-wait loops without a bound in the source take a `fuel` argument and
return `none` when the awaited condition does not show up within `fuel` polls.
-/

namespace Picostation

/-! ## Registers and hardware -/

/-- The memory-mapped registers used by `controller.c` and `gpu.c`
(`SIO_*` are those of serial port 0, `DMA_*` those of the GPU channel). -/
inductive Reg
  | IRQ_STAT
  | SIO_CTRL
  | SIO_DATA
  | SIO_STAT
  | DMA_MADR
  | DMA_BCR
  | DMA_CHCR
  | GPU_GP0
  | GPU_GP1
  deriving DecidableEq

/-- One entry of the access trace. -/
inductive Event
  | read (r : Reg) (v : Nat)
  | write (r : Reg) (v : Nat)
  | delay (us : Int)
  deriving DecidableEq

/-- The hardware behind the registers, as a state machine over `σ`. -/
structure Hardware (σ : Type) where
  /-- Value presented by a volatile read of a register. -/
  read : Reg → σ → Nat
  /-- Reaction to a read (for example popping the receive FIFO). -/
  afterRead : Reg → σ → σ
  /-- Reaction to a write. -/
  afterWrite : Reg → Nat → σ → σ
  /-- Reaction to the CPU burning the given number of microseconds. -/
  afterDelay : Int → σ → σ

/-- Machine state seen by the driver: the hardware state, the latched value
of `SIO_CTRL(0)` (a control register the CPU reads back as written) and the
trace of all accesses, newest first. -/
structure Bus (σ : Type) where
  dev : σ
  ctrl : Nat
  log : List Event

/-- Constants of `ps1/registers.h` and `controller.h`, which are not part of
the sources at hand; the bit masks are kept as parameters.  `IRQ_SIO0` is a
bit number, the `SIO_*` fields are masks. -/
structure Consts where
  IRQ_SIO0 : Nat
  SIO_CTRL_DTR : Nat
  SIO_CTRL_ACKNOWLEDGE : Nat
  SIO_CTRL_CS_PORT_2 : Nat
  SIO_STAT_TX_NOT_FULL : Nat
  SIO_STAT_RX_NOT_EMPTY : Nat
  ADDR_CONTROLLER : Nat
  ADDR_MEMORY_CARD : Nat
  CMD_POLL : Nat
  BYTE_DELAY : Int

/-- `~x` on a 32-bit `int`. -/
def not32 (x : Nat) : Nat := 0xFFFFFFFF ^^^ (x % 2 ^ 32)

/-- A volatile read.  `SIO_CTRL` reads back its latched value, every other
register is answered by the hardware. -/
def readReg {σ : Type} (hw : Hardware σ) (r : Reg) (s : Bus σ) : Nat × Bus σ :=
  let v := if r = Reg.SIO_CTRL then s.ctrl else hw.read r s.dev
  (v, { dev := hw.afterRead r s.dev, ctrl := s.ctrl, log := Event.read r v :: s.log })

/-- A volatile write. -/
def writeReg {σ : Type} (hw : Hardware σ) (r : Reg) (v : Nat) (s : Bus σ) : Bus σ :=
  { dev := hw.afterWrite r v s.dev
    ctrl := if r = Reg.SIO_CTRL then v else s.ctrl
    log := Event.write r v :: s.log }

/-- `delayMicroseconds(time)` of `includes/system.h`: a calibrated busy loop;
here it only lets the hardware advance and leaves a mark in the trace. -/
def delayMicroseconds {σ : Type} (hw : Hardware σ) (time : Int) (s : Bus σ) : Bus σ :=
  { dev := hw.afterDelay time s.dev, ctrl := s.ctrl, log := Event.delay time :: s.log }

/-! ## controller.c -/

def DTR_DELAY : Int := 150
def DTR_PRE_DELAY : Int := 10
def DTR_POST_DELAY : Int := 10
def DTR_PACKET_DELAY : Int := 200
def DSR_TIMEOUT : Int := 120

/-- The `for (; timeout > 0; timeout -= 10)` loop of `waitForAcknowledge`.
The first argument bounds the number of iterations; `waitForAcknowledge`
passes a bound the loop cannot exhaust. -/
def waitForAcknowledgeLoop {σ : Type} (K : Consts) (hw : Hardware σ) :
    Nat → Int → Bus σ → Bool × Bus σ
  | 0, _, s => (false, s)
  | n + 1, timeout, s =>
    if timeout > 0 then
      let (irq, s) := readReg hw Reg.IRQ_STAT s
      if irq &&& (1 <<< K.IRQ_SIO0) ≠ 0 then
        let s := writeReg hw Reg.IRQ_STAT (not32 (1 <<< K.IRQ_SIO0)) s
        let (c, s) := readReg hw Reg.SIO_CTRL s
        let s := writeReg hw Reg.SIO_CTRL (c ||| K.SIO_CTRL_ACKNOWLEDGE) s
        (true, s)
      else
        let s := delayMicroseconds hw 10 s
        waitForAcknowledgeLoop K hw n (timeout - 10) s
    else
      (false, s)

/-- `bool waitForAcknowledge(int timeout)`. -/
def waitForAcknowledge {σ : Type} (K : Consts) (hw : Hardware σ) (timeout : Int)
    (s : Bus σ) : Bool × Bus σ :=
  waitForAcknowledgeLoop K hw timeout.toNat timeout s

/-- `void selectPort(int port)`. -/
def selectPort {σ : Type} (K : Consts) (hw : Hardware σ) (port : Int) (s : Bus σ) : Bus σ :=
  if port ≠ 0 then
    let (c, s) := readReg hw Reg.SIO_CTRL s
    writeReg hw Reg.SIO_CTRL (c ||| K.SIO_CTRL_CS_PORT_2) s
  else
    let (c, s) := readReg hw Reg.SIO_CTRL s
    writeReg hw Reg.SIO_CTRL (c &&& not32 K.SIO_CTRL_CS_PORT_2) s

/-- The loop `while (!(SIO_STAT(0) & mask)) ;` used twice in `exchangeByte`. -/
def spinUntil {σ : Type} (hw : Hardware σ) (mask : Nat) : Nat → Bus σ → Option (Bus σ)
  | 0, _ => none
  | n + 1, s =>
    let (st, s) := readReg hw Reg.SIO_STAT s
    if st &&& mask ≠ 0 then some s else spinUntil hw mask n s

/-- `uint8_t exchangeByte(uint8_t value)`. -/
def exchangeByte {σ : Type} (K : Consts) (hw : Hardware σ) (fuel : Nat) (value : Nat)
    (s : Bus σ) : Option (Nat × Bus σ) :=
  match spinUntil hw K.SIO_STAT_TX_NOT_FULL fuel s with
  | none => none
  | some s =>
    let s := writeReg hw Reg.SIO_DATA value s
    match spinUntil hw K.SIO_STAT_RX_NOT_EMPTY fuel s with
    | none => none
    | some s =>
      let (d, s) := readReg hw Reg.SIO_DATA s
      some (d % 256, s)

/-- The loop `while (SIO_STAT(0) & SIO_STAT_RX_NOT_EMPTY) SIO_DATA(0);`. -/
def drainRx {σ : Type} (K : Consts) (hw : Hardware σ) : Nat → Bus σ → Option (Bus σ)
  | 0, _ => none
  | n + 1, s =>
    let (st, s) := readReg hw Reg.SIO_STAT s
    if st &&& K.SIO_STAT_RX_NOT_EMPTY ≠ 0 then
      let (_, s) := readReg hw Reg.SIO_DATA s
      drainRx K hw n s
    else
      some s

/-- The local variables of `exchangePacket` during its transfer loop.
`request` and `response` are the distances the two pointers have advanced,
`buf` is the memory behind `response`. -/
structure Transfer (σ : Type) where
  request : Nat
  response : Nat
  reqLength : Int
  respLength : Int
  buf : Nat → Nat
  bus : Bus σ

/-- One pass through the `if (reqLength > 0) ... else ...; respLength++` part
of the transfer loop. -/
def exchangeStep {σ : Type} (K : Consts) (hw : Hardware σ) (fuel : Nat) (req : Nat → Nat)
    (x : Transfer σ) : Option (Transfer σ) :=
  if x.reqLength > 0 then
    match exchangeByte K hw fuel (req x.request) x.bus with
    | none => none
    | some (b, bus) =>
      some { request := x.request + 1, response := x.response + 1
             reqLength := x.reqLength - 1, respLength := x.respLength + 1
             buf := Function.update x.buf x.response b, bus := bus }
  else
    match exchangeByte K hw fuel 0 x.bus with
    | none => none
    | some (b, bus) =>
      some { request := x.request, response := x.response + 1
             reqLength := x.reqLength, respLength := x.respLength + 1
             buf := Function.update x.buf x.response b, bus := bus }

/-- The loop `while (respLength < maxRespLength)` of `exchangePacket`.  The
first argument bounds the number of passes; `none` also stands for a pass
that is still due when the bound is used up. -/
def exchangeLoop {σ : Type} (K : Consts) (hw : Hardware σ) (fuel : Nat) (req : Nat → Nat)
    (maxRespLength : Int) : Nat → Transfer σ → Option (Transfer σ)
  | 0, x => if x.respLength < maxRespLength then none else some x
  | n + 1, x =>
    if x.respLength < maxRespLength then
      match exchangeStep K hw fuel req x with
      | none => none
      | some x =>
        let (ack, bus) := waitForAcknowledge K hw DSR_TIMEOUT x.bus
        if !ack then
          some { x with bus := bus }
        else
          exchangeLoop K hw fuel req maxRespLength n { x with bus := bus }
    else
      some x

/-- Lines 147-158 of `exchangePacket`: settle, clear the interrupt flag,
assert DTR and put the address byte on the wire. -/
def sendAddress {σ : Type} (K : Consts) (hw : Hardware σ) (address : Nat) (s : Bus σ) :
    Bus σ :=
  let s := delayMicroseconds hw DTR_PRE_DELAY s
  let s := writeReg hw Reg.IRQ_STAT (not32 (1 <<< K.IRQ_SIO0)) s
  let (c, s) := readReg hw Reg.SIO_CTRL s
  let s := writeReg hw Reg.SIO_CTRL (c ||| (K.SIO_CTRL_DTR ||| K.SIO_CTRL_ACKNOWLEDGE)) s
  let s := delayMicroseconds hw DTR_DELAY s
  writeReg hw Reg.SIO_DATA address s

/-- Lines 185-188 of `exchangePacket`: release DTR. -/
def releaseDTR {σ : Type} (K : Consts) (hw : Hardware σ) (s : Bus σ) : Bus σ :=
  let s := delayMicroseconds hw DTR_DELAY s
  let (c, s) := readReg hw Reg.SIO_CTRL s
  let s := writeReg hw Reg.SIO_CTRL (c &&& not32 K.SIO_CTRL_DTR) s
  delayMicroseconds hw DTR_POST_DELAY s

/-- `int exchangePacket(address, request, response, reqLength, maxRespLength)`.
`request` and `response` are the memory behind the two pointers; the result
is the returned length, the memory behind `response` and the machine state. -/
def exchangePacket {σ : Type} (K : Consts) (hw : Hardware σ) (fuel : Nat) (address : Nat)
    (request : Nat → Nat) (response : Nat → Nat) (reqLength maxRespLength : Int)
    (s : Bus σ) : Option (Int × (Nat → Nat) × Bus σ) :=
  let s := sendAddress K hw address s
  let (ack, s) := waitForAcknowledge K hw DSR_TIMEOUT s
  if ack then
    match drainRx K hw fuel s with
    | none => none
    | some s =>
      match exchangeLoop K hw fuel request maxRespLength maxRespLength.toNat
          { request := 0, response := 0, reqLength := reqLength, respLength := 0
            buf := response, bus := s } with
      | none => none
      | some x => some (x.respLength, x.buf, releaseDTR K hw x.bus)
  else
    some (0, response, releaseDTR K hw s)

/-- The `request[4]` array built by `getButtonPress`. -/
def pollRequest (K : Consts) : Nat → Nat :=
  fun i => [K.CMD_POLL, 0x00, 0x00, 0x00].getD i 0

/-- `uint16_t getButtonPress(int port)`.  `response0` is the indeterminate
initial content of the local `response[8]` array. -/
def getButtonPress {σ : Type} (K : Consts) (hw : Hardware σ) (fuel : Nat) (port : Int)
    (response0 : Nat → Nat) (s : Bus σ) : Option (Nat × Bus σ) :=
  let s := selectPort K hw port s
  match exchangePacket K hw fuel K.ADDR_CONTROLLER (pollRequest K) response0 4 8 s with
  | none => none
  | some (respLength, response, s) =>
    if respLength < 4 then
      some (0x00, s)
    else
      some (((response 2 ||| (response 3 <<< 8)) ^^^ 0xffff) % 65536, s)

/-- The loop `for (; reqLength > 0; reqLength--)` of `sendPacketNoAcknowledge`;
the first argument bounds the number of passes. -/
def sendLoop {σ : Type} (K : Consts) (hw : Hardware σ) (fuel : Nat) (req : Nat → Nat) :
    Nat → Nat → Int → Bus σ → Option (Bus σ)
  | 0, _, reqLength, s => if reqLength > 0 then none else some s
  | n + 1, request, reqLength, s =>
    if reqLength > 0 then
      match exchangeByte K hw fuel (req request) s with
      | none => none
      | some (_, s) =>
        let s := delayMicroseconds hw K.BYTE_DELAY s
        sendLoop K hw fuel req n (request + 1) (reqLength - 1) s
    else
      some s

/-- `void sendPacketNoAcknowledge(address, request, reqLength)`. -/
def sendPacketNoAcknowledge {σ : Type} (K : Consts) (hw : Hardware σ) (fuel : Nat)
    (address : Nat) (request : Nat → Nat) (reqLength : Int) (s : Bus σ) : Option (Bus σ) :=
  let s := writeReg hw Reg.IRQ_STAT (not32 (1 <<< K.IRQ_SIO0)) s
  let (c, s) := readReg hw Reg.SIO_CTRL s
  let s := writeReg hw Reg.SIO_CTRL (c ||| (K.SIO_CTRL_DTR ||| K.SIO_CTRL_ACKNOWLEDGE)) s
  let s := delayMicroseconds hw DTR_DELAY s
  let s := writeReg hw Reg.SIO_DATA address s
  let s := delayMicroseconds hw K.BYTE_DELAY s
  match drainRx K hw fuel s with
  | none => none
  | some s =>
    match sendLoop K hw fuel request reqLength.toNat 0 reqLength s with
    | none => none
    | some s =>
      let s := delayMicroseconds hw DTR_DELAY s
      let (c, s) := readReg hw Reg.SIO_CTRL s
      some (writeReg hw Reg.SIO_CTRL (c &&& not32 K.SIO_CTRL_DTR) s)

/-! ## gpu.c -/

/-- Constants and command encoders of `gpu.h`, `ps1/registers.h` and
`ps1/gpucmd.h`, which are not part of the sources at hand. -/
structure GpuConsts where
  CHAIN_BUFFER_SIZE : Nat
  DMA_MAX_CHUNK_SIZE : Nat
  DMA_CHCR_WRITE : Nat
  DMA_CHCR_MODE_SLICE : Nat
  DMA_CHCR_MODE_LIST : Nat
  DMA_CHCR_ENABLE : Nat
  GP1_STAT_CMD_READY : Nat
  gp0_vramWrite : Nat
  gp0_xy : Int → Int → Nat

/-- How a call of a `gpu.c` routine ends: it returns, it stops at a failing
`assert`, or one of its busy-wait loops is still spinning when the fuel is
used up.  The machine state reached is kept in the first two cases. -/
inductive Outcome (σ : Type)
  | returned (s : Bus σ)
  | assertFailed (s : Bus σ)
  | spinning

/-- `void waitForGP0Ready(void)`. -/
def waitForGP0Ready {σ : Type} (G : GpuConsts) (hw : Hardware σ) : Nat → Bus σ → Option (Bus σ)
  | 0, _ => none
  | n + 1, s =>
    let (st, s) := readReg hw Reg.GPU_GP1 s
    if st &&& G.GP1_STAT_CMD_READY ≠ 0 then some s else waitForGP0Ready G hw n s

/-- `void waitForDMADone(void)`. -/
def waitForDMADone {σ : Type} (G : GpuConsts) (hw : Hardware σ) : Nat → Bus σ → Option (Bus σ)
  | 0, _ => none
  | n + 1, s =>
    let (st, s) := readReg hw Reg.DMA_CHCR s
    if st &&& G.DMA_CHCR_ENABLE ≠ 0 then waitForDMADone G hw n s else some s

/-- `void sendLinkedList(const void *data)`; `data` is the address. -/
def sendLinkedList {σ : Type} (G : GpuConsts) (hw : Hardware σ) (fuel : Nat) (data : Nat)
    (s : Bus σ) : Outcome σ :=
  match waitForDMADone G hw fuel s with
  | none => Outcome.spinning
  | some s =>
    if data % 2 ^ 32 % 4 ≠ 0 then Outcome.assertFailed s
    else
      let s := writeReg hw Reg.DMA_MADR (data % 2 ^ 32) s
      let s := writeReg hw Reg.DMA_CHCR
        (G.DMA_CHCR_WRITE ||| G.DMA_CHCR_MODE_LIST ||| G.DMA_CHCR_ENABLE) s
      Outcome.returned s

/-- The `size_t length = (width * height) / 2` of `sendVRAMData`: the `int`
quotient (rounded towards zero) converted to a 32-bit unsigned value.  The
product is taken in `ℤ`: signed overflow is undefined in C. -/
def vramLength (width height : Int) : Nat :=
  (Int.tdiv (width * height) 2 % 2 ^ 32).toNat

/-- The tail of `sendVRAMData` from `waitForGP0Ready()` on: the image-write
setup on GP0 and the start of the DMA transfer in `numChunks` chunks of
`chunkSize` words. -/
def startVRAMTransfer {σ : Type} (G : GpuConsts) (hw : Hardware σ) (fuel : Nat) (data : Nat)
    (x y width height : Int) (chunkSize numChunks : Nat) (s : Bus σ) : Outcome σ :=
  match waitForGP0Ready G hw fuel s with
  | none => Outcome.spinning
  | some s =>
    let s := writeReg hw Reg.GPU_GP0 G.gp0_vramWrite s
    let s := writeReg hw Reg.GPU_GP0 (G.gp0_xy x y) s
    let s := writeReg hw Reg.GPU_GP0 (G.gp0_xy width height) s
    let s := writeReg hw Reg.DMA_MADR (data % 2 ^ 32) s
    let s := writeReg hw Reg.DMA_BCR ((chunkSize ||| (numChunks <<< 16)) % 2 ^ 32) s
    let s := writeReg hw Reg.DMA_CHCR
      (G.DMA_CHCR_WRITE ||| G.DMA_CHCR_MODE_SLICE ||| G.DMA_CHCR_ENABLE) s
    Outcome.returned s

/-- `void sendVRAMData(const void *data, int x, int y, int width, int height)`;
`data` is the address. -/
def sendVRAMData {σ : Type} (G : GpuConsts) (hw : Hardware σ) (fuel : Nat) (data : Nat)
    (x y width height : Int) (s : Bus σ) : Outcome σ :=
  match waitForDMADone G hw fuel s with
  | none => Outcome.spinning
  | some s =>
    if data % 2 ^ 32 % 4 ≠ 0 then Outcome.assertFailed s
    else
      let length := vramLength width height
      if length < G.DMA_MAX_CHUNK_SIZE then
        startVRAMTransfer G hw fuel data x y width height length 1 s
      else
        if length % G.DMA_MAX_CHUNK_SIZE ≠ 0 then Outcome.assertFailed s
        else
          startVRAMTransfer G hw fuel data x y width height G.DMA_MAX_CHUNK_SIZE
            (length / G.DMA_MAX_CHUNK_SIZE) s

/-- A word of a command chain.  Modelled from the spec: the bit layout
produced by `gp0_tag` and `gp0_endTag` (`ps1/gpucmd.h`) is not part of the
sources at hand; a packet header encodes the payload word count and either
the place of the next packet or the terminal marker. -/
inductive Word
  | raw (v : Nat)
  | tag (length : Int) (next : Option Int)
  deriving DecidableEq

/-- Modelled from the spec: `gp0_tag(length, next)` of `ps1/gpucmd.h`, a
header for `length` payload words that links to the packet at `next`. -/
def gp0_tag (length : Int) (next : Int) : Word := Word.tag length (some next)

/-- Modelled from the spec: `gp0_endTag(length)` of `ps1/gpucmd.h`, a header
carrying the end-of-chain marker. -/
def gp0_endTag (length : Int) : Word := Word.tag length none

/-- `DMAChain` of `gpu.h`: the array `data[CHAIN_BUFFER_SIZE]` and the cursor
`nextPacket`.  Pointers into the chain are word offsets from `data`; `data`
is the memory around the array, so that offsets below `0` or from
`CHAIN_BUFFER_SIZE` on are words outside the array. -/
structure DMAChain where
  data : Int → Word
  nextPacket : Int

/-- `uint32_t *allocatePacket(DMAChain *chain, int numCommands)`.  The header
is written and the cursor advanced before the assertion is evaluated, so the
chain is returned in both cases; the pointer is `none` when the assertion
fails. -/
def allocatePacket (G : GpuConsts) (chain : DMAChain) (numCommands : Int) :
    DMAChain × Option Int :=
  let ptr := chain.nextPacket
  let nextPacket := chain.nextPacket + (numCommands + 1)
  let chain : DMAChain :=
    { data := Function.update chain.data ptr (gp0_tag numCommands nextPacket)
      nextPacket := nextPacket }
  if chain.nextPacket < (G.CHAIN_BUFFER_SIZE : Int) then (chain, some (ptr + 1))
  else (chain, none)

/-- The statement `chain->nextPacket = chain->data;` at the start of a frame
(`main.c`, line 526). -/
def resetChain (chain : DMAChain) : DMAChain :=
  { chain with nextPacket := 0 }

/-- The statement `*(chain->nextPacket) = gp0_endTag(0);` at the end of a
frame (`main.c`, line 774). -/
def terminateChain (chain : DMAChain) : DMAChain :=
  { chain with data := Function.update chain.data chain.nextPacket (gp0_endTag 0) }

/-- Calls `allocatePacket` for each size in turn; `none` as soon as one of the
calls fails its assertion. -/
def allocateAll (G : GpuConsts) : DMAChain → List Int → Option DMAChain
  | chain, [] => some chain
  | chain, n :: ns =>
    match allocatePacket G chain n with
    | (chain, some _) => allocateAll G chain ns
    | (_, none) => none

/-- Word offset of the header of packet `k` when packets with the given
payload sizes are laid out from offset `0`. -/
def headerOffset (sizes : List Nat) (k : Nat) : Int :=
  (((sizes.take k).map (fun n => n + 1)).sum : Nat)

/-- Follows the links of a chain from `p`, as the DMA channel does in
linked-list mode, and lists the headers visited; `none` if the walk reaches a
word that is not a header or does not end within the given number of steps. -/
def walkChain (data : Int → Word) : Nat → Int → Option (List Int)
  | 0, _ => none
  | n + 1, p =>
    match data p with
    | Word.tag _ none => some [p]
    | Word.tag _ (some q) => (walkChain data n q).map (fun ps => p :: ps)
    | Word.raw _ => none

/-- Values of the upstream `gpu.h` and PS1 register map, used for concrete
runs. -/
def psxGpu : GpuConsts where
  CHAIN_BUFFER_SIZE := 1024
  DMA_MAX_CHUNK_SIZE := 16
  DMA_CHCR_WRITE := 0x00000001
  DMA_CHCR_MODE_SLICE := 0x00000200
  DMA_CHCR_MODE_LIST := 0x00000400
  DMA_CHCR_ENABLE := 0x01000000
  GP1_STAT_CMD_READY := 0x04000000
  gp0_vramWrite := 0xa0000000
  gp0_xy := fun x y => ((x % 65536).toNat) ||| ((y % 65536).toNat <<< 16)

/-- A GPU and DMA channel that are always idle and ready. -/
def idleGpu : Hardware Unit where
  read r _ :=
    match r with
    | Reg.GPU_GP1 => psxGpu.GP1_STAT_CMD_READY
    | _ => 0
  afterRead _ d := d
  afterWrite _ _ d := d
  afterDelay _ d := d

/-- A chain whose memory holds only zero words. -/
def blankChain : DMAChain := { data := fun _ => Word.raw 0, nextPacket := 0 }


/-! ## Reading the trace -/

/-- The accesses to `SIO_DATA(0)` of a trace, oldest first: what went over the
wire and what was taken out of the receive buffer. -/
def wire : List Event → List Event
  | [] => []
  | Event.write Reg.SIO_DATA v :: older => wire older ++ [Event.write Reg.SIO_DATA v]
  | Event.read Reg.SIO_DATA v :: older => wire older ++ [Event.read Reg.SIO_DATA v]
  | _ :: older => wire older

/-- The bytes written to `SIO_DATA(0)`, oldest first. -/
def txBytes : List Event → List Nat
  | [] => []
  | Event.write Reg.SIO_DATA v :: older => txBytes older ++ [v]
  | _ :: older => txBytes older

/-- A run of full-duplex exchanges: each byte sent is followed by the byte
taken from the receive buffer. -/
def exchanged : List Nat → List Nat → List Event
  | t :: ts, r :: rs =>
    Event.write Reg.SIO_DATA t :: Event.read Reg.SIO_DATA r :: exchanged ts rs
  | _, _ => []

/-- Sets the last entry of a list of flags. -/
def markLast : List Bool → List Bool
  | [] => []
  | [_] => [true]
  | b :: c :: bs => b :: markLast (c :: bs)

/-- For every byte written to `SIO_DATA(0)`, oldest first: was the acknowledge
interrupt flag read as set after it and before the next byte was written. -/
def ackPattern (K : Consts) : List Event → List Bool
  | [] => []
  | Event.write Reg.SIO_DATA _ :: older => ackPattern K older ++ [false]
  | Event.read Reg.IRQ_STAT v :: older =>
    if v &&& (1 <<< K.IRQ_SIO0) ≠ 0 then markLast (ackPattern K older) else ackPattern K older
  | _ :: older => ackPattern K older

/-- The trace shows a device that acknowledged the address byte (entry 0) and
each of the first `k` data bytes, and no byte after those. -/
def AckedFirst (K : Consts) (k : Nat) (log : List Event) : Prop :=
  ∀ j, j < (ackPattern K log).length → (ackPattern K log).getD j false = decide (j ≤ k)

/-- The busy-wait loops of the serial driver end within `fuel` polls, whatever
state they are entered in. -/
def HwReady {σ : Type} (K : Consts) (hw : Hardware σ) (fuel : Nat) : Prop :=
  (∀ (v : Nat) (s : Bus σ), (exchangeByte K hw fuel v s).isSome = true) ∧
  (∀ s : Bus σ, (drainRx K hw fuel s).isSome = true)

/-! ## A simulated controller -/

/-- Register constants of the PS1 I/O map, used to run the driver against the
simulated controller below. -/
def psx : Consts where
  IRQ_SIO0 := 7
  SIO_CTRL_DTR := 0x0002
  SIO_CTRL_ACKNOWLEDGE := 0x0010
  SIO_CTRL_CS_PORT_2 := 0x2000
  SIO_STAT_TX_NOT_FULL := 0x0001
  SIO_STAT_RX_NOT_EMPTY := 0x0002
  ADDR_CONTROLLER := 0x01
  ADDR_MEMORY_CARD := 0x81
  CMD_POLL := 0x42
  BYTE_DELAY := 12

/-- State of the simulated controller and serial interface. -/
structure PadState where
  /-- The SIO0 flag latched in the interrupt controller. -/
  irq : Bool
  /-- The byte waiting in the receive buffer, if any. -/
  rx : Option Nat
  /-- Bytes of the current packet taken by the controller, address included. -/
  count : Nat
  deriving DecidableEq

/-- A simulated controller that pulses DSR after the address byte and after
each of the first `k` data bytes, and answers data byte `i` with `reply i`
(the address byte is answered with `0xFF`).  Releasing DTR ends the packet. -/
def simPad (k : Nat) (reply : Nat → Nat) : Hardware PadState where
  read r d :=
    match r with
    | Reg.IRQ_STAT => if d.irq then 1 <<< psx.IRQ_SIO0 else 0
    | Reg.SIO_STAT =>
      psx.SIO_STAT_TX_NOT_FULL ||| (if d.rx.isSome then psx.SIO_STAT_RX_NOT_EMPTY else 0)
    | Reg.SIO_DATA => d.rx.getD 0
    | _ => 0
  afterRead r d :=
    match r with
    | Reg.SIO_DATA => { d with rx := none }
    | _ => d
  afterWrite r v d :=
    match r with
    | Reg.IRQ_STAT => if v &&& (1 <<< psx.IRQ_SIO0) = 0 then { d with irq := false } else d
    | Reg.SIO_CTRL => if v &&& psx.SIO_CTRL_DTR = 0 then { d with count := 0 } else d
    | Reg.SIO_DATA =>
      { irq := d.irq || decide (d.count ≤ k)
        rx := some (if d.count = 0 then 0xFF else reply (d.count - 1))
        count := d.count + 1 }
    | _ => d
  afterDelay _ d := d

/-- The controller at rest. -/
def padIdle : PadState := { irq := false, rx := none, count := 0 }

/-- Reply of an analog controller with only Select held down: identifier
`0x73`, `0x5A`, the active-low button field `0xFFFE` and four stick bytes. -/
def padReply : Nat → Nat :=
  fun i => [0x73, 0x5A, 0xFE, 0xFF, 0x80, 0x80, 0x80, 0x80].getD i 0


/-- The byte `exchangePacket` sends in pass `j` of its transfer loop when the
loop is entered with the request pointer advanced by `request` and `reqLength`
request bytes left: the next request byte, or the filler 0. -/
def txAt (req : Nat → Nat) (request : Nat) (reqLength : Int) (j : Nat) : Nat :=
  if (j : Int) < reqLength then req (request + j) else 0

/-- Hardware with nothing attached: every register reads as zero. -/
def noDevice : Hardware Unit where
  read _ _ := 0
  afterRead _ d := d
  afterWrite _ _ d := d
  afterDelay _ d := d

/-- Number of times the trace shows `IRQ_STAT` being read. -/
def pollCount : List Event → Nat
  | [] => 0
  | Event.read Reg.IRQ_STAT _ :: older => pollCount older + 1
  | _ :: older => pollCount older

/-- Total of the delays in the trace, in microseconds. -/
def delayTotal : List Event → Int
  | [] => 0
  | Event.delay us :: older => delayTotal older + us
  | _ :: older => delayTotal older

/-- Texture-related constants and encoders of `ps1/gpucmd.h`, which is not
part of the sources at hand. -/
structure TexConsts where
  GP0_BLEND_SEMITRANS : Nat
  GP0_COLOR_4BPP : Nat
  GP0_COLOR_8BPP : Nat
  GP0_COLOR_16BPP : Nat
  gp0_page : Int → Int → Nat → Nat → Nat
  gp0_clut : Int → Int → Nat

/-- `TextureInfo` of `gpu.h`. -/
structure TextureInfo where
  page : Nat
  clut : Nat
  u : Nat
  v : Nat
  width : Nat
  height : Nat
  deriving DecidableEq

/-- `void uploadTexture(TextureInfo *info, const void *data, int x, int y,
int width, int height)`.  The result is what `*info` holds afterwards and how
the call ended. -/
def uploadTexture {σ : Type} (G : GpuConsts) (T : TexConsts) (hw : Hardware σ) (fuel : Nat)
    (info : TextureInfo) (data : Nat) (x y width height : Int) (s : Bus σ) :
    TextureInfo × Outcome σ :=
  if ¬ (width ≤ 256 ∧ height ≤ 256) then (info, Outcome.assertFailed s)
  else
    match sendVRAMData G hw fuel data x y width height s with
    | Outcome.spinning => (info, Outcome.spinning)
    | Outcome.assertFailed s => (info, Outcome.assertFailed s)
    | Outcome.returned s =>
      match waitForDMADone G hw fuel s with
      | none => (info, Outcome.spinning)
      | some s =>
        ({ page := T.gp0_page (Int.tdiv x 64) (Int.tdiv y 256) T.GP0_BLEND_SEMITRANS
              T.GP0_COLOR_16BPP
           clut := 0
           u := (Int.tmod x 64 % 2 ^ 8).toNat
           v := (Int.tmod y 256 % 2 ^ 8).toNat
           width := (width % 2 ^ 16).toNat
           height := (height % 2 ^ 16).toNat }, Outcome.returned s)

/-- `void uploadIndexedTexture(TextureInfo *info, const void *image,
const void *palette, int x, int y, int paletteX, int paletteY, int width,
int height, GP0ColorDepth colorDepth)`. -/
def uploadIndexedTexture {σ : Type} (G : GpuConsts) (T : TexConsts) (hw : Hardware σ)
    (fuel : Nat) (info : TextureInfo) (image palette : Nat)
    (x y paletteX paletteY width height : Int) (colorDepth : Nat) (s : Bus σ) :
    TextureInfo × Outcome σ :=
  if ¬ (width ≤ 256 ∧ height ≤ 256) then (info, Outcome.assertFailed s)
  else
    let numColors : Int := if colorDepth = T.GP0_COLOR_8BPP then 256 else 16
    let widthDivider : Int := if colorDepth = T.GP0_COLOR_8BPP then 2 else 4
    if ¬ (Int.tmod paletteX 16 = 0 ∧ paletteX + numColors ≤ 1024) then
      (info, Outcome.assertFailed s)
    else
      match sendVRAMData G hw fuel image x y (Int.tdiv width widthDivider) height s with
      | Outcome.spinning => (info, Outcome.spinning)
      | Outcome.assertFailed s => (info, Outcome.assertFailed s)
      | Outcome.returned s =>
        match waitForDMADone G hw fuel s with
        | none => (info, Outcome.spinning)
        | some s =>
          match sendVRAMData G hw fuel palette paletteX paletteY numColors 1 s with
          | Outcome.spinning => (info, Outcome.spinning)
          | Outcome.assertFailed s => (info, Outcome.assertFailed s)
          | Outcome.returned s =>
            match waitForDMADone G hw fuel s with
            | none => (info, Outcome.spinning)
            | some s =>
              ({ page := T.gp0_page (Int.tdiv x 64) (Int.tdiv y 256) T.GP0_BLEND_SEMITRANS
                    colorDepth
                 clut := T.gp0_clut (Int.tdiv paletteX 16) paletteY
                 u := (Int.tmod x 64 * widthDivider % 2 ^ 8).toNat
                 v := (Int.tmod y 256 % 2 ^ 8).toNat
                 width := (width % 2 ^ 16).toNat
                 height := (height % 2 ^ 16).toNat }, Outcome.returned s)

/-- Values of the upstream `ps1/gpucmd.h`, used for concrete runs. -/
def psxTex : TexConsts where
  GP0_BLEND_SEMITRANS := 0
  GP0_COLOR_4BPP := 0
  GP0_COLOR_8BPP := 1
  GP0_COLOR_16BPP := 2
  gp0_page := fun x y blendMode colorDepth =>
    ((x % 16).toNat) ||| (((y % 2).toNat) <<< 4) ||| ((blendMode % 4) <<< 5) |||
      ((colorDepth % 4) <<< 7) ||| (((y / 2 % 2).toNat) <<< 11)
  gp0_clut := fun x y => ((x % 64).toNat) ||| (((y % 1024).toNat) <<< 6)

/-- A descriptor that has not been filled in. -/
def blankTexture : TextureInfo :=
  { page := 0, clut := 0, u := 0, v := 0, width := 0, height := 0 }

/-- `SpriteInfo` of `main.c`. -/
structure SpriteInfo where
  x : Nat
  y : Nat
  width : Nat
  height : Nat
  deriving DecidableEq

/-- The table `fontSprites` of `main.c`, in the order of the source: the
entries for `!` to `~`, the box for an invalid character, and 21 more. -/
def fontSprites : List SpriteInfo :=
  [SpriteInfo.mk 6 0 2 9, SpriteInfo.mk 12 0 4 9, SpriteInfo.mk 18 0 6 9, SpriteInfo.mk 24 0 6 9,
   SpriteInfo.mk 30 0 6 9, SpriteInfo.mk 36 0 6 9, SpriteInfo.mk 42 0 2 9,
   SpriteInfo.mk 48 0 3 9, SpriteInfo.mk 54 0 3 9, SpriteInfo.mk 60 0 4 9,
   SpriteInfo.mk 66 0 6 9, SpriteInfo.mk 72 0 3 9, SpriteInfo.mk 78 0 6 9,
   SpriteInfo.mk 84 0 2 9, SpriteInfo.mk 90 0 6 9, SpriteInfo.mk 0 9 6 9, SpriteInfo.mk 6 9 6 9,
   SpriteInfo.mk 12 9 6 9, SpriteInfo.mk 18 9 6 9, SpriteInfo.mk 24 9 6 9,
   SpriteInfo.mk 30 9 6 9, SpriteInfo.mk 36 9 6 9, SpriteInfo.mk 42 9 6 9,
   SpriteInfo.mk 48 9 6 9, SpriteInfo.mk 54 9 6 9, SpriteInfo.mk 60 9 2 9,
   SpriteInfo.mk 66 9 3 9, SpriteInfo.mk 72 9 6 9, SpriteInfo.mk 78 9 6 9,
   SpriteInfo.mk 84 9 6 9, SpriteInfo.mk 90 9 6 9, SpriteInfo.mk 0 18 6 9,
   SpriteInfo.mk 6 18 6 9, SpriteInfo.mk 12 18 6 9, SpriteInfo.mk 18 18 6 9,
   SpriteInfo.mk 24 18 6 9, SpriteInfo.mk 30 18 6 9, SpriteInfo.mk 36 18 6 9,
   SpriteInfo.mk 42 18 6 9, SpriteInfo.mk 48 18 6 9, SpriteInfo.mk 54 18 4 9,
   SpriteInfo.mk 60 18 5 9, SpriteInfo.mk 66 18 6 9, SpriteInfo.mk 72 18 6 9,
   SpriteInfo.mk 78 18 6 9, SpriteInfo.mk 84 18 6 9, SpriteInfo.mk 90 18 6 9,
   SpriteInfo.mk 0 27 6 9, SpriteInfo.mk 6 27 6 9, SpriteInfo.mk 12 27 6 9,
   SpriteInfo.mk 18 27 6 9, SpriteInfo.mk 24 27 6 9, SpriteInfo.mk 30 27 6 9,
   SpriteInfo.mk 36 27 6 9, SpriteInfo.mk 42 27 6 9, SpriteInfo.mk 48 27 6 9,
   SpriteInfo.mk 54 27 6 9, SpriteInfo.mk 60 27 6 9, SpriteInfo.mk 66 27 3 9,
   SpriteInfo.mk 72 27 6 9, SpriteInfo.mk 78 27 3 9, SpriteInfo.mk 84 27 4 9,
   SpriteInfo.mk 90 27 6 9, SpriteInfo.mk 0 36 3 9, SpriteInfo.mk 6 36 6 9,
   SpriteInfo.mk 12 36 6 9, SpriteInfo.mk 18 36 6 9, SpriteInfo.mk 24 36 6 9,
   SpriteInfo.mk 30 36 6 9, SpriteInfo.mk 36 36 5 9, SpriteInfo.mk 42 36 6 9,
   SpriteInfo.mk 48 36 5 9, SpriteInfo.mk 54 36 2 9, SpriteInfo.mk 60 36 4 9,
   SpriteInfo.mk 66 36 5 9, SpriteInfo.mk 72 36 2 9, SpriteInfo.mk 78 36 6 9,
   SpriteInfo.mk 84 36 5 9, SpriteInfo.mk 90 36 6 9, SpriteInfo.mk 0 45 6 9,
   SpriteInfo.mk 6 45 6 9, SpriteInfo.mk 12 45 6 9, SpriteInfo.mk 18 45 6 9,
   SpriteInfo.mk 24 45 5 9, SpriteInfo.mk 30 45 5 9, SpriteInfo.mk 36 45 6 9,
   SpriteInfo.mk 42 45 6 9, SpriteInfo.mk 48 45 6 9, SpriteInfo.mk 54 45 6 9,
   SpriteInfo.mk 60 45 5 9, SpriteInfo.mk 66 45 4 9, SpriteInfo.mk 72 45 2 9,
   SpriteInfo.mk 78 45 4 9, SpriteInfo.mk 84 45 6 9, SpriteInfo.mk 90 45 6 9,
   SpriteInfo.mk 0 54 6 9, SpriteInfo.mk 6 54 6 9, SpriteInfo.mk 12 54 4 9,
   SpriteInfo.mk 18 54 4 9, SpriteInfo.mk 24 54 6 9, SpriteInfo.mk 30 54 6 9,
   SpriteInfo.mk 36 54 6 9, SpriteInfo.mk 42 54 6 9, SpriteInfo.mk 0 63 7 9,
   SpriteInfo.mk 12 63 7 9, SpriteInfo.mk 24 63 9 9, SpriteInfo.mk 36 63 8 10,
   SpriteInfo.mk 48 63 11 10, SpriteInfo.mk 60 63 12 10, SpriteInfo.mk 72 63 14 9,
   SpriteInfo.mk 0 73 10 10, SpriteInfo.mk 12 73 10 10, SpriteInfo.mk 24 73 10 10,
   SpriteInfo.mk 36 73 10 9, SpriteInfo.mk 48 73 10 9, SpriteInfo.mk 60 73 10 10]

def FONT_FIRST_TABLE_CHAR : Nat := 0x21

/-- The index `ch - FONT_FIRST_TABLE_CHAR` with which `printString` reads
`fontSprites` for a byte `ch` that is not a tab, newline or space: bytes
`0x99..0xFF` are first replaced by `0x7f`; the subtraction is done on `int`. -/
def spriteIndex (ch : Nat) : Int :=
  (((if 0x99 ≤ ch ∧ ch ≤ 0xFF then 0x7f else ch : Nat) : Nat) : Int) -
    (FONT_FIRST_TABLE_CHAR : Int)

/-- The indices with which the loop of `printString` reads `fontSprites`, in
order, for a string given as its bytes before the terminating NUL. -/
def printStringIndices : List Nat → List Int
  | [] => []
  | ch :: str =>
    if ch = 0x09 then printStringIndices str
    else if ch = 0x0A then printStringIndices str
    else if ch = 0x20 then printStringIndices str
    else spriteIndex ch :: printStringIndices str

/-- Trace of the font image transfer of `main` on an idle GPU, newest event
first: a 24 by 84 block to (640, 0). -/
def fontImageLog : List Event :=
  [Event.write Reg.DMA_CHCR 0x01000201, Event.write Reg.DMA_BCR 0x003F0010,
    Event.write Reg.DMA_MADR 0, Event.write Reg.GPU_GP0 0x00540018,
    Event.write Reg.GPU_GP0 640, Event.write Reg.GPU_GP0 0xa0000000,
    Event.read Reg.GPU_GP1 0x04000000, Event.read Reg.DMA_CHCR 0]

/-- Trace up to the end of the font palette transfer that follows: a 16 by 1
block to (640, 84). -/
def fontPaletteLog : List Event :=
  [Event.write Reg.DMA_CHCR 0x01000201, Event.write Reg.DMA_BCR 0x00010008,
    Event.write Reg.DMA_MADR 32, Event.write Reg.GPU_GP0 0x00010010,
    Event.write Reg.GPU_GP0 0x00540280, Event.write Reg.GPU_GP0 0xa0000000,
    Event.read Reg.GPU_GP1 0x04000000, Event.read Reg.DMA_CHCR 0,
    Event.read Reg.DMA_CHCR 0] ++ fontImageLog

/-! ## The frame loop of main.c -/

def SCREEN_WIDTH : Int := 320

/-- Constants of `ps1/registers.h` and `ps1/gpucmd.h` used by the frame loop,
and the addresses of the arrays `dmaChains[0].data` and `dmaChains[1].data`
(indexed by `usingSecondFrame`). -/
structure FrameConsts where
  IRQ_VSYNC : Nat
  gp1_fbOffset : Int → Int → Nat
  chainData : Bool → Nat

/-- `void waitForVSync(void)` of `gpu.c`. -/
def waitForVSync {σ : Type} (F : FrameConsts) (hw : Hardware σ) : Nat → Bus σ → Option (Bus σ)
  | 0, _ => none
  | n + 1, s =>
    let (irq, s) := readReg hw Reg.IRQ_STAT s
    if irq &&& (1 <<< F.IRQ_VSYNC) ≠ 0 then
      some (writeReg hw Reg.IRQ_STAT (not32 (1 <<< F.IRQ_VSYNC)) s)
    else
      waitForVSync F hw n s

/-- Modelled from the spec: `waitForVblank()`, called by `main` at the end of
a frame, is not part of the sources at hand; the frame end "waits for the next
vertical-sync pulse (clearing its pending flag)", which is what `waitForVSync`
of `gpu.c` does. -/
def waitForVblank {σ : Type} (F : FrameConsts) (hw : Hardware σ) (fuel : Nat) (s : Bus σ) :
    Option (Bus σ) :=
  waitForVSync F hw fuel s

/-- The variables of `main` that the frame loop works on: the two chains, the
flag `usingSecondFrame` and the machine state. -/
structure FrameLoop (σ : Type) where
  dmaChains : Bool → DMAChain
  usingSecondFrame : Bool
  bus : Bus σ

/-- What the menu logic of one frame does besides polling the controller:
`sizes` lists the payload sizes of the packets it allocates in the chain (the
packets of lines 526-543 and those of the `printString` calls), and `cdrom`
stands for its CD-ROM commands (`issueCDROMCommand`, `list_and_parse`), whose
driver `cdrom.c` is not part of the sources at hand. -/
structure MenuWork (σ : Type) where
  sizes : List Int
  cdrom : Bus σ → Option (Bus σ)

/-- A frame of the loop of `main` up to and including the end tag (lines
516-774): the chain `dmaChains[usingSecondFrame]` is selected and the flag
flipped, the framebuffer offset is written to GP1, the chain is reset, packets
are allocated in it, the controller is polled twice, and the chain is
terminated.  The chain and the machine state are independent of each other, so
the allocations are gathered in one place.  `response0` is the initial content
of the response array of `getButtonPress`.  `none` stands for a frame that
does not get this far. -/
def buildFrame {σ : Type} (G : GpuConsts) (K : Consts) (F : FrameConsts) (hw : Hardware σ)
    (fuel : Nat) (response0 : Nat → Nat) (work : MenuWork σ) (st : FrameLoop σ) :
    Option (FrameLoop σ) :=
  let bufferX : Int := if st.usingSecondFrame then SCREEN_WIDTH else 0
  let bufferY : Int := 0
  let second := st.usingSecondFrame
  let bus := writeReg hw Reg.GPU_GP1 (F.gp1_fbOffset bufferX bufferY) st.bus
  let chain := resetChain (st.dmaChains second)
  match allocateAll G chain work.sizes with
  | none => none
  | some chain =>
    match getButtonPress K hw fuel 0 response0 bus with
    | none => none
    | some (_, bus) =>
      match getButtonPress K hw fuel 0 response0 bus with
      | none => none
      | some (_, bus) =>
        match work.cdrom bus with
        | none => none
        | some bus =>
          some { dmaChains := Function.update st.dmaChains second (terminateChain chain)
                 usingSecondFrame := !second
                 bus := bus }

/-- The end of a frame (lines 775-777): `waitForGP0Ready(); waitForVblank();
sendLinkedList(chain->data);` for the chain selected at the start of the
frame. -/
def submitFrame {σ : Type} (G : GpuConsts) (F : FrameConsts) (hw : Hardware σ) (fuel : Nat)
    (second : Bool) (st : FrameLoop σ) : Option (FrameLoop σ) :=
  match waitForGP0Ready G hw fuel st.bus with
  | none => none
  | some bus =>
    match waitForVblank F hw fuel bus with
    | none => none
    | some bus =>
      match sendLinkedList G hw fuel (F.chainData second) bus with
      | Outcome.returned bus => some { st with bus := bus }
      | Outcome.assertFailed _ => none
      | Outcome.spinning => none

/-- One pass through the body of `for (;;)` in `main`. -/
def frame {σ : Type} (G : GpuConsts) (K : Consts) (F : FrameConsts) (hw : Hardware σ)
    (fuel : Nat) (response0 : Nat → Nat) (work : MenuWork σ) (st : FrameLoop σ) :
    Option (FrameLoop σ) :=
  match buildFrame G K F hw fuel response0 work st with
  | none => none
  | some st1 => submitFrame G F hw fuel st.usingSecondFrame st1

/-- As many passes as the list has entries, one entry per frame. -/
def runFrames {σ : Type} (G : GpuConsts) (K : Consts) (F : FrameConsts) (hw : Hardware σ)
    (fuel : Nat) (response0 : Nat → Nat) : List (MenuWork σ) → FrameLoop σ → Option (FrameLoop σ)
  | [], st => some st
  | work :: rest, st =>
    match frame G K F hw fuel response0 work st with
    | none => none
    | some st => runFrames G K F hw fuel response0 rest st

/-- Whether an access leaves the DMA channel of the GPU alone. -/
def dmaFree : Event → Bool
  | Event.read Reg.DMA_CHCR _ => false
  | Event.write Reg.DMA_CHCR _ => false
  | Event.write Reg.DMA_MADR _ => false
  | _ => true

/-- The address written last to `DMA_MADR`. -/
def lastMADR : List Event → Option Nat
  | [] => none
  | Event.write Reg.DMA_MADR v :: _ => some v
  | _ :: older => lastMADR older

/-- The source addresses of the DMA submissions that are in flight according
to the trace: a submission starts when `DMA_CHCR` is written with the enable
bit, from the address last written to `DMA_MADR`, and every submission lasts
until `DMA_CHCR` is read with the enable bit clear. -/
def dmaInFlight (G : GpuConsts) : List Event → List Nat
  | [] => []
  | Event.read Reg.DMA_CHCR v :: older =>
    if v &&& G.DMA_CHCR_ENABLE = 0 then [] else dmaInFlight G older
  | Event.write Reg.DMA_CHCR v :: older =>
    if v &&& G.DMA_CHCR_ENABLE ≠ 0 then (lastMADR older).toList ++ dmaInFlight G older
    else dmaInFlight G older
  | _ :: older => dmaInFlight G older

/-- Frame-loop constants for concrete runs. -/
def psxFrame : FrameConsts where
  IRQ_VSYNC := 0
  gp1_fbOffset := fun x y => 0x05000000 ||| (x % 1024).toNat ||| ((y % 1024).toNat <<< 10)
  chainData := fun second => if second then 0x80101008 else 0x80100000

/-- A console with no controller attached whose GPU and DMA channel are always
ready and whose vertical-sync flag is always pending. -/
def idleConsole : Hardware Unit where
  read r _ :=
    match r with
    | Reg.GPU_GP1 => psxGpu.GP1_STAT_CMD_READY
    | Reg.IRQ_STAT => 1 <<< psxFrame.IRQ_VSYNC
    | _ => 0
  afterRead _ d := d
  afterWrite _ _ d := d
  afterDelay _ d := d

/-- The loop variables before the first frame. -/
def frameStart : FrameLoop Unit :=
  { dmaChains := fun _ => blankChain
    usingSecondFrame := false
    bus := { dev := (), ctrl := 0, log := [] } }

/-- A frame that draws the two setup packets and one line of text of five
characters, and sends no CD-ROM command. -/
def plainFrame : MenuWork Unit := { sizes := [4, 3, 4, 4, 4, 4, 4], cdrom := fun s => some s }

/-! ## Sorting the listing (main.c) -/

def MAX_LINES : Int := 3000

def MAX_LENGTH : Nat := 60

/-- `tolower` of `<ctype.h>` in the "C" locale, applied to a value of
`unsigned char`. -/
def tolower (c : Nat) : Nat := if 0x41 ≤ c ∧ c ≤ 0x5A then c + 0x20 else c

/-- The value of a `char` holding the byte `v`; `signedChar` tells whether
`char` is a signed type on the target. -/
def toChar (signedChar : Bool) (v : Nat) : Int :=
  if signedChar = true ∧ 128 ≤ v % 256 then ((v % 256 : Nat) : Int) - 256
  else ((v % 256 : Nat) : Int)

/-- `int caseInsensitiveCompare(const char *a, const char *b)`.  A string is
the list of its bytes before the terminating NUL; `*a` at the end of the list
is the NUL. -/
def caseInsensitiveCompare (signedChar : Bool) : List Nat → List Nat → Int
  | a :: as, b :: bs =>
    let charA := toChar signedChar (tolower a)
    let charB := toChar signedChar (tolower b)
    if charA ≠ charB then charA - charB
    else caseInsensitiveCompare signedChar as bs
  | as, bs => toChar signedChar (as.headD 0) - toChar signedChar (bs.headD 0)

/-- The arrays `lines` and `indexes` that the sort works on, indexed as in C. -/
structure Listing where
  lines : Int → List Nat
  indexes : Int → Nat

/-- `void swap(char a[], char b[])` on the lines at positions `a` and `b`: three
`strcpy` calls through `temp`.  Copying a line onto itself, which happens when
both positions are the same, leaves it as it is. -/
def swap (lines : Int → List Nat) (a b : Int) : Int → List Nat :=
  let temp := lines a
  let lines := Function.update lines a (lines b)
  Function.update lines b temp

/-- `void swapIndex(uint16_t *a, uint16_t *b)` on the entries at positions `a`
and `b`. -/
def swapIndex (indexes : Int → Nat) (a b : Int) : Int → Nat :=
  let temp := indexes a
  let indexes := Function.update indexes a (indexes b)
  Function.update indexes b temp

/-- The `for (int j = low; j < high; j++)` loop of `partition`; the first
argument bounds the number of iterations. -/
def partitionLoop (signedChar : Bool) (pivot : List Nat) (high : Int) :
    Nat → Int → Int → Listing → Int × Listing
  | 0, _, i, L => (i, L)
  | n + 1, j, i, L =>
    if j < high then
      if caseInsensitiveCompare signedChar (L.lines j) pivot < 0 then
        let i := i + 1
        partitionLoop signedChar pivot high n (j + 1) i
          { lines := swap L.lines i j, indexes := swapIndex L.indexes i j }
      else
        partitionLoop signedChar pivot high n (j + 1) i L
    else (i, L)

/-- `int partition(char lines[][MAX_LENGTH], uint16_t indexes[], int low, int high)`. -/
def partition (signedChar : Bool) (low high : Int) (L : Listing) : Int × Listing :=
  let pivot := L.lines high
  let i := low - 1
  let (i, L) := partitionLoop signedChar pivot high (high - low).toNat low i L
  (i + 1, { lines := swap L.lines (i + 1) high, indexes := swapIndex L.indexes (i + 1) high })

/-- `void quickSort(char lines[][MAX_LENGTH], uint16_t indexes[], int low, int high)`;
the first argument bounds the depth of the recursion. -/
def quickSort (signedChar : Bool) : Nat → Int → Int → Listing → Option Listing
  | 0, _, _, _ => none
  | fuel + 1, low, high, L =>
    if low < high then
      let (pi, L) := partition signedChar low high L
      match quickSort signedChar fuel low (pi - 1) L with
      | none => none
      | some L => quickSort signedChar fuel (pi + 1) high L
    else some L

/-- A line as `list_and_parse` stores it: fewer than `MAX_LENGTH` bytes, none
of them NUL. -/
def isLine (s : List Nat) : Prop := s.length < MAX_LENGTH ∧ ∀ c ∈ s, 0 < c ∧ c < 256

/-- The arrays of `L'` are those of `L` with the positions `low..high`
rearranged, both arrays in the same way. -/
def Permuted (low high : Int) (L L' : Listing) : Prop :=
  ∃ p : Equiv.Perm Int, (∀ k, k < low ∨ high < k → p k = k) ∧
    (∀ k, L'.lines k = L.lines (p k)) ∧ (∀ k, L'.indexes k = L.indexes (p k))

/-- Three lines, "beta", "Alpha" and "alpha", with the identity in `indexes`. -/
def threeLines : Listing where
  lines := fun k =>
    if k = 0 then [0x62, 0x65, 0x74, 0x61]
    else if k = 1 then [0x41, 0x6C, 0x70, 0x68, 0x61]
    else if k = 2 then [0x61, 0x6C, 0x70, 0x68, 0x61]
    else []
  indexes := fun k => k.toNat

/-! ## Moving through the list menu (main.c) -/

/-- Button masks of `controller.h`, which is not part of the sources at hand. -/
structure ButtonMasks where
  BUTTON_MASK_UP : Nat
  BUTTON_MASK_DOWN : Nat
  BUTTON_MASK_LEFT : Nat
  BUTTON_MASK_RIGHT : Nat

/-- The variables `selectedindex` (a `uint16_t`) and `startnumber` (an `int`)
of `main`. -/
structure Menu where
  selectedindex : Nat
  startnumber : Int
deriving DecidableEq

/-- The body of `if(pressedButtons & BUTTON_MASK_UP)` (lines 657-662). -/
def pressUp (m : Menu) : Menu :=
  if m.selectedindex > 0 then
    let selectedindex := (((m.selectedindex : Int) - 1) % 65536).toNat
    if m.startnumber - (selectedindex : Int) = 1 then
      { selectedindex := selectedindex, startnumber := m.startnumber - 20 }
    else
      { selectedindex := selectedindex, startnumber := m.startnumber }
  else m

/-- The body of `if(pressedButtons & BUTTON_MASK_DOWN)` (lines 667-672).  The
sums of the counts are taken in `ℤ`: the counts are at most `MAX_LINES`. -/
def pressDown (dirFix : Nat) (gameLineCount dirLineCount : Int) (m : Menu) : Menu :=
  if (m.selectedindex : Int) < (dirFix : Int) + gameLineCount + dirLineCount - 1 then
    let selectedindex := (((m.selectedindex : Int) + 1) % 65536).toNat
    if (selectedindex : Int) - m.startnumber > 19 then
      { selectedindex := selectedindex, startnumber := m.startnumber + 20 }
    else
      { selectedindex := selectedindex, startnumber := m.startnumber }
  else m

/-- The body of `if(pressedButtons & BUTTON_MASK_RIGHT)` (lines 677-686). -/
def pressRight (dirFix : Nat) (gameLineCount dirLineCount : Int) (m : Menu) : Menu :=
  if (dirFix : Int) + gameLineCount + dirLineCount > 20 then
    if (m.selectedindex : Int) ≤ (gameLineCount + dirLineCount) - 20 then
      { selectedindex := (((m.selectedindex : Int) + 20) % 65536).toNat
        startnumber := m.startnumber + 20 }
    else if (m.selectedindex : Int) - (((dirFix : Int) + gameLineCount + dirLineCount) - 20) > 0 ∧
        m.startnumber + (m.selectedindex : Int) < (dirFix : Int) + gameLineCount + dirLineCount then
      { selectedindex := ((gameLineCount + dirLineCount) % 65536).toNat
        startnumber := m.startnumber + 20 }
    else m
  else m

/-- The body of `if(pressedButtons & BUTTON_MASK_LEFT)` (lines 693-700). -/
def pressLeft (m : Menu) : Menu :=
  if m.selectedindex > 19 then
    let selectedindex := (((m.selectedindex : Int) - 20) % 65536).toNat
    if m.startnumber - 20 ≤ 1 then
      { selectedindex := selectedindex, startnumber := 0 }
    else
      { selectedindex := selectedindex, startnumber := m.startnumber - 20 }
  else m

/-- What one frame of the list menu does to `selectedindex` and `startnumber`
for the just-pressed buttons `pressedButtons` (lines 656-702): UP, DOWN, RIGHT
and LEFT are handled in this order. -/
def navigate (B : ButtonMasks) (dirFix : Nat) (gameLineCount dirLineCount : Int)
    (pressedButtons : Nat) (m : Menu) : Menu :=
  let m := if pressedButtons &&& B.BUTTON_MASK_UP ≠ 0 then pressUp m else m
  let m := if pressedButtons &&& B.BUTTON_MASK_DOWN ≠ 0 then
    pressDown dirFix gameLineCount dirLineCount m else m
  let m := if pressedButtons &&& B.BUTTON_MASK_RIGHT ≠ 0 then
    pressRight dirFix gameLineCount dirLineCount m else m
  if pressedButtons &&& B.BUTTON_MASK_LEFT ≠ 0 then pressLeft m else m

/-- The selection is on the page shown: `startnumber` is a multiple of 20 and
`startnumber ≤ selectedindex < startnumber + 20`. -/
def OnPage (m : Menu) : Prop :=
  m.startnumber % 20 = 0 ∧ m.startnumber ≤ (m.selectedindex : Int) ∧
    (m.selectedindex : Int) < m.startnumber + 20

/-- Button masks of the PS1 digital pad. -/
def psxButtons : ButtonMasks where
  BUTTON_MASK_UP := 1 <<< 4
  BUTTON_MASK_RIGHT := 1 <<< 5
  BUTTON_MASK_DOWN := 1 <<< 6
  BUTTON_MASK_LEFT := 1 <<< 7

/-- What a packet exchange keeps true of a write to `SIO_CTRL` between
asserting DTR and releasing it: DTR is set in the value written and the
port-select bit is `cs`.  Other accesses are not constrained. -/
def ctrlHeld (K : Consts) (cs : Nat) : Event → Prop
  | Event.write Reg.SIO_CTRL v =>
    v &&& K.SIO_CTRL_DTR = K.SIO_CTRL_DTR ∧ v &&& K.SIO_CTRL_CS_PORT_2 = cs
  | _ => True

/-! ## Bit arithmetic -/

theorem and_not32_and (c m : Nat) : (c &&& not32 m) &&& m = 0 := by
  apply Nat.eq_of_testBit_eq
  intro i
  have h : (0xFFFFFFFF : Nat) = 2 ^ 32 - 1 := by norm_num
  simp only [not32, Nat.testBit_land, Nat.testBit_xor, Nat.zero_testBit,
    Nat.testBit_mod_two_pow, h, Nat.testBit_two_pow_sub_one]
  by_cases hi : i < 32 <;> cases c.testBit i <;> cases m.testBit i <;> simp [hi]

/-! ## The acknowledge wait -/

theorem waitLoop_succ {σ : Type} (K : Consts) (hw : Hardware σ) (n : Nat) (t : Int)
    (s : Bus σ) :
    waitForAcknowledgeLoop K hw (n + 1) t s =
      if t > 0 then
        if hw.read Reg.IRQ_STAT s.dev &&& (1 <<< K.IRQ_SIO0) ≠ 0 then
          (true, writeReg hw Reg.SIO_CTRL (s.ctrl ||| K.SIO_CTRL_ACKNOWLEDGE)
            (readReg hw Reg.SIO_CTRL
              (writeReg hw Reg.IRQ_STAT (not32 (1 <<< K.IRQ_SIO0))
                (readReg hw Reg.IRQ_STAT s).2)).2)
        else
          waitForAcknowledgeLoop K hw n (t - 10)
            (delayMicroseconds hw 10 (readReg hw Reg.IRQ_STAT s).2)
      else (false, s) := by
  rfl

theorem waitLoop_observed {σ : Type} (K : Consts) (hw : Hardware σ) (n : Nat) :
    ∀ (t : Int) (s : Bus σ), (waitForAcknowledgeLoop K hw n t s).1 = true →
      ∃ v, Event.read Reg.IRQ_STAT v ∈ (waitForAcknowledgeLoop K hw n t s).2.log ∧
        v &&& (1 <<< K.IRQ_SIO0) ≠ 0 := by
  induction n with
  | zero => intro t s h; simp [waitForAcknowledgeLoop] at h
  | succ n ih =>
    intro t s h
    rw [waitLoop_succ] at h ⊢
    by_cases ht : t > 0
    · rw [if_pos ht] at h ⊢
      by_cases hf : hw.read Reg.IRQ_STAT s.dev &&& (1 <<< K.IRQ_SIO0) ≠ 0
      · rw [if_pos hf]
        exact ⟨_, by simp [writeReg, readReg], hf⟩
      · rw [if_neg hf] at h ⊢
        exact ih _ _ h
    · rw [if_neg ht] at h
      exact absurd h (by simp)

theorem waitLoop_false {σ : Type} (K : Consts) (hw : Hardware σ) (n : Nat) :
    ∀ (t : Int) (s : Bus σ), (waitForAcknowledgeLoop K hw n t s).1 = false →
      (waitForAcknowledgeLoop K hw n t s).2.ctrl = s.ctrl ∧
      txBytes (waitForAcknowledgeLoop K hw n t s).2.log = txBytes s.log ∧
      ∀ e, e ∈ (waitForAcknowledgeLoop K hw n t s).2.log → e ∈ s.log ∨
        (∃ v, e = Event.read Reg.IRQ_STAT v) ∨ ∃ us, e = Event.delay us := by
  induction n with
  | zero =>
    intro t s _
    exact ⟨rfl, rfl, fun e he => Or.inl he⟩
  | succ n ih =>
    intro t s h
    rw [waitLoop_succ] at h ⊢
    by_cases ht : t > 0
    · rw [if_pos ht] at h ⊢
      by_cases hf : hw.read Reg.IRQ_STAT s.dev &&& (1 <<< K.IRQ_SIO0) ≠ 0
      · rw [if_pos hf] at h
        exact absurd h (by simp)
      · rw [if_neg hf] at h ⊢
        obtain ⟨h1, h2, h3⟩ := ih _ _ h
        refine ⟨?_, ?_, ?_⟩
        · rw [h1]; simp [delayMicroseconds, readReg]
        · rw [h2]; simp [delayMicroseconds, readReg, txBytes]
        · intro e he
          rcases h3 e he with h4 | h4 | h4
          · simp only [delayMicroseconds, readReg, List.mem_cons] at h4
            rcases h4 with h4 | h4 | h4
            · exact Or.inr (Or.inr ⟨_, h4⟩)
            · exact Or.inr (Or.inl ⟨_, h4⟩)
            · exact Or.inl h4
          · exact Or.inr (Or.inl h4)
          · exact Or.inr (Or.inr h4)
    · rw [if_neg ht]
      exact ⟨rfl, rfl, fun e he => Or.inl he⟩

/-! ## What each routine adds to the trace -/

theorem spinUntil_succ {σ : Type} (hw : Hardware σ) (mask n : Nat) (s : Bus σ) :
    spinUntil hw mask (n + 1) s =
      if hw.read Reg.SIO_STAT s.dev &&& mask ≠ 0 then some (readReg hw Reg.SIO_STAT s).2
      else spinUntil hw mask n (readReg hw Reg.SIO_STAT s).2 := by
  rfl

theorem spinUntil_obs {σ : Type} (K : Consts) (hw : Hardware σ) (mask n : Nat) :
    ∀ s s' : Bus σ, spinUntil hw mask n s = some s' →
      s'.ctrl = s.ctrl ∧ wire s'.log = wire s.log ∧ txBytes s'.log = txBytes s.log ∧
        ackPattern K s'.log = ackPattern K s.log := by
  induction n with
  | zero => intro s s' h; simp [spinUntil] at h
  | succ n ih =>
    intro s s' h
    rw [spinUntil_succ] at h
    by_cases hc : hw.read Reg.SIO_STAT s.dev &&& mask ≠ 0
    · rw [if_pos hc] at h
      cases h
      exact ⟨rfl, rfl, rfl, rfl⟩
    · rw [if_neg hc] at h
      obtain ⟨h1, h2, h3, h4⟩ := ih _ _ h
      exact ⟨h1, h2, h3, h4⟩

theorem exchangeByte_obs {σ : Type} (K : Consts) (hw : Hardware σ) (fuel v : Nat)
    (s s' : Bus σ) (b : Nat) (h : exchangeByte K hw fuel v s = some (b, s')) :
    ∃ r, b = r % 256 ∧ s'.ctrl = s.ctrl ∧
      wire s'.log = wire s.log ++ [Event.write Reg.SIO_DATA v, Event.read Reg.SIO_DATA r] ∧
      txBytes s'.log = txBytes s.log ++ [v] ∧
      ackPattern K s'.log = ackPattern K s.log ++ [false] := by
  unfold exchangeByte at h
  cases h1 : spinUntil hw K.SIO_STAT_TX_NOT_FULL fuel s with
  | none => rw [h1] at h; cases h
  | some s1 =>
    rw [h1] at h
    simp only at h
    cases h2 : spinUntil hw K.SIO_STAT_RX_NOT_EMPTY fuel (writeReg hw Reg.SIO_DATA v s1) with
    | none => rw [h2] at h; cases h
    | some s2 =>
      rw [h2] at h
      simp only [Option.some.injEq, Prod.mk.injEq] at h
      obtain ⟨hb, hs⟩ := h
      obtain ⟨a1, a2, a3, a4⟩ := spinUntil_obs K hw _ _ _ _ h1
      obtain ⟨c1, c2, c3, c4⟩ := spinUntil_obs K hw _ _ _ _ h2
      refine ⟨(readReg hw Reg.SIO_DATA s2).1, hb.symm, ?_, ?_, ?_, ?_⟩
      · rw [← hs]; simp [readReg, c1, writeReg, a1]
      · rw [← hs]; simp [readReg, wire, c2, writeReg, a2]
      · rw [← hs]; simp [readReg, txBytes, c3, writeReg, a3]
      · rw [← hs]; simp [readReg, ackPattern, c4, writeReg, a4]

theorem drainRx_succ {σ : Type} (K : Consts) (hw : Hardware σ) (n : Nat) (s : Bus σ) :
    drainRx K hw (n + 1) s =
      if hw.read Reg.SIO_STAT s.dev &&& K.SIO_STAT_RX_NOT_EMPTY ≠ 0 then
        drainRx K hw n (readReg hw Reg.SIO_DATA (readReg hw Reg.SIO_STAT s).2).2
      else some (readReg hw Reg.SIO_STAT s).2 := by
  rfl

theorem drainRx_obs {σ : Type} (K : Consts) (hw : Hardware σ) (n : Nat) :
    ∀ s s' : Bus σ, drainRx K hw n s = some s' →
      ∃ stale : List Nat, s'.ctrl = s.ctrl ∧
        wire s'.log = wire s.log ++ stale.map (Event.read Reg.SIO_DATA) ∧
        txBytes s'.log = txBytes s.log ∧ ackPattern K s'.log = ackPattern K s.log := by
  induction n with
  | zero => intro s s' h; simp [drainRx] at h
  | succ n ih =>
    intro s s' h
    rw [drainRx_succ] at h
    by_cases hc : hw.read Reg.SIO_STAT s.dev &&& K.SIO_STAT_RX_NOT_EMPTY ≠ 0
    · rw [if_pos hc] at h
      obtain ⟨stale, h1, h2, h3, h4⟩ := ih _ _ h
      refine ⟨(readReg hw Reg.SIO_DATA (readReg hw Reg.SIO_STAT s).2).1 :: stale, ?_, ?_, ?_, ?_⟩
      · rw [h1]; rfl
      · rw [h2]; simp [readReg, wire]
      · rw [h3]; rfl
      · rw [h4]; rfl
    · rw [if_neg hc] at h
      cases h
      exact ⟨[], rfl, by simp [readReg, wire], rfl, rfl⟩

theorem markLast_append_singleton (p : List Bool) (b : Bool) :
    markLast (p ++ [b]) = p ++ [true] := by
  induction p with
  | nil => rfl
  | cons a p ih =>
    cases p with
    | nil => rfl
    | cons c p =>
      simp only [List.cons_append] at ih ⊢
      simp only [markLast, ih]

theorem waitLoop_obs {σ : Type} (K : Consts) (hw : Hardware σ) (n : Nat) :
    ∀ (t : Int) (s : Bus σ),
      wire (waitForAcknowledgeLoop K hw n t s).2.log = wire s.log ∧
      txBytes (waitForAcknowledgeLoop K hw n t s).2.log = txBytes s.log ∧
      ackPattern K (waitForAcknowledgeLoop K hw n t s).2.log =
        (if (waitForAcknowledgeLoop K hw n t s).1 then markLast (ackPattern K s.log)
          else ackPattern K s.log) := by
  induction n with
  | zero => intro t s; simp [waitForAcknowledgeLoop]
  | succ n ih =>
    intro t s
    rw [waitLoop_succ]
    by_cases ht : t > 0
    · rw [if_pos ht]
      by_cases hf : hw.read Reg.IRQ_STAT s.dev &&& (1 <<< K.IRQ_SIO0) ≠ 0
      · rw [if_pos hf]
        refine ⟨rfl, rfl, ?_⟩
        simp [writeReg, readReg, ackPattern, hf]
      · rw [if_neg hf]
        obtain ⟨h1, h2, h3⟩ := ih (t - 10) (delayMicroseconds hw 10 (readReg hw Reg.IRQ_STAT s).2)
        refine ⟨h1, h2, ?_⟩
        rw [h3]
        simp [delayMicroseconds, readReg, ackPattern, hf]
    · rw [if_neg ht]
      simp

theorem exchangeStep_obs {σ : Type} (K : Consts) (hw : Hardware σ) (fuel : Nat)
    (hready : HwReady K hw fuel) (req : Nat → Nat) (x : Transfer σ) :
    ∃ (x1 : Transfer σ) (r : Nat), exchangeStep K hw fuel req x = some x1 ∧
      x1.respLength = x.respLength + 1 ∧ x1.response = x.response + 1 ∧
      x1.buf = Function.update x.buf x.response (r % 256) ∧
      (∀ j, txAt req x1.request x1.reqLength j = txAt req x.request x.reqLength (j + 1)) ∧
      x1.bus.ctrl = x.bus.ctrl ∧
      wire x1.bus.log = wire x.bus.log ++
        [Event.write Reg.SIO_DATA (txAt req x.request x.reqLength 0),
          Event.read Reg.SIO_DATA r] ∧
      txBytes x1.bus.log = txBytes x.bus.log ++ [txAt req x.request x.reqLength 0] ∧
      ackPattern K x1.bus.log = ackPattern K x.bus.log ++ [false] := by
  unfold exchangeStep
  by_cases hq : x.reqLength > 0
  · rw [if_pos hq]
    have hs := hready.1 (req x.request) x.bus
    cases he : exchangeByte K hw fuel (req x.request) x.bus with
    | none => rw [he] at hs; cases hs
    | some p =>
      obtain ⟨b, bus⟩ := p
      obtain ⟨r, hb, h0, h1, h2, h3⟩ := exchangeByte_obs K hw fuel _ _ _ _ he
      refine ⟨_, r, rfl, rfl, rfl, by simp [hb], ?_, h0, ?_, ?_, h3⟩
      · intro j
        simp only [txAt]
        have e1 : ((j : Int) < x.reqLength - 1) ↔ (((j + 1 : Nat) : Int) < x.reqLength) := by
          push_cast; omega
        by_cases hj : (j : Int) < x.reqLength - 1
        · rw [if_pos hj, if_pos (e1.1 hj)]
          congr 1; omega
        · rw [if_neg hj, if_neg (fun h => hj (e1.2 h))]
      · have : txAt req x.request x.reqLength 0 = req x.request := by
          simp [txAt, hq]
        rw [this]; exact h1
      · have : txAt req x.request x.reqLength 0 = req x.request := by
          simp [txAt, hq]
        rw [this]; exact h2
  · rw [if_neg hq]
    have hs := hready.1 0 x.bus
    cases he : exchangeByte K hw fuel 0 x.bus with
    | none => rw [he] at hs; cases hs
    | some p =>
      obtain ⟨b, bus⟩ := p
      obtain ⟨r, hb, h0, h1, h2, h3⟩ := exchangeByte_obs K hw fuel _ _ _ _ he
      have hz : ∀ j, txAt req x.request x.reqLength j = 0 := by
        intro j
        simp only [txAt]
        rw [if_neg]
        have : (0 : Int) ≤ (j : Int) := Int.natCast_nonneg j
        omega
      refine ⟨_, r, rfl, rfl, rfl, by simp [hb], ?_, h0, ?_, ?_, h3⟩
      · intro j
        show txAt req x.request x.reqLength j = _
        rw [hz, hz]
      · rw [hz]; exact h1
      · rw [hz]; exact h2

theorem waitForAcknowledge_obs {σ : Type} (K : Consts) (hw : Hardware σ) (t : Int)
    (s : Bus σ) :
    wire (waitForAcknowledge K hw t s).2.log = wire s.log ∧
    txBytes (waitForAcknowledge K hw t s).2.log = txBytes s.log ∧
    ackPattern K (waitForAcknowledge K hw t s).2.log =
      (if (waitForAcknowledge K hw t s).1 then markLast (ackPattern K s.log)
        else ackPattern K s.log) :=
  waitLoop_obs K hw _ t s

theorem exchangeLoop_succ {σ : Type} (K : Consts) (hw : Hardware σ) (fuel : Nat)
    (req : Nat → Nat) (maxRespLength : Int) (n : Nat) (x : Transfer σ) :
    exchangeLoop K hw fuel req maxRespLength (n + 1) x =
      if x.respLength < maxRespLength then
        match exchangeStep K hw fuel req x with
        | none => none
        | some x1 =>
          if !(waitForAcknowledge K hw DSR_TIMEOUT x1.bus).1 then
            some { x1 with bus := (waitForAcknowledge K hw DSR_TIMEOUT x1.bus).2 }
          else
            exchangeLoop K hw fuel req maxRespLength n
              { x1 with bus := (waitForAcknowledge K hw DSR_TIMEOUT x1.bus).2 }
      else some x := by
  rfl

theorem range_map_shift (f g : Nat → Nat) (h : ∀ j, g j = f (j + 1)) (m : Nat) :
    (List.range (m + 1)).map f = f 0 :: (List.range m).map g := by
  rw [List.range_succ_eq_map, List.map_cons, List.map_map]
  congr 1
  apply List.map_congr_left
  intro j _
  exact (h j).symm

theorem exchangeLoop_obs {σ : Type} (K : Consts) (hw : Hardware σ) (fuel : Nat)
    (hready : HwReady K hw fuel) (req : Nat → Nat) (maxRespLength : Int) (n : Nat) :
    ∀ x : Transfer σ, (maxRespLength - x.respLength).toNat ≤ n →
      ∃ (x' : Transfer σ) (rx : List Nat) (flags : List Bool),
        exchangeLoop K hw fuel req maxRespLength n x = some x' ∧
        x'.respLength = x.respLength + rx.length ∧
        (rx.length ≠ 0 → x'.respLength ≤ maxRespLength) ∧
        wire x'.bus.log = wire x.bus.log ++
          exchanged ((List.range rx.length).map (txAt req x.request x.reqLength)) rx ∧
        txBytes x'.bus.log = txBytes x.bus.log ++
          (List.range rx.length).map (txAt req x.request x.reqLength) ∧
        (∀ i, x'.buf i = if x.response ≤ i ∧ i < x.response + rx.length then
          rx.getD (i - x.response) 0 % 256 else x.buf i) ∧
        ackPattern K x'.bus.log = ackPattern K x.bus.log ++ flags ∧
        flags.length = rx.length ∧
        (∀ j, j + 1 < rx.length → flags.getD j false = true) ∧
        (x'.respLength < maxRespLength →
          rx.length ≠ 0 ∧ flags.getD (rx.length - 1) true = false) := by
  induction n with
  | zero =>
    intro x hx
    have hge : ¬ x.respLength < maxRespLength := by omega
    refine ⟨x, [], [], ?_, ?_, ?_, ?_, ?_, ?_, ?_, rfl, ?_, ?_⟩
    · simp [exchangeLoop, hge]
    · simp
    · simp
    · simp [exchanged]
    · simp
    · intro i; rw [if_neg]; intro h; simp only [List.length_nil] at h; omega
    · simp
    · intro j hj; simp at hj
    · intro h; exact absurd h hge
  | succ n ih =>
    intro x hx
    rw [exchangeLoop_succ]
    by_cases hlt : x.respLength < maxRespLength
    · rw [if_pos hlt]
      obtain ⟨x1, r, hstep, hresp, hptr, hbuf, htx, _, hw1, ht1, hp1⟩ :=
        exchangeStep_obs K hw fuel hready req x
      rw [hstep]
      dsimp only
      obtain ⟨w1, w2, w3⟩ := waitForAcknowledge_obs K hw DSR_TIMEOUT x1.bus
      cases hack : (waitForAcknowledge K hw DSR_TIMEOUT x1.bus).1 with
      | false =>
        rw [hack] at w3
        refine ⟨{ x1 with bus := (waitForAcknowledge K hw DSR_TIMEOUT x1.bus).2 }, [r], [false],
          by simp [hack], ?_, ?_, ?_, ?_, ?_, ?_, rfl, ?_, ?_⟩
        · simp [hresp]
        · intro _; show x1.respLength ≤ maxRespLength; omega
        · show wire (waitForAcknowledge K hw DSR_TIMEOUT x1.bus).2.log = _
          rw [w1, hw1]; simp [exchanged]
        · show txBytes (waitForAcknowledge K hw DSR_TIMEOUT x1.bus).2.log = _
          rw [w2, ht1]; rfl
        · intro i
          show x1.buf i = _
          rw [hbuf]
          by_cases hi : i = x.response
          · subst hi; simp
          · rw [Function.update_noteq hi]
            rw [if_neg]
            simp only [List.length_singleton]; omega
        · show ackPattern K (waitForAcknowledge K hw DSR_TIMEOUT x1.bus).2.log = _
          rw [w3, hp1]; simp
        · intro j hj; simp at hj
        · intro _; simp
      | true =>
        rw [hack] at w3
        have hm : (maxRespLength - x1.respLength).toNat ≤ n := by omega
        obtain ⟨x', rx, flags, hrun, a1, a2, a3, a4, a5, a6, a7, a8, a9⟩ :=
          ih { x1 with bus := (waitForAcknowledge K hw DSR_TIMEOUT x1.bus).2 } hm
        refine ⟨x', r :: rx, true :: flags, ?_, ?_, ?_, ?_, ?_, ?_, ?_, ?_, ?_, ?_⟩
        · simpa [hack] using hrun
        · rw [a1]; show x1.respLength + _ = _; rw [hresp]; simp; omega
        · intro _
          by_cases h0 : rx.length = 0
          · rw [a1]; show x1.respLength + _ ≤ _; rw [h0]; simp; omega
          · exact a2 h0
        · rw [a3]
          show wire (waitForAcknowledge K hw DSR_TIMEOUT x1.bus).2.log ++ _ = _
          rw [w1, hw1, List.length_cons, range_map_shift _ _ htx]
          simp [exchanged]
        · rw [a4]
          show txBytes (waitForAcknowledge K hw DSR_TIMEOUT x1.bus).2.log ++ _ = _
          rw [w2, ht1, List.length_cons, range_map_shift _ _ htx]
          simp
        · intro i
          rw [a5 i]
          show (if x1.response ≤ i ∧ i < x1.response + rx.length then _ else x1.buf i) = _
          rw [hptr, hbuf, List.length_cons]
          by_cases hi : i = x.response
          · subst hi; simp
          · rw [Function.update_noteq hi]
            by_cases hlo : x.response + 1 ≤ i
            · have e : i - x.response = (i - (x.response + 1)) + 1 := by omega
              rw [e, List.getD_cons_succ]
              by_cases hhi : i < x.response + 1 + rx.length
              · rw [if_pos ⟨hlo, hhi⟩, if_pos ⟨by omega, by omega⟩]
              · rw [if_neg (fun h => hhi h.2), if_neg (fun h => hhi (by omega))]
            · rw [if_neg (fun h => hlo h.1), if_neg (fun h => hlo (by omega))]
        · rw [a6]
          show ackPattern K (waitForAcknowledge K hw DSR_TIMEOUT x1.bus).2.log ++ _ = _
          rw [w3, hp1]; simp [markLast_append_singleton]
        · simp [a7]
        · intro j hj
          cases j with
          | zero => rfl
          | succ j =>
            rw [List.getD_cons_succ]
            apply a8
            simp only [List.length_cons] at hj; omega
        · intro h
          obtain ⟨b1, b2⟩ := a9 h
          refine ⟨by simp, ?_⟩
          simp only [List.length_cons, Nat.add_sub_cancel]
          obtain ⟨m, hm'⟩ := Nat.exists_eq_succ_of_ne_zero b1
          rw [hm'] at b2 ⊢
          simpa using b2
    · rw [if_neg hlt]
      refine ⟨x, [], [], rfl, ?_, ?_, ?_, ?_, ?_, ?_, rfl, ?_, ?_⟩
      · simp
      · simp
      · simp [exchanged]
      · simp
      · intro i; rw [if_neg]; intro h; simp only [List.length_nil] at h; omega
      · simp
      · intro j hj; simp at hj
      · intro h; exact absurd h hlt

theorem txAt_zero (req : Nat → Nat) (reqLength : Int) :
    txAt req 0 reqLength = fun i : Nat => if (i : Int) < reqLength then req i else 0 := by
  funext i
  simp [txAt]

theorem exchangePacket_unacked {σ : Type} (K : Consts) (hw : Hardware σ) (fuel : Nat)
    (address : Nat) (request response : Nat → Nat) (reqLength maxRespLength : Int)
    (s : Bus σ)
    (hack : (waitForAcknowledge K hw DSR_TIMEOUT (sendAddress K hw address s)).1 = false) :
    exchangePacket K hw fuel address request response reqLength maxRespLength s =
        some (0, response, releaseDTR K hw
          (waitForAcknowledge K hw DSR_TIMEOUT (sendAddress K hw address s)).2) := by
  simp only [exchangePacket]
  rw [show waitForAcknowledge K hw DSR_TIMEOUT (sendAddress K hw address s) =
      (false, (waitForAcknowledge K hw DSR_TIMEOUT (sendAddress K hw address s)).2) from
    Prod.ext hack rfl]
  simp

theorem releaseDTR_ctrl {σ : Type} (K : Consts) (hw : Hardware σ) (s : Bus σ) :
    (releaseDTR K hw s).ctrl &&& K.SIO_CTRL_DTR = 0 := by
  simp only [releaseDTR, delayMicroseconds, readReg, writeReg, if_true]
  exact and_not32_and _ _

theorem exchangePacket_acked {σ : Type} (K : Consts) (hw : Hardware σ) (fuel : Nat)
    (hready : HwReady K hw fuel) (address : Nat) (request response : Nat → Nat)
    (reqLength maxRespLength : Int) (d : σ) (ctrl : Nat)
    (hack : (waitForAcknowledge K hw DSR_TIMEOUT
      (sendAddress K hw address { dev := d, ctrl := ctrl, log := [] })).1 = true) :
    ∃ (resp' : Nat → Nat) (s' : Bus σ) (stale rx : List Nat) (flags : List Bool),
      exchangePacket K hw fuel address request response reqLength maxRespLength
        { dev := d, ctrl := ctrl, log := [] } = some ((rx.length : Int), resp', s') ∧
      (rx.length ≠ 0 → (rx.length : Int) ≤ maxRespLength) ∧
      wire s'.log = Event.write Reg.SIO_DATA address ::
        (stale.map (Event.read Reg.SIO_DATA) ++
          exchanged ((List.range rx.length).map
            (fun i : Nat => if (i : Int) < reqLength then request i else 0)) rx) ∧
      txBytes s'.log = address :: (List.range rx.length).map
        (fun i : Nat => if (i : Int) < reqLength then request i else 0) ∧
      (∀ i, resp' i = if i < rx.length then rx.getD i 0 % 256 else response i) ∧
      ackPattern K s'.log = true :: flags ∧
      flags.length = rx.length ∧
      (∀ j, j + 1 < rx.length → flags.getD j false = true) ∧
      ((rx.length : Int) < maxRespLength →
        rx.length ≠ 0 ∧ flags.getD (rx.length - 1) true = false) ∧
      s'.ctrl &&& K.SIO_CTRL_DTR = 0 := by
  obtain ⟨w1, w2, w3⟩ := waitForAcknowledge_obs K hw DSR_TIMEOUT
    (sendAddress K hw address { dev := d, ctrl := ctrl, log := [] })
  rw [hack] at w3
  have hs := hready.2 (waitForAcknowledge K hw DSR_TIMEOUT
    (sendAddress K hw address { dev := d, ctrl := ctrl, log := [] })).2
  cases hd : drainRx K hw fuel (waitForAcknowledge K hw DSR_TIMEOUT
      (sendAddress K hw address { dev := d, ctrl := ctrl, log := [] })).2 with
  | none => rw [hd] at hs; cases hs
  | some s1 =>
    obtain ⟨stale, _, d2, d3, d4⟩ := drainRx_obs K hw fuel _ _ hd
    obtain ⟨x', rx, flags, hrun, a1, a2, a3, a4, a5, a6, a7, a8, a9⟩ :=
      exchangeLoop_obs K hw fuel hready request maxRespLength maxRespLength.toNat
        { request := 0, response := 0, reqLength := reqLength, respLength := 0
          buf := response, bus := s1 } (by simp)
    simp only [zero_add, txAt_zero] at a1 a3 a4 a5
    refine ⟨x'.buf, releaseDTR K hw x'.bus, stale, rx, flags, ?_, ?_, ?_, ?_, ?_, ?_, a7, a8,
      ?_, releaseDTR_ctrl K hw _⟩
    · simp only [exchangePacket]
      rw [show waitForAcknowledge K hw DSR_TIMEOUT
          (sendAddress K hw address { dev := d, ctrl := ctrl, log := [] }) =
          (true, (waitForAcknowledge K hw DSR_TIMEOUT
          (sendAddress K hw address { dev := d, ctrl := ctrl, log := [] })).2) from
        Prod.ext hack rfl]
      simp only [if_true, hd, hrun, a1]
    · intro h; rw [← a1]; exact a2 h
    · show wire x'.bus.log = _
      rw [a3, d2, w1]
      simp [sendAddress, writeReg, readReg, delayMicroseconds, wire]
    · show txBytes x'.bus.log = _
      rw [a4, d3, w2]
      simp [sendAddress, writeReg, readReg, delayMicroseconds, txBytes]
    · intro i
      rw [a5 i]
      simp
    · show ackPattern K x'.bus.log = _
      rw [a6, d4, w3]
      simp [sendAddress, writeReg, readReg, delayMicroseconds, ackPattern, markLast]
    · intro h
      apply a9
      rw [a1]; exact h

/-! ## The simulated controller -/

theorem simPad_ready (k : Nat) (reply : Nat → Nat) : HwReady psx (simPad k reply) 2 := by
  constructor
  · intro v s
    cases h : s.dev.rx <;> simp [exchangeByte, spinUntil, readReg, writeReg, simPad, psx, h]
  · intro s
    cases h : s.dev.rx <;> simp [drainRx, readReg, simPad, psx, h]

theorem exists_of_map_fst {α β : Type} (o : Option (α × β)) (a : α)
    (h : o.map Prod.fst = some a) : ∃ b, o = some (a, b) := by
  cases o with
  | none => cases h
  | some p =>
    obtain ⟨a1, b⟩ := p
    simp only [Option.map_some', Option.some.injEq] at h
    exact ⟨b, by rw [← h]⟩


theorem option_bind_eq_some_pair {α β : Type} (o : Option α) (f : α → Option β) (b : β)
    (h : o.bind f = some b) : ∃ a, o = some a ∧ f a = some b := by
  cases o with
  | none => cases h
  | some a => exact ⟨a, rfl, h⟩

theorem simPad_poll_twice (k : Nat) (hk : k = 7 ∨ k = 8) :
    ((exchangePacket psx (simPad k padReply) 2 psx.ADDR_CONTROLLER (pollRequest psx)
        (fun _ => 0) 4 8 { dev := padIdle, ctrl := 0, log := [] }).bind
      (fun r1 =>
        (exchangePacket psx (simPad k padReply) 2 psx.ADDR_CONTROLLER (pollRequest psx)
          (fun _ => 0) 4 8 r1.2.2).bind
        (fun r2 =>
          (getButtonPress psx (simPad k padReply) 2 0 (fun _ => 0) r2.2.2).map
          (fun g => (r1.1, (List.range 8).map r1.2.1, r2.1, (List.range 8).map r2.2.1, g.1))))) =
      some (8, [0x73, 0x5A, 0xFE, 0xFF, 0x80, 0x80, 0x80, 0x80],
        8, [0x73, 0x5A, 0xFE, 0xFF, 0x80, 0x80, 0x80, 0x80], 0x0001) := by
  rcases hk with rfl | rfl <;> decide

theorem simPad_pattern :
    (exchangePacket psx (simPad 3 padReply) 2 psx.ADDR_CONTROLLER (pollRequest psx)
      (fun _ => 0) 4 8 { dev := padIdle, ctrl := 0, log := [] }).map
        (fun r => ackPattern psx r.2.2.log) = some [true, true, true, true, false] := by
  decide

/-! ## Claims -/

/-- C1: if the acknowledge flag is never seen set by the wait that follows the
address byte, `exchangePacket` returns 0, hands back the response buffer
untouched and leaves DTR cleared in `SIO_CTRL`; the flag is then not read as
set anywhere in the call, and the address is the only byte put on the wire. -/
theorem exchangePacket_no_acknowledge {σ : Type} (K : Consts) (hw : Hardware σ) (fuel : Nat)
    (address : Nat) (request response : Nat → Nat) (reqLength maxRespLength : Int)
    (d : σ) (ctrl : Nat)
    (hnever : ∀ v, Event.read Reg.IRQ_STAT v ∈
        (waitForAcknowledge K hw DSR_TIMEOUT
          (sendAddress K hw address { dev := d, ctrl := ctrl, log := [] })).2.log →
        v &&& (1 <<< K.IRQ_SIO0) = 0) :
    ∃ s', exchangePacket K hw fuel address request response reqLength maxRespLength
        { dev := d, ctrl := ctrl, log := [] } = some (0, response, s') ∧
      s'.ctrl &&& K.SIO_CTRL_DTR = 0 ∧
      (∀ v, Event.read Reg.IRQ_STAT v ∈ s'.log → v &&& (1 <<< K.IRQ_SIO0) = 0) ∧
      txBytes s'.log = [address] := by
  have hfalse : (waitForAcknowledge K hw DSR_TIMEOUT
      (sendAddress K hw address { dev := d, ctrl := ctrl, log := [] })).1 = false := by
    by_contra hne
    have htrue := Bool.eq_true_of_not_eq_false hne
    obtain ⟨v, hv, hset⟩ := waitLoop_observed K hw _ _ _ htrue
    exact hset (hnever v hv)
  obtain ⟨_, htx, hlog⟩ := waitLoop_false K hw _ _ _ hfalse
  refine ⟨releaseDTR K hw (waitForAcknowledge K hw DSR_TIMEOUT
      (sendAddress K hw address { dev := d, ctrl := ctrl, log := [] })).2, ?_, ?_, ?_, ?_⟩
  · simp only [exchangePacket]
    rw [show waitForAcknowledge K hw DSR_TIMEOUT
        (sendAddress K hw address { dev := d, ctrl := ctrl, log := [] }) =
        (false, (waitForAcknowledge K hw DSR_TIMEOUT
        (sendAddress K hw address { dev := d, ctrl := ctrl, log := [] })).2) from
      Prod.ext hfalse rfl]
    simp
  · simp only [releaseDTR, delayMicroseconds, readReg, writeReg, if_true]
    exact and_not32_and _ _
  · intro v hv
    simp only [releaseDTR, delayMicroseconds, readReg, writeReg, List.mem_cons] at hv
    rcases hv with hv | hv | hv | hv | hv
    · cases hv
    · cases hv
    · cases hv
    · cases hv
    · exact hnever v hv
  · simp only [releaseDTR, delayMicroseconds, readReg, writeReg, txBytes]
    have := htx
    simp only [waitForAcknowledge] at this ⊢
    rw [this]
    simp [sendAddress, delayMicroseconds, readReg, writeReg, txBytes]

/-- Witness for C1: with nothing attached to the port the call returns 0. -/
theorem exchangePacket_no_acknowledge_witness :
    (∀ v, Event.read Reg.IRQ_STAT v ∈
        (waitForAcknowledge psx noDevice DSR_TIMEOUT
          (sendAddress psx noDevice psx.ADDR_CONTROLLER
            { dev := (), ctrl := 0, log := [] })).2.log →
        v &&& (1 <<< psx.IRQ_SIO0) = 0) ∧
    ∃ s', exchangePacket psx noDevice 1 psx.ADDR_CONTROLLER (pollRequest psx) (fun _ => 0) 4 8
        { dev := (), ctrl := 0, log := [] } = some (0, fun _ => 0, s') ∧
      s'.ctrl &&& psx.SIO_CTRL_DTR = 0 ∧
      (∀ v, Event.read Reg.IRQ_STAT v ∈ s'.log → v &&& (1 <<< psx.IRQ_SIO0) = 0) ∧
      txBytes s'.log = [psx.ADDR_CONTROLLER] :=
  have hnever : ∀ v, Event.read Reg.IRQ_STAT v ∈
      (waitForAcknowledge psx noDevice DSR_TIMEOUT
        (sendAddress psx noDevice psx.ADDR_CONTROLLER
          { dev := (), ctrl := 0, log := [] })).2.log →
      v &&& (1 <<< psx.IRQ_SIO0) = 0 := by
    intro v hv
    have h : (waitForAcknowledge psx noDevice DSR_TIMEOUT
        (sendAddress psx noDevice psx.ADDR_CONTROLLER
          { dev := (), ctrl := 0, log := [] })).2.log.all
        (fun e => match e with
          | Event.read Reg.IRQ_STAT v => v &&& (1 <<< psx.IRQ_SIO0) = 0
          | _ => true) = true := by decide
    have := List.all_eq_true.1 h _ hv
    simpa using this
  ⟨hnever, exchangePacket_no_acknowledge psx noDevice 1 psx.ADDR_CONTROLLER (pollRequest psx)
    (fun _ => 0) 4 8 () 0 hnever⟩

/-- C2: when the device acknowledges the address byte, the accesses to
`SIO_DATA` made by `exchangePacket` are: the address, the stale bytes drained
from the receive buffer, and then `n` exchanges, `n` being the returned
length; exchange `i` sends `request[i]` if `i < reqLength` and 0 otherwise,
and the byte it receives is what ends up in `response[i]`.  On the simulated
controller a 4-byte request with an 8-byte budget returns more than 4 bytes. -/
theorem exchangePacket_bytes {σ : Type} (K : Consts) (hw : Hardware σ) (fuel : Nat)
    (hready : HwReady K hw fuel) (address : Nat) (request response : Nat → Nat)
    (reqLength maxRespLength : Int) (d : σ) (ctrl : Nat)
    (hack : (waitForAcknowledge K hw DSR_TIMEOUT
      (sendAddress K hw address { dev := d, ctrl := ctrl, log := [] })).1 = true) :
    (∃ (n : Nat) (resp' : Nat → Nat) (s' : Bus σ) (stale rx : List Nat),
      exchangePacket K hw fuel address request response reqLength maxRespLength
        { dev := d, ctrl := ctrl, log := [] } = some ((n : Int), resp', s') ∧
      rx.length = n ∧
      wire s'.log = Event.write Reg.SIO_DATA address ::
        (stale.map (Event.read Reg.SIO_DATA) ++
          exchanged ((List.range n).map
            (fun i : Nat => if (i : Int) < reqLength then request i else 0)) rx) ∧
      ∀ i, i < n → resp' i = rx.getD i 0 % 256) ∧
    (∃ (r : Int) (resp' : Nat → Nat) (s' : Bus PadState),
      exchangePacket psx (simPad 7 padReply) 2 psx.ADDR_CONTROLLER (pollRequest psx)
        (fun _ => 0) 4 8 { dev := padIdle, ctrl := 0, log := [] } = some (r, resp', s') ∧
      4 < r) := by
  constructor
  · obtain ⟨resp', s', stale, rx, flags, hrun, _, hwire, _, hbuf, _⟩ :=
      exchangePacket_acked K hw fuel hready address request response reqLength maxRespLength
        d ctrl hack
    refine ⟨rx.length, resp', s', stale, rx, hrun, rfl, hwire, ?_⟩
    intro i hi
    rw [hbuf i, if_pos hi]
  · have h : (exchangePacket psx (simPad 7 padReply) 2 psx.ADDR_CONTROLLER (pollRequest psx)
        (fun _ => 0) 4 8 { dev := padIdle, ctrl := 0, log := [] }).map Prod.fst = some 8 := by
      decide
    obtain ⟨⟨resp', s'⟩, hrun⟩ := exists_of_map_fst _ _ h
    exact ⟨8, resp', s', hrun, by decide⟩

/-- Witness for C2: the simulated controller, polled with the 4-byte request
of `getButtonPress`. -/
theorem exchangePacket_bytes_witness :
    HwReady psx (simPad 7 padReply) 2 ∧
    (waitForAcknowledge psx (simPad 7 padReply) DSR_TIMEOUT
      (sendAddress psx (simPad 7 padReply) psx.ADDR_CONTROLLER
        { dev := padIdle, ctrl := 0, log := [] })).1 = true ∧
    ((∃ (n : Nat) (resp' : Nat → Nat) (s' : Bus PadState) (stale rx : List Nat),
      exchangePacket psx (simPad 7 padReply) 2 psx.ADDR_CONTROLLER (pollRequest psx)
        (fun _ => 0) 4 8 { dev := padIdle, ctrl := 0, log := [] } = some ((n : Int), resp', s') ∧
      rx.length = n ∧
      wire s'.log = Event.write Reg.SIO_DATA psx.ADDR_CONTROLLER ::
        (stale.map (Event.read Reg.SIO_DATA) ++
          exchanged ((List.range n).map
            (fun i : Nat => if (i : Int) < 4 then pollRequest psx i else 0)) rx) ∧
      ∀ i, i < n → resp' i = rx.getD i 0 % 256) ∧
    (∃ (r : Int) (resp' : Nat → Nat) (s' : Bus PadState),
      exchangePacket psx (simPad 7 padReply) 2 psx.ADDR_CONTROLLER (pollRequest psx)
        (fun _ => 0) 4 8 { dev := padIdle, ctrl := 0, log := [] } = some (r, resp', s') ∧
      4 < r)) :=
  ⟨simPad_ready 7 padReply, by decide,
    exchangePacket_bytes psx (simPad 7 padReply) 2 (simPad_ready 7 padReply)
      psx.ADDR_CONTROLLER (pollRequest psx) (fun _ => 0) 4 8 padIdle 0 (by decide)⟩

/-- C3: for `maxRespLength ≥ 0` the value returned by `exchangePacket` is at
most `maxRespLength`, it is the number of bytes put on the wire after the
address, and `response` is written at the indices below it only; when the
trace shows the address byte and the first `k` data bytes acknowledged and no
later byte, the value is `min maxRespLength (k + 1)`. -/
theorem exchangePacket_length {σ : Type} (K : Consts) (hw : Hardware σ) (fuel : Nat)
    (hready : HwReady K hw fuel) (address : Nat) (request response : Nat → Nat)
    (reqLength maxRespLength : Int) (hmax : 0 ≤ maxRespLength) (d : σ) (ctrl : Nat) :
    ∃ (n : Nat) (resp' : Nat → Nat) (s' : Bus σ),
      exchangePacket K hw fuel address request response reqLength maxRespLength
        { dev := d, ctrl := ctrl, log := [] } = some ((n : Int), resp', s') ∧
      (n : Int) ≤ maxRespLength ∧
      (txBytes s'.log).length = n + 1 ∧
      (∀ i, n ≤ i → resp' i = response i) ∧
      (∀ k : Nat, AckedFirst K k s'.log → (n : Int) = min maxRespLength ((k : Int) + 1)) := by
  cases hack : (waitForAcknowledge K hw DSR_TIMEOUT
      (sendAddress K hw address { dev := d, ctrl := ctrl, log := [] })).1 with
  | false =>
    obtain ⟨_, w2, w3⟩ := waitForAcknowledge_obs K hw DSR_TIMEOUT
      (sendAddress K hw address { dev := d, ctrl := ctrl, log := [] })
    rw [hack] at w3
    refine ⟨0, response, _, exchangePacket_unacked K hw fuel address request response
      reqLength maxRespLength _ hack, hmax, ?_, fun _ _ => rfl, ?_⟩
    · show (txBytes (waitForAcknowledge K hw DSR_TIMEOUT
        (sendAddress K hw address { dev := d, ctrl := ctrl, log := [] })).2.log).length = _
      rw [w2]; rfl
    · intro k hk
      have hp : ackPattern K (releaseDTR K hw (waitForAcknowledge K hw DSR_TIMEOUT
          (sendAddress K hw address { dev := d, ctrl := ctrl, log := [] })).2).log = [false] := by
        show ackPattern K (waitForAcknowledge K hw DSR_TIMEOUT
          (sendAddress K hw address { dev := d, ctrl := ctrl, log := [] })).2.log = _
        rw [w3]; rfl
      have h0 := hk 0
      rw [hp] at h0
      simp at h0
  | true =>
    obtain ⟨resp', s', stale, rx, flags, hrun, hle, _, htx, hbuf, hpat, hlen, hall, hlast, _⟩ :=
      exchangePacket_acked K hw fuel hready address request response reqLength maxRespLength
        d ctrl hack
    have hn : (rx.length : Int) ≤ maxRespLength := by
      by_cases h0 : rx.length = 0
      · rw [h0]; exact hmax
      · exact hle h0
    refine ⟨rx.length, resp', s', hrun, hn, ?_, ?_, ?_⟩
    · rw [htx]; simp
    · intro i hi
      rw [hbuf i, if_neg (by omega)]
    · intro k hk
      unfold AckedFirst at hk
      rw [hpat] at hk
      have hupper : rx.length ≤ k + 1 := by
        by_cases h1 : rx.length ≤ 1
        · omega
        · have hj := hk (rx.length - 1) (by simp only [List.length_cons]; omega)
          have e : rx.length - 1 = (rx.length - 2) + 1 := by omega
          rw [e, List.getD_cons_succ, hall (rx.length - 2) (by omega)] at hj
          have := of_decide_eq_true hj.symm
          omega
      by_cases hlt : (rx.length : Int) < maxRespLength
      · obtain ⟨hne, hf⟩ := hlast hlt
        have hj := hk rx.length (by simp only [List.length_cons]; omega)
        have e : rx.length = (rx.length - 1) + 1 := by omega
        have hin : rx.length - 1 < flags.length := by omega
        rw [List.getD_eq_getElem _ _ hin] at hf
        have hj' : (true :: flags).getD ((rx.length - 1) + 1) false = decide (rx.length ≤ k) := by
          rw [← e]; exact hj
        rw [List.getD_cons_succ, List.getD_eq_getElem _ _ hin, hf] at hj'
        have hnot : ¬ rx.length ≤ k := of_decide_eq_false hj'.symm
        have : rx.length = k + 1 := by omega
        rw [this] at hlt ⊢
        push_cast
        rw [min_eq_right (le_of_lt (by exact_mod_cast hlt))]
      · have : (rx.length : Int) = maxRespLength := by omega
        rw [min_eq_left]
        · exact this
        · rw [← this]; exact_mod_cast hupper

/-- Witness for C3: a simulated controller that acknowledges 3 data bytes,
polled with an 8-byte budget, yields 4 bytes. -/
theorem exchangePacket_length_witness :
    HwReady psx (simPad 3 padReply) 2 ∧ (0 : Int) ≤ 8 ∧
    ∃ (n : Nat) (resp' : Nat → Nat) (s' : Bus PadState),
      exchangePacket psx (simPad 3 padReply) 2 psx.ADDR_CONTROLLER (pollRequest psx)
        (fun _ => 0) 4 8 { dev := padIdle, ctrl := 0, log := [] } = some ((n : Int), resp', s') ∧
      (n : Int) ≤ 8 ∧
      (txBytes s'.log).length = n + 1 ∧
      (∀ i, n ≤ i → resp' i = 0) ∧
      AckedFirst psx 3 s'.log ∧
      (n : Int) = min 8 (((3 : Nat) : Int) + 1) := by
  refine ⟨simPad_ready 3 padReply, by decide, ?_⟩
  obtain ⟨n, resp', s', hrun, hle, htx, hbuf, hmin⟩ :=
    exchangePacket_length psx (simPad 3 padReply) 2 (simPad_ready 3 padReply)
      psx.ADDR_CONTROLLER (pollRequest psx) (fun _ => 0) 4 8 (by decide) padIdle 0
  have hpat : ackPattern psx s'.log = [true, true, true, true, false] := by
    have h := simPad_pattern
    rw [hrun] at h
    simpa using h
  have hacked : AckedFirst psx 3 s'.log := by
    intro j hj
    rw [hpat] at hj ⊢
    simp only [List.length_cons, List.length_nil] at hj
    interval_cases j <;> rfl
  exact ⟨n, resp', s', hrun, hle, htx, hbuf, hacked, hmin 3 hacked⟩

/-- C4: `getButtonPress` returns `0x0000` whenever its `exchangePacket` call
returns fewer than 4 bytes, whatever the port; this is the case in particular
when the address byte is not acknowledged (no device). -/
theorem getButtonPress_short {σ : Type} (K : Consts) (hw : Hardware σ) (fuel : Nat)
    (port : Int) (response0 : Nat → Nat) (s : Bus σ) :
    (∀ (n : Int) (resp' : Nat → Nat) (s' : Bus σ),
      exchangePacket K hw fuel K.ADDR_CONTROLLER (pollRequest K) response0 4 8
        (selectPort K hw port s) = some (n, resp', s') →
      n < 4 → getButtonPress K hw fuel port response0 s = some (0x0000, s')) ∧
    ((waitForAcknowledge K hw DSR_TIMEOUT
        (sendAddress K hw K.ADDR_CONTROLLER (selectPort K hw port s))).1 = false →
      ∃ s', getButtonPress K hw fuel port response0 s = some (0x0000, s')) := by
  constructor
  · intro n resp' s' hrun hn
    simp only [getButtonPress, hrun, hn, if_true]
  · intro hack
    have hrun := exchangePacket_unacked K hw fuel K.ADDR_CONTROLLER (pollRequest K) response0
      4 8 (selectPort K hw port s) hack
    exact ⟨_, by simp only [getButtonPress, hrun]; rfl⟩

/-- Witness for C4: port 1 with nothing attached. -/
theorem getButtonPress_short_witness :
    (waitForAcknowledge psx noDevice DSR_TIMEOUT
        (sendAddress psx noDevice psx.ADDR_CONTROLLER
          (selectPort psx noDevice 1 { dev := (), ctrl := 0, log := [] }))).1 = false ∧
    ∃ s', getButtonPress psx noDevice 1 1 (fun _ => 0) { dev := (), ctrl := 0, log := [] } =
      some (0x0000, s') :=
  ⟨by decide,
    (getButtonPress_short psx noDevice 1 1 (fun _ => 0)
      { dev := (), ctrl := 0, log := [] }).2 (by decide)⟩

/-- C5: whenever the exchange returns at least 4 bytes, `getButtonPress`
returns the 16-bit complement of the field `response[2] | (response[3] << 8)`:
the result is below `2^16`, its bit `i` (for `i < 16`) is set exactly when bit
`i` of the field is clear, and the field `0xFFFF` gives `0x0000`. -/
theorem getButtonPress_inverts {σ : Type} (K : Consts) (hw : Hardware σ) (fuel : Nat)
    (port : Int) (response0 : Nat → Nat) (s : Bus σ) (n : Int) (resp' : Nat → Nat)
    (s' : Bus σ)
    (hrun : exchangePacket K hw fuel K.ADDR_CONTROLLER (pollRequest K) response0 4 8
      (selectPort K hw port s) = some (n, resp', s'))
    (hn : 4 ≤ n) :
    ∃ v, getButtonPress K hw fuel port response0 s = some (v, s') ∧ v < 2 ^ 16 ∧
      (∀ i, i < 16 → v.testBit i = !(resp' 2 ||| (resp' 3 <<< 8)).testBit i) ∧
      (resp' 2 ||| (resp' 3 <<< 8) = 0xFFFF → v = 0x0000) := by
  have hlt : ¬ n < 4 := by omega
  refine ⟨((resp' 2 ||| (resp' 3 <<< 8)) ^^^ 0xffff) % 65536, ?_, ?_, ?_, ?_⟩
  · simp only [getButtonPress, hrun, hlt, if_false]
  · exact Nat.mod_lt _ (by norm_num)
  · intro i hi
    have h1 : (65536 : Nat) = 2 ^ 16 := by norm_num
    have h2 : (0xffff : Nat) = 2 ^ 16 - 1 := by norm_num
    rw [h1, Nat.testBit_mod_two_pow, Nat.testBit_xor, h2, Nat.testBit_two_pow_sub_one]
    simp [hi]
  · intro h
    rw [h]
    decide

/-- Witness for C5: the simulated controller reporting Select held down. -/
theorem getButtonPress_inverts_witness :
    ∃ (resp' : Nat → Nat) (s' : Bus PadState),
      exchangePacket psx (simPad 7 padReply) 2 psx.ADDR_CONTROLLER (pollRequest psx)
        (fun _ => 0) 4 8 (selectPort psx (simPad 7 padReply) 0
          { dev := padIdle, ctrl := 0, log := [] }) = some (8, resp', s') ∧
      (4 : Int) ≤ 8 ∧
      ∃ v, getButtonPress psx (simPad 7 padReply) 2 0 (fun _ => 0)
          { dev := padIdle, ctrl := 0, log := [] } = some (v, s') ∧ v < 2 ^ 16 ∧
        (∀ i, i < 16 → v.testBit i = !(resp' 2 ||| (resp' 3 <<< 8)).testBit i) ∧
        (resp' 2 ||| (resp' 3 <<< 8) = 0xFFFF → v = 0x0000) :=
  have h : (exchangePacket psx (simPad 7 padReply) 2 psx.ADDR_CONTROLLER (pollRequest psx)
      (fun _ => 0) 4 8 (selectPort psx (simPad 7 padReply) 0
        { dev := padIdle, ctrl := 0, log := [] })).map Prod.fst = some 8 := by decide
  match exists_of_map_fst _ _ h with
  | ⟨(resp', s'), hrun⟩ =>
    ⟨resp', s', hrun, by decide,
      getButtonPress_inverts psx (simPad 7 padReply) 2 0 (fun _ => 0)
        { dev := padIdle, ctrl := 0, log := [] } 8 resp' s' hrun (by decide)⟩

/-- C6: on the simulated controller, which acknowledges the address byte and
stops acknowledging once 8 data bytes have gone over the wire (whether or not
it still pulses after the eighth), two consecutive `exchangePacket` calls with
the 4-byte poll request and `maxRespLength = 8` both return 8 with the same 8
response bytes; bytes 2 and 3 form the wire field `0xFFFE`, and a
`getButtonPress` that follows returns the pressed-bitfield `0x0001`. -/
theorem poll_twice_scenario (k : Nat) (hk : k = 7 ∨ k = 8) :
    ∃ (resp1 resp2 : Nat → Nat) (s1 s2 s3 : Bus PadState),
      exchangePacket psx (simPad k padReply) 2 psx.ADDR_CONTROLLER (pollRequest psx)
        (fun _ => 0) 4 8 { dev := padIdle, ctrl := 0, log := [] } = some (8, resp1, s1) ∧
      exchangePacket psx (simPad k padReply) 2 psx.ADDR_CONTROLLER (pollRequest psx)
        (fun _ => 0) 4 8 s1 = some (8, resp2, s2) ∧
      (List.range 8).map resp1 = [0x73, 0x5A, 0xFE, 0xFF, 0x80, 0x80, 0x80, 0x80] ∧
      (List.range 8).map resp2 = (List.range 8).map resp1 ∧
      resp1 2 ||| (resp1 3 <<< 8) = 0xFFFE ∧
      getButtonPress psx (simPad k padReply) 2 0 (fun _ => 0) s2 = some (0x0001, s3) := by
  have h := simPad_poll_twice k hk
  obtain ⟨⟨n1, resp1, s1⟩, h1, h⟩ := option_bind_eq_some_pair _ _ _ h
  obtain ⟨⟨n2, resp2, s2⟩, h2, h⟩ := option_bind_eq_some_pair _ _ _ h
  cases h3 : getButtonPress psx (simPad k padReply) 2 0 (fun _ => 0) s2 with
  | none => rw [h3] at h; cases h
  | some g =>
    obtain ⟨v, s3⟩ := g
    rw [h3] at h
    simp only [Option.map_some', Option.some.injEq, Prod.mk.injEq] at h
    obtain ⟨e1, e2, e3, e4, e5⟩ := h
    subst e1 e3 e5
    refine ⟨resp1, resp2, s1, s2, s3, h1, h2, e2, by rw [e4, e2], ?_, h3⟩
    have a2 : resp1 2 = 0xFE := by
      have := congrArg (fun l => l.getD 2 0) e2
      simpa using this
    have a3 : resp1 3 = 0xFF := by
      have := congrArg (fun l => l.getD 3 0) e2
      simpa using this
    rw [a2, a3]
    decide

/-- Witness for C6: the controller that does not pulse after the eighth byte. -/
theorem poll_twice_scenario_witness :
    ((7 : Nat) = 7 ∨ (7 : Nat) = 8) ∧
    ∃ (resp1 resp2 : Nat → Nat) (s1 s2 s3 : Bus PadState),
      exchangePacket psx (simPad 7 padReply) 2 psx.ADDR_CONTROLLER (pollRequest psx)
        (fun _ => 0) 4 8 { dev := padIdle, ctrl := 0, log := [] } = some (8, resp1, s1) ∧
      exchangePacket psx (simPad 7 padReply) 2 psx.ADDR_CONTROLLER (pollRequest psx)
        (fun _ => 0) 4 8 s1 = some (8, resp2, s2) ∧
      (List.range 8).map resp1 = [0x73, 0x5A, 0xFE, 0xFF, 0x80, 0x80, 0x80, 0x80] ∧
      (List.range 8).map resp2 = (List.range 8).map resp1 ∧
      resp1 2 ||| (resp1 3 <<< 8) = 0xFFFE ∧
      getButtonPress psx (simPad 7 padReply) 2 0 (fun _ => 0) s2 = some (0x0001, s3) :=
  ⟨Or.inl rfl, poll_twice_scenario 7 (Or.inl rfl)⟩

/-! ## Command chains -/

theorem headerOffset_zero (sizes : List Nat) : headerOffset sizes 0 = 0 := by
  simp [headerOffset]

theorem headerOffset_cons_succ (n : Nat) (sizes : List Nat) (k : Nat) :
    headerOffset (n :: sizes) (k + 1) = (n : Int) + 1 + headerOffset sizes k := by
  simp [headerOffset, List.take, List.sum_cons]

theorem headerOffset_length (sizes : List Nat) :
    headerOffset sizes sizes.length = (((sizes.map (fun n : Nat => n + 1)).sum : Nat) : Int) := by
  simp [headerOffset]

theorem headerOffset_nonneg (sizes : List Nat) (k : Nat) : 0 ≤ headerOffset sizes k := by
  unfold headerOffset
  exact Int.natCast_nonneg _

theorem allocatePacket_ok (G : GpuConsts) (chain : DMAChain) (n : Int)
    (h : chain.nextPacket + (n + 1) < (G.CHAIN_BUFFER_SIZE : Int)) :
    allocatePacket G chain n =
      ({ data := Function.update chain.data chain.nextPacket
            (gp0_tag n (chain.nextPacket + (n + 1)))
         nextPacket := chain.nextPacket + (n + 1) }, some (chain.nextPacket + 1)) := by
  simp only [allocatePacket, h, if_true]

theorem allocatePacket_fail (G : GpuConsts) (chain : DMAChain) (n : Int)
    (h : ¬ chain.nextPacket + (n + 1) < (G.CHAIN_BUFFER_SIZE : Int)) :
    allocatePacket G chain n =
      ({ data := Function.update chain.data chain.nextPacket
            (gp0_tag n (chain.nextPacket + (n + 1)))
         nextPacket := chain.nextPacket + (n + 1) }, none) := by
  simp only [allocatePacket, h, if_false]

theorem allocateAll_layout (G : GpuConsts) (sizes : List Nat) :
    ∀ chain : DMAChain,
      chain.nextPacket + (((sizes.map (fun n : Nat => n + 1)).sum : Nat) : Int) <
        (G.CHAIN_BUFFER_SIZE : Int) →
      ∃ chain' : DMAChain,
        allocateAll G chain (sizes.map (fun n : Nat => (n : Int))) = some chain' ∧
        chain'.nextPacket = chain.nextPacket + headerOffset sizes sizes.length ∧
        (∀ p, p < chain.nextPacket → chain'.data p = chain.data p) ∧
        (∀ p, chain'.nextPacket ≤ p → chain'.data p = chain.data p) ∧
        (∀ k, k < sizes.length →
          chain'.data (chain.nextPacket + headerOffset sizes k) =
            gp0_tag ((sizes.getD k 0 : Nat) : Int)
              (chain.nextPacket + headerOffset sizes (k + 1))) := by
  induction sizes with
  | nil =>
    intro chain _
    refine ⟨chain, rfl, ?_, fun _ _ => rfl, fun _ _ => rfl, ?_⟩
    · simp [headerOffset]
    · intro k hk; simp at hk
  | cons n sizes ih =>
    intro chain h
    simp only [List.map_cons, List.sum_cons, Nat.cast_add, Nat.cast_one] at h
    have hrest : (0 : Int) ≤ (((sizes.map (fun n : Nat => n + 1)).sum : Nat) : Int) :=
      Int.natCast_nonneg _
    have hok : chain.nextPacket + ((n : Int) + 1) < (G.CHAIN_BUFFER_SIZE : Int) := by omega
    obtain ⟨chain', hrun, hcur, hlow, hhigh, hhead⟩ :=
      ih { data := Function.update chain.data chain.nextPacket
              (gp0_tag n (chain.nextPacket + ((n : Int) + 1)))
           nextPacket := chain.nextPacket + ((n : Int) + 1) } (by simp only; omega)
    simp only at hcur hlow hhigh hhead
    refine ⟨chain', ?_, ?_, ?_, ?_, ?_⟩
    · simp only [List.map_cons, allocateAll, allocatePacket_ok G chain n hok]
      exact hrun
    · rw [hcur, List.length_cons, headerOffset_cons_succ]; omega
    · intro p hp
      rw [hlow p (by omega), Function.update_noteq (by omega)]
    · intro p hp
      have h0 := headerOffset_nonneg sizes sizes.length
      rw [hhigh p hp, Function.update_noteq (by omega)]
    · intro k hk
      cases k with
      | zero =>
        rw [headerOffset_zero, add_zero, hlow _ (by omega), Function.update_same,
          headerOffset_cons_succ, headerOffset_zero]
        simp
      | succ k =>
        have hk' : k < sizes.length := by simpa using hk
        have := hhead k hk'
        rw [headerOffset_cons_succ, headerOffset_cons_succ, List.getD_cons_succ]
        rw [show chain.nextPacket + ((n : Int) + 1 + headerOffset sizes k) =
          chain.nextPacket + ((n : Int) + 1) + headerOffset sizes k by omega,
          show chain.nextPacket + ((n : Int) + 1 + headerOffset sizes (k + 1)) =
          chain.nextPacket + ((n : Int) + 1) + headerOffset sizes (k + 1) by omega]
        exact this

theorem walkChain_layout (sizes : List Nat) :
    ∀ (data : Int → Word) (c : Int),
      (∀ k, k < sizes.length →
        data (c + headerOffset sizes k) =
          gp0_tag ((sizes.getD k 0 : Nat) : Int) (c + headerOffset sizes (k + 1))) →
      data (c + headerOffset sizes sizes.length) = gp0_endTag 0 →
      walkChain data (sizes.length + 1) c =
        some ((List.range (sizes.length + 1)).map (fun k => c + headerOffset sizes k)) := by
  induction sizes with
  | nil =>
    intro data c _ hend
    simp only [List.length_nil, headerOffset_zero, add_zero] at hend
    simp [walkChain, hend, gp0_endTag, headerOffset]
  | cons n sizes ih =>
    intro data c hhead hend
    have h0 := hhead 0 (by simp)
    rw [headerOffset_zero, add_zero, headerOffset_cons_succ, headerOffset_zero] at h0
    have hrec := ih data (c + ((n : Int) + 1)) (by
      intro k hk
      have := hhead (k + 1) (by simpa using hk)
      rw [headerOffset_cons_succ, headerOffset_cons_succ, List.getD_cons_succ] at this
      rw [show c + ((n : Int) + 1) + headerOffset sizes k =
        c + ((n : Int) + 1 + headerOffset sizes k) by omega,
        show c + ((n : Int) + 1) + headerOffset sizes (k + 1) =
        c + ((n : Int) + 1 + headerOffset sizes (k + 1)) by omega]
      exact this) (by
      rw [List.length_cons, headerOffset_cons_succ] at hend
      rw [show c + ((n : Int) + 1) + headerOffset sizes sizes.length =
        c + ((n : Int) + 1 + headerOffset sizes sizes.length) by omega]
      exact hend)
    rw [List.length_cons, walkChain, h0]
    simp only [gp0_tag, add_zero] at hrec ⊢
    rw [hrec, List.range_succ_eq_map (sizes.length + 1)]
    simp only [Option.map_some', List.map_cons, List.map_map, headerOffset_zero, add_zero,
      Option.some.injEq, List.cons.injEq, true_and]
    apply List.map_congr_left
    intro k _
    simp only [Function.comp, Nat.succ_eq_add_one, headerOffset_cons_succ]
    omega

theorem allocateAll_inside (G : GpuConsts) (sizes : List Nat) :
    ∀ chain chain' : DMAChain,
      allocateAll G chain (sizes.map (fun n : Nat => (n : Int))) = some chain' →
      0 ≤ chain.nextPacket → chain.nextPacket < (G.CHAIN_BUFFER_SIZE : Int) →
      0 ≤ chain'.nextPacket ∧ chain'.nextPacket < (G.CHAIN_BUFFER_SIZE : Int) ∧
        ∀ p, p < 0 ∨ (G.CHAIN_BUFFER_SIZE : Int) ≤ p → chain'.data p = chain.data p := by
  induction sizes with
  | nil =>
    intro chain chain' h h0 h1
    simp only [List.map_nil, allocateAll, Option.some.injEq] at h
    subst h
    exact ⟨h0, h1, fun _ _ => rfl⟩
  | cons n sizes ih =>
    intro chain chain' h h0 h1
    simp only [List.map_cons, allocateAll] at h
    by_cases hok : chain.nextPacket + ((n : Int) + 1) < (G.CHAIN_BUFFER_SIZE : Int)
    · rw [allocatePacket_ok G chain n hok] at h
      have hn : (0 : Int) ≤ (n : Int) := Int.natCast_nonneg n
      obtain ⟨a, b, c⟩ := ih _ chain' h (by simp only; omega) hok
      refine ⟨a, b, ?_⟩
      intro p hp
      rw [c p hp]
      exact Function.update_noteq (by omega) _ _
    · rw [allocatePacket_fail G chain n hok] at h
      cases h

/-- C7: after a reset, allocating packets with payload sizes `s1..sN` that
fit together with the end tag and then writing the end tag leaves the header
of packet `k` at word offset `sum_{j<k} (s_j + 1)`, with count `s_k` and a
link to the header of packet `k + 1`; the word at the final cursor is the
end-of-chain header with count 0, and following the links from `data[0]`
visits exactly the `N + 1` headers. -/
theorem chain_layout (G : GpuConsts) (chain0 : DMAChain) (sizes : List Nat)
    (hfit : (sizes.map (fun n : Nat => n + 1)).sum < G.CHAIN_BUFFER_SIZE) :
    ∃ chain : DMAChain,
      allocateAll G (resetChain chain0) (sizes.map (fun n : Nat => (n : Int))) = some chain ∧
      chain.nextPacket = headerOffset sizes sizes.length ∧
      (∀ k, k < sizes.length →
        (terminateChain chain).data (headerOffset sizes k) =
          gp0_tag ((sizes.getD k 0 : Nat) : Int) (headerOffset sizes (k + 1))) ∧
      (terminateChain chain).data (headerOffset sizes sizes.length) = gp0_endTag 0 ∧
      ∃ visited : List Int,
        walkChain (terminateChain chain).data (sizes.length + 1) 0 = some visited ∧
        visited = (List.range (sizes.length + 1)).map (headerOffset sizes) ∧
        visited.length = sizes.length + 1 := by
  obtain ⟨chain, hrun, hcur, _, _, hhead⟩ :=
    allocateAll_layout G sizes (resetChain chain0) (by
      show (0 : Int) + _ < _
      rw [zero_add]; exact_mod_cast hfit)
  simp only [resetChain, zero_add] at hcur hhead
  have hlt : ∀ k, k < sizes.length → headerOffset sizes k < chain.nextPacket := by
    intro k hk
    rw [hcur]
    unfold headerOffset
    have h1 : ((sizes.take k).map (fun n : Nat => n + 1)).sum +
        ((sizes.drop k).map (fun n : Nat => n + 1)).sum =
        ((sizes.take sizes.length).map (fun n : Nat => n + 1)).sum := by
      rw [List.take_length, ← List.sum_append, ← List.map_append, List.take_append_drop]
    have h2 : 0 < ((sizes.drop k).map (fun n : Nat => n + 1)).sum := by
      cases hd : sizes.drop k with
      | nil =>
        have := congrArg List.length hd
        simp at this
        omega
      | cons a l => simp
    exact_mod_cast (by omega : ((sizes.take k).map (fun n : Nat => n + 1)).sum <
      ((sizes.take sizes.length).map (fun n : Nat => n + 1)).sum)
  have hhead' : ∀ k, k < sizes.length →
      (terminateChain chain).data (headerOffset sizes k) =
        gp0_tag ((sizes.getD k 0 : Nat) : Int) (headerOffset sizes (k + 1)) := by
    intro k hk
    have := hlt k hk
    simp only [terminateChain]
    rw [Function.update_noteq (by omega)]
    exact hhead k hk
  have hend : (terminateChain chain).data (headerOffset sizes sizes.length) = gp0_endTag 0 := by
    simp only [terminateChain]
    rw [← hcur, Function.update_same]
  refine ⟨chain, hrun, hcur, hhead', hend, _, ?_, rfl, by simp⟩
  have := walkChain_layout sizes (terminateChain chain).data 0
    (by intro k hk; simp only [zero_add]; exact hhead' k hk)
    (by simp only [zero_add]; exact hend)
  simp only [zero_add] at this
  exact this

/-- Witness for C7: three packets of 4, 3 and 3 words, as at the start of a
frame in `main`. -/
theorem chain_layout_witness :
    ([4, 3, 3].map (fun n : Nat => n + 1)).sum < psxGpu.CHAIN_BUFFER_SIZE ∧
    ∃ chain : DMAChain,
      allocateAll psxGpu (resetChain blankChain) ([4, 3, 3].map (fun n : Nat => (n : Int))) =
        some chain ∧
      chain.nextPacket = headerOffset [4, 3, 3] [4, 3, 3].length ∧
      (∀ k, k < [4, 3, 3].length →
        (terminateChain chain).data (headerOffset [4, 3, 3] k) =
          gp0_tag (([4, 3, 3].getD k 0 : Nat) : Int) (headerOffset [4, 3, 3] (k + 1))) ∧
      (terminateChain chain).data (headerOffset [4, 3, 3] [4, 3, 3].length) = gp0_endTag 0 ∧
      ∃ visited : List Int,
        walkChain (terminateChain chain).data ([4, 3, 3].length + 1) 0 = some visited ∧
        visited = (List.range ([4, 3, 3].length + 1)).map (headerOffset [4, 3, 3]) ∧
        visited.length = [4, 3, 3].length + 1 :=
  ⟨by decide, chain_layout psxGpu blankChain [4, 3, 3] (by decide)⟩

/-- C8: in a chain reached from a reset by successful allocations, a call of
`allocatePacket` whose header word and `payloadWordCount` payload words would
go beyond `CHAIN_BUFFER_SIZE` (such a count is necessarily `≥ 0`) fails its
assertion, and at that point no word outside `data[0 .. CHAIN_BUFFER_SIZE)`
differs from what it was at the reset. -/
theorem allocatePacket_overflow (G : GpuConsts) (hsize : 0 < G.CHAIN_BUFFER_SIZE)
    (chain0 chain : DMAChain) (sizes : List Nat)
    (hreach : allocateAll G (resetChain chain0) (sizes.map (fun n : Nat => (n : Int))) = some chain)
    (payloadWordCount : Int)
    (hover : chain.nextPacket + 1 + payloadWordCount > (G.CHAIN_BUFFER_SIZE : Int)) :
    (allocatePacket G chain payloadWordCount).2 = none ∧
    ∀ p, p < 0 ∨ (G.CHAIN_BUFFER_SIZE : Int) ≤ p →
      (allocatePacket G chain payloadWordCount).1.data p = chain0.data p := by
  obtain ⟨h0, h1, hout⟩ := allocateAll_inside G sizes (resetChain chain0) chain hreach
    (le_refl _) (by show (0 : Int) < _; exact_mod_cast hsize)
  rw [allocatePacket_fail G chain payloadWordCount (by omega)]
  refine ⟨rfl, ?_⟩
  intro p hp
  show Function.update chain.data chain.nextPacket _ p = _
  rw [Function.update_noteq (by omega), hout p hp]
  rfl

/-- Witness for C8: a 1024-word chain holding a 1000-word packet has no room
for a packet of 30 words. -/
theorem allocatePacket_overflow_witness :
    0 < psxGpu.CHAIN_BUFFER_SIZE ∧
    allocateAll psxGpu (resetChain blankChain) ([1000].map (fun n : Nat => (n : Int))) =
      some { data := Function.update blankChain.data 0 (gp0_tag 1000 1001)
             nextPacket := 1001 } ∧
    (1001 : Int) + 1 + 30 > (psxGpu.CHAIN_BUFFER_SIZE : Int) ∧
    (allocatePacket psxGpu
      { data := Function.update blankChain.data 0 (gp0_tag 1000 1001), nextPacket := 1001 }
      30).2 = none ∧
    ∀ p, p < 0 ∨ (psxGpu.CHAIN_BUFFER_SIZE : Int) ≤ p →
      (allocatePacket psxGpu
        { data := Function.update blankChain.data 0 (gp0_tag 1000 1001), nextPacket := 1001 }
        30).1.data p = blankChain.data p :=
  ⟨by decide, rfl, by decide,
    allocatePacket_overflow psxGpu (by decide) blankChain
      { data := Function.update blankChain.data 0 (gp0_tag 1000 1001), nextPacket := 1001 }
      [1000] rfl 30 (by decide)⟩

/-- C9, as the code has it: `allocatePacket` passes its assertion exactly when
the cursor after the reservation is still inside the buffer, that is when
`c + 1 + n < CHAIN_BUFFER_SIZE` for the cursor `c` and `n` payload words (one
more word, for the end tag, must remain); it fails when
`c + 1 + n ≥ CHAIN_BUFFER_SIZE`. -/
theorem allocatePacket_succeeds_iff (G : GpuConsts) (chain : DMAChain) (n : Int) :
    ((allocatePacket G chain n).2 = some (chain.nextPacket + 1) ↔
      chain.nextPacket + 1 + n < (G.CHAIN_BUFFER_SIZE : Int)) ∧
    ((allocatePacket G chain n).2 = none ↔
      chain.nextPacket + 1 + n ≥ (G.CHAIN_BUFFER_SIZE : Int)) := by
  by_cases h : chain.nextPacket + (n + 1) < (G.CHAIN_BUFFER_SIZE : Int)
  · rw [allocatePacket_ok G chain n h]
    simp only [true_iff, reduceCtorEq, false_iff]
    omega
  · rw [allocatePacket_fail G chain n h]
    simp only [reduceCtorEq, false_iff, true_iff]
    omega

/-- C9 as stated fails at the boundary: with the cursor at 0 and 1023 payload
words the reservation is exactly `CHAIN_BUFFER_SIZE = 1024` words, yet the
assertion fails. -/
theorem allocatePacket_boundary_fails :
    (blankChain.nextPacket + 1 + 1023 ≤ (psxGpu.CHAIN_BUFFER_SIZE : Int)) ∧
    (allocatePacket psxGpu blankChain 1023).2 = none := by
  decide

/-! ## VRAM transfers -/

theorem waitForDMADone_reads {σ : Type} (G : GpuConsts) (hw : Hardware σ) (n : Nat) :
    ∀ s s' : Bus σ, waitForDMADone G hw n s = some s' →
      ∀ r v, Event.write r v ∈ s'.log → Event.write r v ∈ s.log := by
  induction n with
  | zero => intro s s' h; simp [waitForDMADone] at h
  | succ n ih =>
    intro s s' h r v hv
    simp only [waitForDMADone] at h
    by_cases hc : (readReg hw Reg.DMA_CHCR s).1 &&& G.DMA_CHCR_ENABLE ≠ 0
    · rw [if_pos hc] at h
      have := ih _ _ h r v hv
      simpa [readReg] using this
    · rw [if_neg hc] at h
      cases h
      simpa [readReg] using hv

theorem vramLength_eq (width height : Int) (hw0 : 0 ≤ width) (hh0 : 0 ≤ height)
    (hfit : width * height < 2 ^ 31) :
    (vramLength width height : Int) = width * height / 2 := by
  have hp : 0 ≤ width * height := Int.mul_nonneg hw0 hh0
  unfold vramLength
  rw [Int.tdiv_eq_ediv hp (by decide)]
  have h1 : 0 ≤ width * height / 2 := Int.ediv_nonneg hp (by decide)
  have h2 : width * height / 2 < 2 ^ 32 := by omega
  rw [Int.emod_eq_of_lt h1 h2, Int.toNat_of_nonneg h1]

/-- C10, as the code has it: for `width, height ≥ 0` whose word count
`width * height / 2` is at least `DMA_MAX_CHUNK_SIZE` and not a multiple of
it, `sendVRAMData` stops at a failing assertion once the DMA channel is idle,
before it has written any register. -/
theorem sendVRAMData_rejects {σ : Type} (G : GpuConsts) (hw : Hardware σ) (fuel : Nat)
    (data : Nat) (x y width height : Int) (s s1 : Bus σ)
    (hidle : waitForDMADone G hw fuel s = some s1)
    (hw0 : 0 ≤ width) (hh0 : 0 ≤ height) (hfit : width * height < 2 ^ 31)
    (hbig : (G.DMA_MAX_CHUNK_SIZE : Int) ≤ width * height / 2)
    (hrem : width * height / 2 % (G.DMA_MAX_CHUNK_SIZE : Int) ≠ 0) :
    sendVRAMData G hw fuel data x y width height s = Outcome.assertFailed s1 ∧
    ∀ r v, Event.write r v ∈ s1.log → Event.write r v ∈ s.log := by
  refine ⟨?_, waitForDMADone_reads G hw fuel s s1 hidle⟩
  have hlen := vramLength_eq width height hw0 hh0 hfit
  have h1 : ¬ vramLength width height < G.DMA_MAX_CHUNK_SIZE := by
    intro h
    have : (vramLength width height : Int) < (G.DMA_MAX_CHUNK_SIZE : Int) := by exact_mod_cast h
    omega
  have h2 : vramLength width height % G.DMA_MAX_CHUNK_SIZE ≠ 0 := by
    intro h
    apply hrem
    rw [← hlen]
    exact_mod_cast h
  simp only [sendVRAMData, hidle]
  by_cases ha : data % 2 ^ 32 % 4 ≠ 0
  · rw [if_pos ha]
  · rw [if_neg ha, if_neg h1, if_pos h2]

/-- Witness for C10: an 8 by 6 block is 24 words, not a multiple of 16. -/
theorem sendVRAMData_rejects_witness :
    waitForDMADone psxGpu idleGpu 1 { dev := (), ctrl := 0, log := [] } =
      some { dev := (), ctrl := 0, log := [Event.read Reg.DMA_CHCR 0] } ∧
    (0 : Int) ≤ 8 ∧ (0 : Int) ≤ 6 ∧ (8 : Int) * 6 < 2 ^ 31 ∧
    (psxGpu.DMA_MAX_CHUNK_SIZE : Int) ≤ 8 * 6 / 2 ∧
    (8 : Int) * 6 / 2 % (psxGpu.DMA_MAX_CHUNK_SIZE : Int) ≠ 0 ∧
    sendVRAMData psxGpu idleGpu 1 0 0 0 8 6 { dev := (), ctrl := 0, log := [] } =
      Outcome.assertFailed { dev := (), ctrl := 0, log := [Event.read Reg.DMA_CHCR 0] } ∧
    ∀ r v, Event.write r v ∈ [Event.read Reg.DMA_CHCR 0] →
      Event.write r v ∈ ([] : List Event) :=
  ⟨rfl, by decide, by decide, by decide, by decide, by decide,
    sendVRAMData_rejects psxGpu idleGpu 1 0 0 0 8 6 { dev := (), ctrl := 0, log := [] }
      { dev := (), ctrl := 0, log := [Event.read Reg.DMA_CHCR 0] } rfl
      (by decide) (by decide) (by decide) (by decide) (by decide)⟩

/-- C10 as stated fails: a 2 by 2 block has `width * height = 4`, which is not
divisible by `DMA_MAX_CHUNK_SIZE = 16`, yet `sendVRAMData` starts the transfer
(one chunk of 2 words) instead of failing an assertion. -/
theorem sendVRAMData_small_block_accepted :
    ¬ ((psxGpu.DMA_MAX_CHUNK_SIZE : Int) ∣ 2 * 2) ∧
    sendVRAMData psxGpu idleGpu 1 0 0 0 2 2 { dev := (), ctrl := 0, log := [] } =
      Outcome.returned
        { dev := ()
          ctrl := 0
          log := [Event.write Reg.DMA_CHCR 0x01000201, Event.write Reg.DMA_BCR 0x00010002,
            Event.write Reg.DMA_MADR 0, Event.write Reg.GPU_GP0 0x00020002,
            Event.write Reg.GPU_GP0 0, Event.write Reg.GPU_GP0 0xa0000000,
            Event.read Reg.GPU_GP1 0x04000000, Event.read Reg.DMA_CHCR 0] } := by
  constructor
  · decide
  · rfl

/-! ## The acknowledge wait, in full -/

theorem waitLoop_spec {σ : Type} (K : Consts) (hw : Hardware σ) (n : Nat) :
    ∀ (t : Int) (s : Bus σ), t ≤ (n : Int) →
      pollCount (waitForAcknowledgeLoop K hw n t s).2.log ≤
        pollCount s.log + ((t + 9) / 10).toNat ∧
      ((waitForAcknowledgeLoop K hw n t s).1 = false →
        delayTotal (waitForAcknowledgeLoop K hw n t s).2.log ≥ delayTotal s.log + t ∧
        (waitForAcknowledgeLoop K hw n t s).2.ctrl = s.ctrl ∧
        (∀ r v, Event.write r v ∈ (waitForAcknowledgeLoop K hw n t s).2.log →
          Event.write r v ∈ s.log) ∧
        (∀ v, Event.read Reg.IRQ_STAT v ∈ (waitForAcknowledgeLoop K hw n t s).2.log →
          Event.read Reg.IRQ_STAT v ∈ s.log ∨ v &&& (1 <<< K.IRQ_SIO0) = 0)) ∧
      ((waitForAcknowledgeLoop K hw n t s).1 = true →
        ∃ v older, (waitForAcknowledgeLoop K hw n t s).2.log =
            Event.write Reg.SIO_CTRL (s.ctrl ||| K.SIO_CTRL_ACKNOWLEDGE) ::
            Event.read Reg.SIO_CTRL s.ctrl ::
            Event.write Reg.IRQ_STAT (not32 (1 <<< K.IRQ_SIO0)) ::
            Event.read Reg.IRQ_STAT v :: older ∧
          v &&& (1 <<< K.IRQ_SIO0) ≠ 0 ∧
          (waitForAcknowledgeLoop K hw n t s).2.ctrl = s.ctrl ||| K.SIO_CTRL_ACKNOWLEDGE ∧
          (∀ r w, Event.write r w ∈ older → Event.write r w ∈ s.log)) := by
  induction n with
  | zero =>
    intro t s ht
    simp only [Nat.cast_zero] at ht
    refine ⟨?_, ?_, ?_⟩
    · show pollCount s.log ≤ _
      omega
    · intro _
      refine ⟨?_, rfl, fun _ _ h => h, fun _ h => Or.inl h⟩
      show delayTotal s.log ≥ _
      omega
    · intro h
      exact absurd h (by simp [waitForAcknowledgeLoop])
  | succ n ih =>
    intro t s ht
    rw [waitLoop_succ]
    by_cases hpos : t > 0
    · rw [if_pos hpos]
      by_cases hf : hw.read Reg.IRQ_STAT s.dev &&& (1 <<< K.IRQ_SIO0) ≠ 0
      · rw [if_pos hf]
        refine ⟨?_, by simp, ?_⟩
        · have : pollCount (writeReg hw Reg.SIO_CTRL (s.ctrl ||| K.SIO_CTRL_ACKNOWLEDGE)
              (readReg hw Reg.SIO_CTRL
                (writeReg hw Reg.IRQ_STAT (not32 (1 <<< K.IRQ_SIO0))
                  (readReg hw Reg.IRQ_STAT s).2)).2).log = pollCount s.log + 1 := by
            simp [writeReg, readReg, pollCount]
          show pollCount (writeReg hw Reg.SIO_CTRL (s.ctrl ||| K.SIO_CTRL_ACKNOWLEDGE)
              (readReg hw Reg.SIO_CTRL
                (writeReg hw Reg.IRQ_STAT (not32 (1 <<< K.IRQ_SIO0))
                  (readReg hw Reg.IRQ_STAT s).2)).2).log ≤ _
          rw [this]
          omega
        · intro _
          refine ⟨hw.read Reg.IRQ_STAT s.dev, s.log, ?_, hf, ?_, fun _ _ h => h⟩
          · simp [writeReg, readReg]
          · simp [writeReg, readReg]
      · rw [if_neg hf]
        have ht' : t - 10 ≤ (n : Int) := by push_cast at ht; omega
        obtain ⟨h1, h2, h3⟩ :=
          ih (t - 10) (delayMicroseconds hw 10 (readReg hw Reg.IRQ_STAT s).2) ht'
        refine ⟨?_, ?_, ?_⟩
        · have : pollCount (delayMicroseconds hw 10 (readReg hw Reg.IRQ_STAT s).2).log =
              pollCount s.log + 1 := by
            simp [delayMicroseconds, readReg, pollCount]
          rw [this] at h1
          omega
        · intro hfalse
          obtain ⟨a, b, c, e⟩ := h2 hfalse
          refine ⟨?_, ?_, ?_, ?_⟩
          · have : delayTotal (delayMicroseconds hw 10 (readReg hw Reg.IRQ_STAT s).2).log =
                delayTotal s.log + 10 := by
              simp [delayMicroseconds, readReg, delayTotal]
            rw [this] at a
            omega
          · rw [b]; simp [delayMicroseconds, readReg]
          · intro r v hv
            have := c r v hv
            simpa [delayMicroseconds, readReg] using this
          · intro v hv
            rcases e v hv with h | h
            · simp only [delayMicroseconds, readReg, reduceCtorEq, if_false, List.mem_cons,
                false_or, Event.read.injEq, true_and] at h
              rcases h with h | h
              · right
                rw [h]
                simpa using hf
              · exact Or.inl h
            · exact Or.inr h
        · intro htrue
          obtain ⟨v, older, hlog, hv, hc, hold⟩ := h3 htrue
          refine ⟨v, older, ?_, hv, ?_, ?_⟩
          · rw [hlog]; simp [delayMicroseconds, readReg]
          · rw [hc]; simp [delayMicroseconds, readReg]
          · intro r w hw'
            have := hold r w hw'
            simpa [delayMicroseconds, readReg] using this
    · rw [if_neg hpos]
      refine ⟨?_, ?_, ?_⟩
      · show pollCount s.log ≤ _
        omega
      · intro _
        refine ⟨?_, rfl, fun _ _ h => h, fun _ h => Or.inl h⟩
        show delayTotal s.log ≥ _
        omega
      · intro h
        exact absurd h (by simp)

/-- C14: `waitForAcknowledge` reads the interrupt flag at most
`ceil(timeout / 10)` times (never when `timeout ≤ 0`) and returns true exactly
when one of these reads shows the SIO0 flag set.  When it returns true its
last four accesses are that read, the write of `~(1 << IRQ_SIO0)` to
`IRQ_STAT` and the read-modify-write that sets `SIO_CTRL_ACKNOWLEDGE`, and it
has written nothing before them; when it returns false the delays add up to at
least `timeout` microseconds, no register has been written and `SIO_CTRL` is
unchanged. -/
theorem waitForAcknowledge_spec {σ : Type} (K : Consts) (hw : Hardware σ) (timeout : Int)
    (d : σ) (ctrl : Nat) :
    pollCount (waitForAcknowledge K hw timeout { dev := d, ctrl := ctrl, log := [] }).2.log ≤
      ((timeout + 9) / 10).toNat ∧
    (timeout ≤ 0 →
      pollCount (waitForAcknowledge K hw timeout
        { dev := d, ctrl := ctrl, log := [] }).2.log = 0) ∧
    ((waitForAcknowledge K hw timeout { dev := d, ctrl := ctrl, log := [] }).1 = true ↔
      ∃ v, Event.read Reg.IRQ_STAT v ∈
          (waitForAcknowledge K hw timeout { dev := d, ctrl := ctrl, log := [] }).2.log ∧
        v &&& (1 <<< K.IRQ_SIO0) ≠ 0) ∧
    ((waitForAcknowledge K hw timeout { dev := d, ctrl := ctrl, log := [] }).1 = true →
      ∃ v older,
        (waitForAcknowledge K hw timeout { dev := d, ctrl := ctrl, log := [] }).2.log =
          Event.write Reg.SIO_CTRL (ctrl ||| K.SIO_CTRL_ACKNOWLEDGE) ::
          Event.read Reg.SIO_CTRL ctrl ::
          Event.write Reg.IRQ_STAT (not32 (1 <<< K.IRQ_SIO0)) ::
          Event.read Reg.IRQ_STAT v :: older ∧
        v &&& (1 <<< K.IRQ_SIO0) ≠ 0 ∧
        (∀ r w, Event.write r w ∉ older) ∧
        (waitForAcknowledge K hw timeout { dev := d, ctrl := ctrl, log := [] }).2.ctrl =
          ctrl ||| K.SIO_CTRL_ACKNOWLEDGE) ∧
    ((waitForAcknowledge K hw timeout { dev := d, ctrl := ctrl, log := [] }).1 = false →
      delayTotal (waitForAcknowledge K hw timeout
        { dev := d, ctrl := ctrl, log := [] }).2.log ≥ timeout ∧
      (∀ r w, Event.write r w ∉
        (waitForAcknowledge K hw timeout { dev := d, ctrl := ctrl, log := [] }).2.log) ∧
      (waitForAcknowledge K hw timeout { dev := d, ctrl := ctrl, log := [] }).2.ctrl = ctrl) := by
  have hfuel : timeout ≤ ((timeout.toNat : Nat) : Int) := Int.self_le_toNat timeout
  obtain ⟨h1, h2, h3⟩ := waitLoop_spec K hw timeout.toNat timeout
    { dev := d, ctrl := ctrl, log := [] } hfuel
  simp only [pollCount, delayTotal, zero_add, List.not_mem_nil, false_or, imp_false] at h1 h2 h3
  refine ⟨h1, ?_, ?_, ?_, ?_⟩
  · intro ht
    have : ((timeout + 9) / 10).toNat = 0 := by omega
    unfold waitForAcknowledge
    omega
  · constructor
    · intro htrue
      exact waitLoop_observed K hw _ _ _ htrue
    · intro ⟨v, hv, hset⟩
      by_contra hne
      have hfalse := Bool.eq_false_of_not_eq_true hne
      exact hset ((h2 hfalse).2.2.2 v hv)
  · intro htrue
    obtain ⟨v, older, hlog, hv, hc, hold⟩ := h3 htrue
    exact ⟨v, older, hlog, hv, hold, hc⟩
  · intro hfalse
    obtain ⟨a, b, c, _⟩ := h2 hfalse
    exact ⟨a, c, b⟩

/-- Witness for C14: with nothing attached a 120 microsecond wait times out
after its delays, and on the simulated controller the wait after the address
byte succeeds. -/
theorem waitForAcknowledge_spec_witness :
    ((waitForAcknowledge psx noDevice 120 { dev := (), ctrl := 0, log := [] }).1 = false ∧
      delayTotal (waitForAcknowledge psx noDevice 120
        { dev := (), ctrl := 0, log := [] }).2.log ≥ 120 ∧
      (∀ r w, Event.write r w ∉
        (waitForAcknowledge psx noDevice 120 { dev := (), ctrl := 0, log := [] }).2.log) ∧
      (waitForAcknowledge psx noDevice 120 { dev := (), ctrl := 0, log := [] }).2.ctrl = 0) ∧
    ((waitForAcknowledge psx (simPad 7 padReply) 120
        { dev := { irq := true, rx := none, count := 1 }, ctrl := 2, log := [] }).1 = true ∧
      ∃ v, Event.read Reg.IRQ_STAT v ∈
          (waitForAcknowledge psx (simPad 7 padReply) 120
            { dev := { irq := true, rx := none, count := 1 }, ctrl := 2, log := [] }).2.log ∧
        v &&& (1 <<< psx.IRQ_SIO0) ≠ 0) :=
  ⟨⟨by decide, (waitForAcknowledge_spec psx noDevice 120 () 0).2.2.2.2 (by decide)⟩,
    ⟨by decide, (waitForAcknowledge_spec psx (simPad 7 padReply) 120
      { irq := true, rx := none, count := 1 } 2).2.2.1.1 (by decide)⟩⟩

/-! ## Sending without acknowledgment -/

theorem spinUntil_polls {σ : Type} (hw : Hardware σ) (mask n : Nat) :
    ∀ s s' : Bus σ, spinUntil hw mask n s = some s' → pollCount s'.log = pollCount s.log := by
  induction n with
  | zero => intro s s' h; simp [spinUntil] at h
  | succ n ih =>
    intro s s' h
    rw [spinUntil_succ] at h
    by_cases hc : hw.read Reg.SIO_STAT s.dev &&& mask ≠ 0
    · rw [if_pos hc] at h
      cases h
      rfl
    · rw [if_neg hc] at h
      rw [ih _ _ h]
      rfl

theorem exchangeByte_polls {σ : Type} (K : Consts) (hw : Hardware σ) (fuel v : Nat)
    (s s' : Bus σ) (b : Nat) (h : exchangeByte K hw fuel v s = some (b, s')) :
    pollCount s'.log = pollCount s.log := by
  unfold exchangeByte at h
  cases h1 : spinUntil hw K.SIO_STAT_TX_NOT_FULL fuel s with
  | none => rw [h1] at h; cases h
  | some s1 =>
    rw [h1] at h
    simp only at h
    cases h2 : spinUntil hw K.SIO_STAT_RX_NOT_EMPTY fuel (writeReg hw Reg.SIO_DATA v s1) with
    | none => rw [h2] at h; cases h
    | some s2 =>
      rw [h2] at h
      simp only [Option.some.injEq, Prod.mk.injEq] at h
      rw [← h.2]
      have a := spinUntil_polls hw _ _ _ _ h1
      have c := spinUntil_polls hw _ _ _ _ h2
      show pollCount s2.log = _
      rw [c, ← a]
      rfl

theorem drainRx_polls {σ : Type} (K : Consts) (hw : Hardware σ) (n : Nat) :
    ∀ s s' : Bus σ, drainRx K hw n s = some s' → pollCount s'.log = pollCount s.log := by
  induction n with
  | zero => intro s s' h; simp [drainRx] at h
  | succ n ih =>
    intro s s' h
    rw [drainRx_succ] at h
    by_cases hc : hw.read Reg.SIO_STAT s.dev &&& K.SIO_STAT_RX_NOT_EMPTY ≠ 0
    · rw [if_pos hc] at h
      rw [ih _ _ h]
      rfl
    · rw [if_neg hc] at h
      cases h
      rfl

theorem sendLoop_succ {σ : Type} (K : Consts) (hw : Hardware σ) (fuel : Nat)
    (req : Nat → Nat) (n request : Nat) (reqLength : Int) (s : Bus σ) :
    sendLoop K hw fuel req (n + 1) request reqLength s =
      if reqLength > 0 then
        match exchangeByte K hw fuel (req request) s with
        | none => none
        | some p =>
          sendLoop K hw fuel req n (request + 1) (reqLength - 1)
            (delayMicroseconds hw K.BYTE_DELAY p.2)
      else some s := by
  simp only [sendLoop]
  split
  · cases exchangeByte K hw fuel (req request) s with
    | none => rfl
    | some p => rfl
  · rfl

theorem sendLoop_obs {σ : Type} (K : Consts) (hw : Hardware σ) (fuel : Nat)
    (hready : HwReady K hw fuel) (req : Nat → Nat) (n : Nat) :
    ∀ (request : Nat) (reqLength : Int) (s : Bus σ), reqLength.toNat ≤ n →
      ∃ s' : Bus σ, sendLoop K hw fuel req n request reqLength s = some s' ∧
        txBytes s'.log = txBytes s.log ++
          (List.range reqLength.toNat).map (fun j => req (request + j)) ∧
        s'.ctrl = s.ctrl ∧ pollCount s'.log = pollCount s.log := by
  induction n with
  | zero =>
    intro request reqLength s hn
    have h0 : ¬ reqLength > 0 := by omega
    have hz : reqLength.toNat = 0 := by omega
    refine ⟨s, by simp [sendLoop, h0], ?_, rfl, rfl⟩
    rw [hz]; simp
  | succ n ih =>
    intro request reqLength s hn
    rw [sendLoop_succ]
    by_cases hq : reqLength > 0
    · rw [if_pos hq]
      have hs := hready.1 (req request) s
      cases he : exchangeByte K hw fuel (req request) s with
      | none => rw [he] at hs; cases hs
      | some p =>
        obtain ⟨b, s1⟩ := p
        obtain ⟨r, _, h0, _, h2, _⟩ := exchangeByte_obs K hw fuel _ _ _ _ he
        have hp := exchangeByte_polls K hw fuel _ _ _ _ he
        obtain ⟨s', hrun, htx, hc, hpoll⟩ :=
          ih (request + 1) (reqLength - 1) (delayMicroseconds hw K.BYTE_DELAY s1) (by omega)
        refine ⟨s', hrun, ?_, ?_, ?_⟩
        · rw [htx]
          show txBytes s1.log ++ _ = _
          rw [h2]
          have e : reqLength.toNat = (reqLength - 1).toNat + 1 := by omega
          rw [e, range_map_shift (fun j => req (request + j))
            (fun j => req (request + 1 + j))
            (by intro j; show req (request + 1 + j) = req (request + (j + 1)); congr 1; omega)]
          simp
        · rw [hc]; exact h0
        · rw [hpoll]; exact hp
    · rw [if_neg hq]
      have hz : reqLength.toNat = 0 := by omega
      refine ⟨s, rfl, ?_, rfl, rfl⟩
      rw [hz]; simp

/-- C15: whatever the hardware does with the acknowledge flag (it is never
read), `sendPacketNoAcknowledge` writes to `SIO_DATA` the address byte followed
by exactly the `reqLength` request bytes in order, and returns with DTR
cleared in `SIO_CTRL`. -/
theorem sendPacketNoAcknowledge_bytes {σ : Type} (K : Consts) (hw : Hardware σ) (fuel : Nat)
    (hready : HwReady K hw fuel) (address : Nat) (request : Nat → Nat) (reqLength : Int)
    (d : σ) (ctrl : Nat) :
    ∃ s' : Bus σ,
      sendPacketNoAcknowledge K hw fuel address request reqLength
        { dev := d, ctrl := ctrl, log := [] } = some s' ∧
      txBytes s'.log = address :: (List.range reqLength.toNat).map request ∧
      pollCount s'.log = 0 ∧
      s'.ctrl &&& K.SIO_CTRL_DTR = 0 := by
  have hunfold : ∀ s0 : Bus σ,
      s0 = delayMicroseconds hw K.BYTE_DELAY
        (writeReg hw Reg.SIO_DATA address
          (delayMicroseconds hw DTR_DELAY
            (writeReg hw Reg.SIO_CTRL (ctrl ||| (K.SIO_CTRL_DTR ||| K.SIO_CTRL_ACKNOWLEDGE))
              (readReg hw Reg.SIO_CTRL
                (writeReg hw Reg.IRQ_STAT (not32 (1 <<< K.IRQ_SIO0))
                  { dev := d, ctrl := ctrl, log := [] })).2))) →
      sendPacketNoAcknowledge K hw fuel address request reqLength
        { dev := d, ctrl := ctrl, log := [] } =
      match drainRx K hw fuel s0 with
      | none => none
      | some s =>
        match sendLoop K hw fuel request reqLength.toNat 0 reqLength s with
        | none => none
        | some s =>
          some (writeReg hw Reg.SIO_CTRL (s.ctrl &&& not32 K.SIO_CTRL_DTR)
            (readReg hw Reg.SIO_CTRL (delayMicroseconds hw DTR_DELAY s)).2) := by
    intro s0 h0
    rw [h0]
    rfl
  have hs0 : txBytes (delayMicroseconds hw K.BYTE_DELAY
        (writeReg hw Reg.SIO_DATA address
          (delayMicroseconds hw DTR_DELAY
            (writeReg hw Reg.SIO_CTRL (ctrl ||| (K.SIO_CTRL_DTR ||| K.SIO_CTRL_ACKNOWLEDGE))
              (readReg hw Reg.SIO_CTRL
                (writeReg hw Reg.IRQ_STAT (not32 (1 <<< K.IRQ_SIO0))
                  { dev := d, ctrl := ctrl, log := [] })).2)))).log = [address] ∧
      pollCount (delayMicroseconds hw K.BYTE_DELAY
        (writeReg hw Reg.SIO_DATA address
          (delayMicroseconds hw DTR_DELAY
            (writeReg hw Reg.SIO_CTRL (ctrl ||| (K.SIO_CTRL_DTR ||| K.SIO_CTRL_ACKNOWLEDGE))
              (readReg hw Reg.SIO_CTRL
                (writeReg hw Reg.IRQ_STAT (not32 (1 <<< K.IRQ_SIO0))
                  { dev := d, ctrl := ctrl, log := [] })).2)))).log = 0 := by
    constructor <;> rfl
  rw [hunfold _ rfl]
  obtain ⟨s1, hd⟩ := Option.isSome_iff_exists.1 (hready.2 (delayMicroseconds hw K.BYTE_DELAY
        (writeReg hw Reg.SIO_DATA address
          (delayMicroseconds hw DTR_DELAY
            (writeReg hw Reg.SIO_CTRL (ctrl ||| (K.SIO_CTRL_DTR ||| K.SIO_CTRL_ACKNOWLEDGE))
              (readReg hw Reg.SIO_CTRL
                (writeReg hw Reg.IRQ_STAT (not32 (1 <<< K.IRQ_SIO0))
                  { dev := d, ctrl := ctrl, log := [] })).2)))))
  obtain ⟨_, _, _, d3, _⟩ := drainRx_obs K hw fuel _ _ hd
  have d5 := drainRx_polls K hw fuel _ _ hd
  obtain ⟨s2, hrun, htx, _, hpoll⟩ :=
    sendLoop_obs K hw fuel hready request reqLength.toNat 0 reqLength s1 (le_refl _)
  rw [hd]
  simp only [hrun]
  refine ⟨_, rfl, ?_, ?_, ?_⟩
  · show txBytes s2.log = _
    rw [htx, d3, hs0.1]
    simp
  · show pollCount s2.log = _
    rw [hpoll, d5, hs0.2]
  · simp only [delayMicroseconds, readReg, writeReg, if_true]
    exact and_not32_and _ _

/-- Witness for C15: a three-byte packet sent to the simulated controller. -/
theorem sendPacketNoAcknowledge_bytes_witness :
    HwReady psx (simPad 0 padReply) 2 ∧
    ∃ s' : Bus PadState,
      sendPacketNoAcknowledge psx (simPad 0 padReply) 2 psx.ADDR_MEMORY_CARD
        (fun i => [0x21, 0x00, 0x04].getD i 0) 3
        { dev := padIdle, ctrl := 0, log := [] } = some s' ∧
      txBytes s'.log = psx.ADDR_MEMORY_CARD ::
        (List.range (3 : Int).toNat).map (fun i => [0x21, 0x00, 0x04].getD i 0) ∧
      pollCount s'.log = 0 ∧
      s'.ctrl &&& psx.SIO_CTRL_DTR = 0 :=
  ⟨simPad_ready 0 padReply,
    sendPacketNoAcknowledge_bytes psx (simPad 0 padReply) 2 (simPad_ready 0 padReply)
      psx.ADDR_MEMORY_CARD (fun i => [0x21, 0x00, 0x04].getD i 0) 3 padIdle 0⟩

/-! ## The control register across a packet -/

theorem or_and_of_disjoint (c m k : Nat) (h : k &&& m = 0) : (c ||| m) &&& k = c &&& k := by
  apply Nat.eq_of_testBit_eq
  intro i
  have hi := congrArg (fun x => x.testBit i) h
  simp only [Nat.testBit_land, Nat.zero_testBit] at hi
  simp only [Nat.testBit_land, Nat.testBit_lor]
  cases hc : c.testBit i <;> cases hm : m.testBit i <;> cases hk : k.testBit i <;>
    simp_all

theorem and_not32_and_of_disjoint (c m k : Nat) (h : k &&& m = 0) (hk : k < 2 ^ 32) :
    (c &&& not32 m) &&& k = c &&& k := by
  apply Nat.eq_of_testBit_eq
  intro i
  have hi := congrArg (fun x => x.testBit i) h
  have h32 : (0xFFFFFFFF : Nat) = 2 ^ 32 - 1 := by norm_num
  simp only [Nat.testBit_land, Nat.zero_testBit] at hi
  simp only [not32, Nat.testBit_land, Nat.testBit_xor, Nat.testBit_mod_two_pow, h32,
    Nat.testBit_two_pow_sub_one]
  by_cases h1 : i < 32
  · cases hc : c.testBit i <;> cases hm : m.testBit i <;> cases hkb : k.testBit i <;>
      simp_all
  · have hkf : k.testBit i = false :=
      Nat.testBit_eq_false_of_lt (lt_of_lt_of_le hk
        (Nat.pow_le_pow_right (by norm_num) (by omega)))
    simp [hkf]

theorem or_and_self (c m : Nat) : (c ||| m) &&& m = m := by
  apply Nat.eq_of_testBit_eq
  intro i
  simp only [Nat.testBit_land, Nat.testBit_lor]
  cases c.testBit i <;> cases m.testBit i <;> rfl

theorem waitForAcknowledge_ctrl {σ : Type} (K : Consts) (hw : Hardware σ) (t : Int)
    (s : Bus σ) :
    (waitForAcknowledge K hw t s).2.ctrl = s.ctrl ∨
    (waitForAcknowledge K hw t s).2.ctrl = s.ctrl ||| K.SIO_CTRL_ACKNOWLEDGE := by
  obtain ⟨_, h2, h3⟩ := waitLoop_spec K hw t.toNat t s (Int.self_le_toNat t)
  cases hb : (waitForAcknowledge K hw t s).1 with
  | false => exact Or.inl (h2 hb).2.1
  | true =>
    obtain ⟨_, _, _, _, hc, _⟩ := h3 hb
    exact Or.inr hc

theorem exchangeStep_ctrl {σ : Type} (K : Consts) (hw : Hardware σ) (fuel : Nat)
    (req : Nat → Nat) (x x1 : Transfer σ) (h : exchangeStep K hw fuel req x = some x1) :
    x1.bus.ctrl = x.bus.ctrl ∧ x1.respLength = x.respLength + 1 := by
  unfold exchangeStep at h
  by_cases hq : x.reqLength > 0
  · rw [if_pos hq] at h
    cases he : exchangeByte K hw fuel (req x.request) x.bus with
    | none => rw [he] at h; cases h
    | some p =>
      obtain ⟨b, bus⟩ := p
      rw [he] at h
      obtain ⟨_, _, h0, _⟩ := exchangeByte_obs K hw fuel _ _ _ _ he
      cases h
      exact ⟨h0, rfl⟩
  · rw [if_neg hq] at h
    cases he : exchangeByte K hw fuel 0 x.bus with
    | none => rw [he] at h; cases h
    | some p =>
      obtain ⟨b, bus⟩ := p
      rw [he] at h
      obtain ⟨_, _, h0, _⟩ := exchangeByte_obs K hw fuel _ _ _ _ he
      cases h
      exact ⟨h0, rfl⟩

theorem exchangeLoop_ctrl {σ : Type} (K : Consts) (hw : Hardware σ) (fuel : Nat)
    (req : Nat → Nat) (maxRespLength : Int) (k : Nat) (hk : k &&& K.SIO_CTRL_ACKNOWLEDGE = 0)
    (n : Nat) :
    ∀ x x' : Transfer σ, exchangeLoop K hw fuel req maxRespLength n x = some x' →
      x'.bus.ctrl &&& k = x.bus.ctrl &&& k ∧ x.respLength ≤ x'.respLength := by
  induction n with
  | zero =>
    intro x x' h
    simp only [exchangeLoop] at h
    split at h
    · cases h
    · cases h; exact ⟨rfl, le_refl _⟩
  | succ n ih =>
    intro x x' h
    rw [exchangeLoop_succ] at h
    by_cases hlt : x.respLength < maxRespLength
    · rw [if_pos hlt] at h
      cases hs : exchangeStep K hw fuel req x with
      | none => rw [hs] at h; cases h
      | some x1 =>
        rw [hs] at h
        dsimp only at h
        obtain ⟨hc1, hr1⟩ := exchangeStep_ctrl K hw fuel req x x1 hs
        have hw1 : (waitForAcknowledge K hw DSR_TIMEOUT x1.bus).2.ctrl &&& k =
            x.bus.ctrl &&& k := by
          rcases waitForAcknowledge_ctrl K hw DSR_TIMEOUT x1.bus with e | e
          · rw [e, hc1]
          · rw [e, or_and_of_disjoint _ _ _ hk, hc1]
        cases hack : (waitForAcknowledge K hw DSR_TIMEOUT x1.bus).1 with
        | false =>
          simp only [hack, Bool.not_false, if_true, Option.some.injEq] at h
          rw [← h]
          exact ⟨hw1, by show x.respLength ≤ x1.respLength; omega⟩
        | true =>
          simp only [hack, Bool.not_true, Bool.false_eq_true, if_false] at h
          obtain ⟨a, b⟩ := ih _ _ h
          refine ⟨?_, ?_⟩
          · rw [a]; exact hw1
          · have : x1.respLength ≤ x'.respLength := b
            omega
    · rw [if_neg hlt] at h
      cases h
      exact ⟨rfl, le_refl _⟩

theorem exchangePacket_cases {σ : Type} (K : Consts) (hw : Hardware σ) (fuel : Nat)
    (address : Nat) (request response : Nat → Nat) (reqLength maxRespLength : Int)
    (s : Bus σ) (r : Int) (resp' : Nat → Nat) (s' : Bus σ) :
    exchangePacket K hw fuel address request response reqLength maxRespLength s =
        some (r, resp', s') ↔
      ((waitForAcknowledge K hw DSR_TIMEOUT (sendAddress K hw address s)).1 = false ∧
        r = 0 ∧ resp' = response ∧
        s' = releaseDTR K hw (waitForAcknowledge K hw DSR_TIMEOUT
          (sendAddress K hw address s)).2) ∨
      ((waitForAcknowledge K hw DSR_TIMEOUT (sendAddress K hw address s)).1 = true ∧
        ∃ (s1 : Bus σ) (x' : Transfer σ),
          drainRx K hw fuel (waitForAcknowledge K hw DSR_TIMEOUT
            (sendAddress K hw address s)).2 = some s1 ∧
          exchangeLoop K hw fuel request maxRespLength maxRespLength.toNat
            { request := 0, response := 0, reqLength := reqLength, respLength := 0
              buf := response, bus := s1 } = some x' ∧
          r = x'.respLength ∧ resp' = x'.buf ∧ s' = releaseDTR K hw x'.bus) := by
  simp only [exchangePacket]
  cases hack : (waitForAcknowledge K hw DSR_TIMEOUT (sendAddress K hw address s)).1 with
  | false =>
    rw [show waitForAcknowledge K hw DSR_TIMEOUT (sendAddress K hw address s) =
        (false, (waitForAcknowledge K hw DSR_TIMEOUT (sendAddress K hw address s)).2) from
      Prod.ext hack rfl]
    simp only [Bool.false_eq_true, if_false, Option.some.injEq, Prod.mk.injEq, true_and,
      false_and, or_false]
    constructor
    · rintro ⟨a, b, c⟩; exact ⟨a.symm, b.symm, c.symm⟩
    · rintro ⟨a, b, c⟩; exact ⟨a.symm, b.symm, c.symm⟩
  | true =>
    rw [show waitForAcknowledge K hw DSR_TIMEOUT (sendAddress K hw address s) =
        (true, (waitForAcknowledge K hw DSR_TIMEOUT (sendAddress K hw address s)).2) from
      Prod.ext hack rfl]
    simp only [if_true, Bool.true_eq_false, false_and, true_and, false_or]
    cases hd : drainRx K hw fuel (waitForAcknowledge K hw DSR_TIMEOUT
        (sendAddress K hw address s)).2 with
    | none => simp
    | some s1 =>
      cases hl : exchangeLoop K hw fuel request maxRespLength maxRespLength.toNat
          { request := 0, response := 0, reqLength := reqLength, respLength := 0
            buf := response, bus := s1 } with
      | none => simp [hl]
      | some x' =>
        simp only [hl, Option.some.injEq, Prod.mk.injEq, exists_and_left, exists_eq_left']
        constructor
        · rintro ⟨a, b, c⟩; exact ⟨a.symm, b.symm, c.symm⟩
        · rintro ⟨a, b, c⟩; exact ⟨a.symm, b.symm, c.symm⟩

theorem exchangePacket_returns {σ : Type} (K : Consts) (hw : Hardware σ) (fuel : Nat)
    (hready : HwReady K hw fuel) (address : Nat) (request response : Nat → Nat)
    (reqLength maxRespLength : Int) (s : Bus σ) :
    ∃ (r : Int) (resp' : Nat → Nat) (s' : Bus σ),
      exchangePacket K hw fuel address request response reqLength maxRespLength s =
        some (r, resp', s') := by
  cases hack : (waitForAcknowledge K hw DSR_TIMEOUT (sendAddress K hw address s)).1 with
  | false =>
    exact ⟨_, _, _, exchangePacket_unacked K hw fuel address request response reqLength
      maxRespLength s hack⟩
  | true =>
    obtain ⟨s1, hd⟩ := Option.isSome_iff_exists.1
      (hready.2 (waitForAcknowledge K hw DSR_TIMEOUT (sendAddress K hw address s)).2)
    obtain ⟨x', _, _, hrun, _⟩ :=
      exchangeLoop_obs K hw fuel hready request maxRespLength maxRespLength.toNat
        { request := 0, response := 0, reqLength := reqLength, respLength := 0
          buf := response, bus := s1 } (by simp)
    exact ⟨_, _, _, (exchangePacket_cases K hw fuel address request response reqLength
      maxRespLength s _ _ _).2 (Or.inr ⟨hack, s1, x', hd, hrun, rfl, rfl, rfl⟩)⟩

theorem sendAddress_ctrl {σ : Type} (K : Consts) (hw : Hardware σ) (address : Nat)
    (s : Bus σ) :
    (sendAddress K hw address s).ctrl =
      s.ctrl ||| (K.SIO_CTRL_DTR ||| K.SIO_CTRL_ACKNOWLEDGE) := by
  simp [sendAddress, delayMicroseconds, readReg, writeReg]

theorem releaseDTR_ctrl_eq {σ : Type} (K : Consts) (hw : Hardware σ) (s : Bus σ) :
    (releaseDTR K hw s).ctrl = s.ctrl &&& not32 K.SIO_CTRL_DTR := by
  simp [releaseDTR, delayMicroseconds, readReg, writeReg]

theorem or_and_of_set (c m k : Nat) (h : c &&& k = k) : (c ||| m) &&& k = k := by
  apply Nat.eq_of_testBit_eq
  intro i
  have hi := congrArg (fun x => x.testBit i) h
  simp only [Nat.testBit_land] at hi
  simp only [Nat.testBit_land, Nat.testBit_lor]
  cases hc : c.testBit i <;> cases hm : m.testBit i <;> cases hk : k.testBit i <;>
    simp_all

theorem held_refl (P : Event → Prop) (l : List Event) :
    ∃ new, l = new ++ l ∧ ∀ e ∈ new, P e :=
  ⟨[], rfl, fun _ h => absurd h (List.not_mem_nil _)⟩

theorem held_trans {P : Event → Prop} {l1 l2 l3 : List Event}
    (h12 : ∃ new, l2 = new ++ l1 ∧ ∀ e ∈ new, P e)
    (h23 : ∃ new, l3 = new ++ l2 ∧ ∀ e ∈ new, P e) :
    ∃ new, l3 = new ++ l1 ∧ ∀ e ∈ new, P e := by
  obtain ⟨a, ha, pa⟩ := h12
  obtain ⟨b, hb, pb⟩ := h23
  refine ⟨b ++ a, by rw [hb, ha, List.append_assoc], ?_⟩
  intro e he
  rcases List.mem_append.1 he with h | h
  · exact pb e h
  · exact pa e h

theorem held_cons {P : Event → Prop} (e : Event) (l : List Event) (he : P e) :
    ∃ new, e :: l = new ++ l ∧ ∀ e' ∈ new, P e' :=
  ⟨[e], rfl, fun e' h => by rw [List.mem_singleton.1 h]; exact he⟩

theorem spinUntil_held {σ : Type} (K : Consts) (cs : Nat) (hw : Hardware σ) (mask n : Nat) :
    ∀ s s' : Bus σ, spinUntil hw mask n s = some s' →
      ∃ new, s'.log = new ++ s.log ∧ ∀ e ∈ new, ctrlHeld K cs e := by
  induction n with
  | zero => intro s s' h; simp [spinUntil] at h
  | succ n ih =>
    intro s s' h
    rw [spinUntil_succ] at h
    have h1 : ∃ new, (readReg hw Reg.SIO_STAT s).2.log = new ++ s.log ∧
        ∀ e ∈ new, ctrlHeld K cs e := held_cons _ _ trivial
    by_cases hc : hw.read Reg.SIO_STAT s.dev &&& mask ≠ 0
    · rw [if_pos hc] at h
      cases h
      exact h1
    · rw [if_neg hc] at h
      exact held_trans h1 (ih _ _ h)

theorem exchangeByte_held {σ : Type} (K : Consts) (cs : Nat) (hw : Hardware σ)
    (fuel v : Nat) (s s' : Bus σ) (b : Nat) (h : exchangeByte K hw fuel v s = some (b, s')) :
    ∃ new, s'.log = new ++ s.log ∧ ∀ e ∈ new, ctrlHeld K cs e := by
  unfold exchangeByte at h
  cases h1 : spinUntil hw K.SIO_STAT_TX_NOT_FULL fuel s with
  | none => rw [h1] at h; cases h
  | some s1 =>
    rw [h1] at h
    simp only at h
    cases h2 : spinUntil hw K.SIO_STAT_RX_NOT_EMPTY fuel (writeReg hw Reg.SIO_DATA v s1) with
    | none => rw [h2] at h; cases h
    | some s2 =>
      rw [h2] at h
      simp only [Option.some.injEq, Prod.mk.injEq] at h
      rw [← h.2]
      have a := spinUntil_held K cs hw _ _ _ _ h1
      have c := spinUntil_held K cs hw _ _ _ _ h2
      have w : ∃ new, (writeReg hw Reg.SIO_DATA v s1).log = new ++ s1.log ∧
          ∀ e ∈ new, ctrlHeld K cs e := held_cons _ _ trivial
      have r : ∃ new, (readReg hw Reg.SIO_DATA s2).2.log = new ++ s2.log ∧
          ∀ e ∈ new, ctrlHeld K cs e := held_cons _ _ trivial
      exact held_trans (held_trans (held_trans a w) c) r

theorem drainRx_held {σ : Type} (K : Consts) (cs : Nat) (hw : Hardware σ) (n : Nat) :
    ∀ s s' : Bus σ, drainRx K hw n s = some s' →
      ∃ new, s'.log = new ++ s.log ∧ ∀ e ∈ new, ctrlHeld K cs e := by
  induction n with
  | zero => intro s s' h; simp [drainRx] at h
  | succ n ih =>
    intro s s' h
    rw [drainRx_succ] at h
    have h1 : ∃ new, (readReg hw Reg.SIO_STAT s).2.log = new ++ s.log ∧
        ∀ e ∈ new, ctrlHeld K cs e := held_cons _ _ trivial
    by_cases hc : hw.read Reg.SIO_STAT s.dev &&& K.SIO_STAT_RX_NOT_EMPTY ≠ 0
    · rw [if_pos hc] at h
      have h2 : ∃ new, (readReg hw Reg.SIO_DATA (readReg hw Reg.SIO_STAT s).2).2.log =
          new ++ (readReg hw Reg.SIO_STAT s).2.log ∧ ∀ e ∈ new, ctrlHeld K cs e :=
        held_cons _ _ trivial
      exact held_trans (held_trans h1 h2) (ih _ _ h)
    · rw [if_neg hc] at h
      cases h
      exact h1

theorem waitLoop_held {σ : Type} (K : Consts) (cs : Nat) (hw : Hardware σ)
    (hackn : K.SIO_CTRL_CS_PORT_2 &&& K.SIO_CTRL_ACKNOWLEDGE = 0) (n : Nat) :
    ∀ (t : Int) (s : Bus σ),
      s.ctrl &&& K.SIO_CTRL_DTR = K.SIO_CTRL_DTR → s.ctrl &&& K.SIO_CTRL_CS_PORT_2 = cs →
      (waitForAcknowledgeLoop K hw n t s).2.ctrl &&& K.SIO_CTRL_DTR = K.SIO_CTRL_DTR ∧
      (waitForAcknowledgeLoop K hw n t s).2.ctrl &&& K.SIO_CTRL_CS_PORT_2 = cs ∧
      ∃ new, (waitForAcknowledgeLoop K hw n t s).2.log = new ++ s.log ∧
        ∀ e ∈ new, ctrlHeld K cs e := by
  induction n with
  | zero => intro t s hd hc; exact ⟨hd, hc, held_refl _ _⟩
  | succ n ih =>
    intro t s hd hc
    rw [waitLoop_succ]
    by_cases ht : t > 0
    · rw [if_pos ht]
      by_cases hf : hw.read Reg.IRQ_STAT s.dev &&& (1 <<< K.IRQ_SIO0) ≠ 0
      · rw [if_pos hf]
        have hd' : (s.ctrl ||| K.SIO_CTRL_ACKNOWLEDGE) &&& K.SIO_CTRL_DTR = K.SIO_CTRL_DTR :=
          or_and_of_set _ _ _ hd
        have hc' : (s.ctrl ||| K.SIO_CTRL_ACKNOWLEDGE) &&& K.SIO_CTRL_CS_PORT_2 = cs := by
          rw [or_and_of_disjoint _ _ _ hackn]; exact hc
        refine ⟨?_, ?_, [Event.write Reg.SIO_CTRL (s.ctrl ||| K.SIO_CTRL_ACKNOWLEDGE),
          Event.read Reg.SIO_CTRL s.ctrl,
          Event.write Reg.IRQ_STAT (not32 (1 <<< K.IRQ_SIO0)),
          Event.read Reg.IRQ_STAT (hw.read Reg.IRQ_STAT s.dev)], ?_, ?_⟩
        · simpa [writeReg, readReg] using hd'
        · simpa [writeReg, readReg] using hc'
        · simp [writeReg, readReg]
        · intro e he
          simp only [List.mem_cons, List.mem_singleton, List.not_mem_nil, or_false] at he
          rcases he with h | h | h | h <;> rw [h]
          · exact ⟨hd', hc'⟩
          · trivial
          · trivial
          · trivial
      · rw [if_neg hf]
        have h1 : ∃ new, (delayMicroseconds hw 10 (readReg hw Reg.IRQ_STAT s).2).log =
            new ++ s.log ∧ ∀ e ∈ new, ctrlHeld K cs e := by
          refine ⟨[Event.delay 10, Event.read Reg.IRQ_STAT (hw.read Reg.IRQ_STAT s.dev)],
            ?_, ?_⟩
          · simp [delayMicroseconds, readReg]
          · intro e he
            simp only [List.mem_cons, List.mem_singleton, List.not_mem_nil, or_false] at he
            rcases he with h | h <;> rw [h] <;> trivial
        obtain ⟨a, b, c⟩ := ih (t - 10) (delayMicroseconds hw 10 (readReg hw Reg.IRQ_STAT s).2)
          (by simpa [delayMicroseconds, readReg] using hd)
          (by simpa [delayMicroseconds, readReg] using hc)
        exact ⟨a, b, held_trans h1 c⟩
    · rw [if_neg ht]
      exact ⟨hd, hc, held_refl _ _⟩

theorem exchangeStep_held {σ : Type} (K : Consts) (cs : Nat) (hw : Hardware σ) (fuel : Nat)
    (req : Nat → Nat) (x x1 : Transfer σ) (hs : exchangeStep K hw fuel req x = some x1) :
    ∃ new, x1.bus.log = new ++ x.bus.log ∧ ∀ e ∈ new, ctrlHeld K cs e := by
  unfold exchangeStep at hs
  by_cases hq : x.reqLength > 0
  · rw [if_pos hq] at hs
    cases he : exchangeByte K hw fuel (req x.request) x.bus with
    | none => rw [he] at hs; cases hs
    | some p =>
      obtain ⟨b, bus⟩ := p
      rw [he] at hs
      cases hs
      exact exchangeByte_held K cs hw fuel _ _ _ _ he
  · rw [if_neg hq] at hs
    cases he : exchangeByte K hw fuel 0 x.bus with
    | none => rw [he] at hs; cases hs
    | some p =>
      obtain ⟨b, bus⟩ := p
      rw [he] at hs
      cases hs
      exact exchangeByte_held K cs hw fuel _ _ _ _ he

theorem exchangeLoop_held {σ : Type} (K : Consts) (cs : Nat) (hw : Hardware σ) (fuel : Nat)
    (hackn : K.SIO_CTRL_CS_PORT_2 &&& K.SIO_CTRL_ACKNOWLEDGE = 0)
    (req : Nat → Nat) (maxRespLength : Int) (n : Nat) :
    ∀ x x' : Transfer σ, exchangeLoop K hw fuel req maxRespLength n x = some x' →
      x.bus.ctrl &&& K.SIO_CTRL_DTR = K.SIO_CTRL_DTR →
      x.bus.ctrl &&& K.SIO_CTRL_CS_PORT_2 = cs →
      x'.bus.ctrl &&& K.SIO_CTRL_DTR = K.SIO_CTRL_DTR ∧
      x'.bus.ctrl &&& K.SIO_CTRL_CS_PORT_2 = cs ∧
      ∃ new, x'.bus.log = new ++ x.bus.log ∧ ∀ e ∈ new, ctrlHeld K cs e := by
  induction n with
  | zero =>
    intro x x' h hd hc
    simp only [exchangeLoop] at h
    split at h
    · cases h
    · cases h; exact ⟨hd, hc, held_refl _ _⟩
  | succ n ih =>
    intro x x' h hd hc
    rw [exchangeLoop_succ] at h
    by_cases hlt : x.respLength < maxRespLength
    · rw [if_pos hlt] at h
      cases hs : exchangeStep K hw fuel req x with
      | none => rw [hs] at h; cases h
      | some x1 =>
        rw [hs] at h
        dsimp only at h
        have h1 := exchangeStep_held K cs hw fuel req x x1 hs
        have hctrl := (exchangeStep_ctrl K hw fuel req x x1 hs).1
        obtain ⟨wd, wc, wl⟩ := waitLoop_held K cs hw hackn DSR_TIMEOUT.toNat DSR_TIMEOUT x1.bus
          (by rw [hctrl]; exact hd) (by rw [hctrl]; exact hc)
        cases hack : (waitForAcknowledge K hw DSR_TIMEOUT x1.bus).1 with
        | false =>
          simp only [hack, Bool.not_false, if_true, Option.some.injEq] at h
          rw [← h]
          exact ⟨wd, wc, held_trans h1 wl⟩
        | true =>
          simp only [hack, Bool.not_true, Bool.false_eq_true, if_false] at h
          obtain ⟨a, b, c⟩ := ih _ _ h wd wc
          exact ⟨a, b, held_trans (held_trans h1 wl) c⟩
    · rw [if_neg hlt] at h
      cases h
      exact ⟨hd, hc, held_refl _ _⟩

/-- C16: whichever way `exchangePacket` ends, its own part of the trace starts
with the settle delay, the clearing of the interrupt flag and the write that
sets DTR in `SIO_CTRL`, and ends with the write that clears DTR followed by
the settle delay.  Everything else the call does lies between these two
writes: the address byte is put on the wire there, and every write to
`SIO_CTRL` in between has DTR set.  DTR is clear on return, and the
port-select bit keeps, in every value written to `SIO_CTRL` during the call
and on return, the value `selectPort` gave it before the call.  The masks of
the absent `ps1/registers.h` are taken to be what they are on the machine:
the port-select bit is none of the DTR and acknowledge bits, and fits an
`int`. -/
theorem exchangePacket_handshake {σ : Type} (K : Consts) (hw : Hardware σ) (fuel : Nat)
    (hready : HwReady K hw fuel)
    (hdtr : K.SIO_CTRL_CS_PORT_2 &&& K.SIO_CTRL_DTR = 0)
    (hackn : K.SIO_CTRL_CS_PORT_2 &&& K.SIO_CTRL_ACKNOWLEDGE = 0)
    (hint : K.SIO_CTRL_CS_PORT_2 < 2 ^ 32)
    (port : Int) (address : Nat) (request response : Nat → Nat)
    (reqLength maxRespLength : Int) (s : Bus σ) :
    (selectPort K hw port s).ctrl &&& K.SIO_CTRL_CS_PORT_2 =
      (if port ≠ 0 then K.SIO_CTRL_CS_PORT_2 else 0) ∧
    ∃ (r : Int) (resp' : Nat → Nat) (s' : Bus σ) (mid : List Event) (first last : Nat),
      exchangePacket K hw fuel address request response reqLength maxRespLength
        (selectPort K hw port s) = some (r, resp', s') ∧
      s'.log = Event.delay DTR_POST_DELAY :: Event.write Reg.SIO_CTRL last ::
        (mid ++ Event.write Reg.SIO_CTRL first ::
          Event.read Reg.SIO_CTRL (selectPort K hw port s).ctrl ::
          Event.write Reg.IRQ_STAT (not32 (1 <<< K.IRQ_SIO0)) ::
          Event.delay DTR_PRE_DELAY :: (selectPort K hw port s).log) ∧
      first &&& K.SIO_CTRL_DTR = K.SIO_CTRL_DTR ∧
      first &&& K.SIO_CTRL_CS_PORT_2 =
        (selectPort K hw port s).ctrl &&& K.SIO_CTRL_CS_PORT_2 ∧
      Event.write Reg.SIO_DATA address ∈ mid ∧
      (∀ v, Event.write Reg.SIO_CTRL v ∈ mid →
        v &&& K.SIO_CTRL_DTR = K.SIO_CTRL_DTR ∧
        v &&& K.SIO_CTRL_CS_PORT_2 =
          (selectPort K hw port s).ctrl &&& K.SIO_CTRL_CS_PORT_2) ∧
      last &&& K.SIO_CTRL_DTR = 0 ∧
      s'.ctrl = last ∧
      s'.ctrl &&& K.SIO_CTRL_DTR = 0 ∧
      s'.ctrl &&& K.SIO_CTRL_CS_PORT_2 =
        (selectPort K hw port s).ctrl &&& K.SIO_CTRL_CS_PORT_2 := by
  have hpro : ∀ c : Nat, (c ||| (K.SIO_CTRL_DTR ||| K.SIO_CTRL_ACKNOWLEDGE)) &&&
      K.SIO_CTRL_CS_PORT_2 = c &&& K.SIO_CTRL_CS_PORT_2 := by
    intro c
    rw [← Nat.lor_assoc, or_and_of_disjoint _ _ _ hackn, or_and_of_disjoint _ _ _ hdtr]
  have hset : ∀ c : Nat, (c ||| (K.SIO_CTRL_DTR ||| K.SIO_CTRL_ACKNOWLEDGE)) &&&
      K.SIO_CTRL_DTR = K.SIO_CTRL_DTR := by
    intro c
    rw [← Nat.lor_assoc]
    exact or_and_of_set _ _ _ (or_and_self _ _)
  refine ⟨?_, ?_⟩
  · by_cases hp : port ≠ 0
    · simp only [selectPort, hp, if_true, ne_eq, not_false_eq_true, readReg, writeReg]
      exact or_and_self _ _
    · simp only [selectPort, hp, if_false, readReg, writeReg, if_true]
      exact and_not32_and _ _
  · generalize selectPort K hw port s = s0
    obtain ⟨r, resp', s', hrun⟩ := exchangePacket_returns K hw fuel hready address request
      response reqLength maxRespLength s0
    have hAlog : (sendAddress K hw address s0).log =
        [Event.write Reg.SIO_DATA address, Event.delay DTR_DELAY] ++
          Event.write Reg.SIO_CTRL (s0.ctrl ||| (K.SIO_CTRL_DTR ||| K.SIO_CTRL_ACKNOWLEDGE)) ::
          Event.read Reg.SIO_CTRL s0.ctrl ::
          Event.write Reg.IRQ_STAT (not32 (1 <<< K.IRQ_SIO0)) ::
          Event.delay DTR_PRE_DELAY :: s0.log := by
      simp [sendAddress, writeReg, readReg, delayMicroseconds]
    have hAd : (sendAddress K hw address s0).ctrl &&& K.SIO_CTRL_DTR = K.SIO_CTRL_DTR := by
      rw [sendAddress_ctrl]; exact hset _
    have hAc : (sendAddress K hw address s0).ctrl &&& K.SIO_CTRL_CS_PORT_2 =
        s0.ctrl &&& K.SIO_CTRL_CS_PORT_2 := by
      rw [sendAddress_ctrl]; exact hpro _
    obtain ⟨hWd, hWc, hWl⟩ := waitLoop_held K (s0.ctrl &&& K.SIO_CTRL_CS_PORT_2) hw hackn
      DSR_TIMEOUT.toNat DSR_TIMEOUT (sendAddress K hw address s0) hAd hAc
    have hfinish : ∀ t : Bus σ, s' = releaseDTR K hw t →
        t.ctrl &&& K.SIO_CTRL_DTR = K.SIO_CTRL_DTR →
        t.ctrl &&& K.SIO_CTRL_CS_PORT_2 = s0.ctrl &&& K.SIO_CTRL_CS_PORT_2 →
        (∃ new, t.log = new ++ (sendAddress K hw address s0).log ∧
          ∀ e ∈ new, ctrlHeld K (s0.ctrl &&& K.SIO_CTRL_CS_PORT_2) e) →
        ∃ (mid : List Event) (first last : Nat),
          s'.log = Event.delay DTR_POST_DELAY :: Event.write Reg.SIO_CTRL last ::
            (mid ++ Event.write Reg.SIO_CTRL first ::
              Event.read Reg.SIO_CTRL s0.ctrl ::
              Event.write Reg.IRQ_STAT (not32 (1 <<< K.IRQ_SIO0)) ::
              Event.delay DTR_PRE_DELAY :: s0.log) ∧
          first &&& K.SIO_CTRL_DTR = K.SIO_CTRL_DTR ∧
          first &&& K.SIO_CTRL_CS_PORT_2 = s0.ctrl &&& K.SIO_CTRL_CS_PORT_2 ∧
          Event.write Reg.SIO_DATA address ∈ mid ∧
          (∀ v, Event.write Reg.SIO_CTRL v ∈ mid →
            v &&& K.SIO_CTRL_DTR = K.SIO_CTRL_DTR ∧
            v &&& K.SIO_CTRL_CS_PORT_2 = s0.ctrl &&& K.SIO_CTRL_CS_PORT_2) ∧
          last &&& K.SIO_CTRL_DTR = 0 ∧
          s'.ctrl = last ∧
          s'.ctrl &&& K.SIO_CTRL_DTR = 0 ∧
          s'.ctrl &&& K.SIO_CTRL_CS_PORT_2 = s0.ctrl &&& K.SIO_CTRL_CS_PORT_2 := by
      intro t hs' htd htc ⟨new, hnew, hheld⟩
      have hlog : s'.log = Event.delay DTR_POST_DELAY ::
          Event.write Reg.SIO_CTRL (t.ctrl &&& not32 K.SIO_CTRL_DTR) ::
          Event.read Reg.SIO_CTRL t.ctrl :: Event.delay DTR_DELAY :: t.log := by
        rw [hs']
        simp [releaseDTR, writeReg, readReg, delayMicroseconds]
      have hctrl : s'.ctrl = t.ctrl &&& not32 K.SIO_CTRL_DTR := by
        rw [hs']; exact releaseDTR_ctrl_eq K hw t
      refine ⟨Event.read Reg.SIO_CTRL t.ctrl :: Event.delay DTR_DELAY ::
          (new ++ [Event.write Reg.SIO_DATA address, Event.delay DTR_DELAY]),
        s0.ctrl ||| (K.SIO_CTRL_DTR ||| K.SIO_CTRL_ACKNOWLEDGE),
        t.ctrl &&& not32 K.SIO_CTRL_DTR, ?_, hset _, hpro _, ?_, ?_, and_not32_and _ _, hctrl,
        ?_, ?_⟩
      · rw [hlog, hnew, hAlog]
        simp
      · simp
      · intro v hv
        simp only [List.mem_cons, List.mem_append, List.mem_singleton, List.not_mem_nil,
          or_false, reduceCtorEq, false_or] at hv
        rcases hv with hv | hv
        · exact hheld _ hv
        · exact absurd hv (by simp)
      · rw [hctrl]; exact and_not32_and _ _
      · rw [hctrl, and_not32_and_of_disjoint _ _ _ hdtr hint]; exact htc
    rcases (exchangePacket_cases K hw fuel address request response reqLength
      maxRespLength _ _ _ _).1 hrun with ⟨_, _, _, hs⟩ | ⟨_, s1, x', hd, hl, _, _, hs⟩
    · obtain ⟨mid, first, last, h⟩ := hfinish _ hs hWd hWc hWl
      exact ⟨r, resp', s', mid, first, last, hrun, h⟩
    · obtain ⟨_, hc1, _⟩ := drainRx_obs K hw fuel _ _ hd
      have hdl := drainRx_held K (s0.ctrl &&& K.SIO_CTRL_CS_PORT_2) hw fuel _ _ hd
      obtain ⟨hLd, hLc, hLl⟩ := exchangeLoop_held K (s0.ctrl &&& K.SIO_CTRL_CS_PORT_2) hw fuel
        hackn request maxRespLength _ _ _ hl
        (by show s1.ctrl &&& _ = _; rw [hc1]; exact hWd)
        (by show s1.ctrl &&& _ = _; rw [hc1]; exact hWc)
      obtain ⟨mid, first, last, h⟩ := hfinish _ hs hLd hLc
        (held_trans (held_trans hWl hdl) hLl)
      exact ⟨r, resp', s', mid, first, last, hrun, h⟩

/-- Witness for C16: port 1 selected on the simulated controller. -/
theorem exchangePacket_handshake_witness :
    HwReady psx (simPad 7 padReply) 2 ∧
    psx.SIO_CTRL_CS_PORT_2 &&& psx.SIO_CTRL_DTR = 0 ∧
    psx.SIO_CTRL_CS_PORT_2 &&& psx.SIO_CTRL_ACKNOWLEDGE = 0 ∧
    psx.SIO_CTRL_CS_PORT_2 < 2 ^ 32 ∧
    (selectPort psx (simPad 7 padReply) 1
      { dev := padIdle, ctrl := 0, log := [] }).ctrl &&& psx.SIO_CTRL_CS_PORT_2 =
      (if (1 : Int) ≠ 0 then psx.SIO_CTRL_CS_PORT_2 else 0) ∧
    ∃ (r : Int) (resp' : Nat → Nat) (s' : Bus PadState) (mid : List Event) (first last : Nat),
      exchangePacket psx (simPad 7 padReply) 2 psx.ADDR_CONTROLLER (pollRequest psx)
        (fun _ => 0) 4 8
        (selectPort psx (simPad 7 padReply) 1 { dev := padIdle, ctrl := 0, log := [] }) =
        some (r, resp', s') ∧
      s'.log = Event.delay DTR_POST_DELAY :: Event.write Reg.SIO_CTRL last ::
        (mid ++ Event.write Reg.SIO_CTRL first ::
          Event.read Reg.SIO_CTRL (selectPort psx (simPad 7 padReply) 1
            { dev := padIdle, ctrl := 0, log := [] }).ctrl ::
          Event.write Reg.IRQ_STAT (not32 (1 <<< psx.IRQ_SIO0)) ::
          Event.delay DTR_PRE_DELAY :: (selectPort psx (simPad 7 padReply) 1
            { dev := padIdle, ctrl := 0, log := [] }).log) ∧
      first &&& psx.SIO_CTRL_DTR = psx.SIO_CTRL_DTR ∧
      first &&& psx.SIO_CTRL_CS_PORT_2 =
        (selectPort psx (simPad 7 padReply) 1
          { dev := padIdle, ctrl := 0, log := [] }).ctrl &&& psx.SIO_CTRL_CS_PORT_2 ∧
      Event.write Reg.SIO_DATA psx.ADDR_CONTROLLER ∈ mid ∧
      (∀ v, Event.write Reg.SIO_CTRL v ∈ mid →
        v &&& psx.SIO_CTRL_DTR = psx.SIO_CTRL_DTR ∧
        v &&& psx.SIO_CTRL_CS_PORT_2 =
          (selectPort psx (simPad 7 padReply) 1
            { dev := padIdle, ctrl := 0, log := [] }).ctrl &&& psx.SIO_CTRL_CS_PORT_2) ∧
      last &&& psx.SIO_CTRL_DTR = 0 ∧
      s'.ctrl = last ∧
      s'.ctrl &&& psx.SIO_CTRL_DTR = 0 ∧
      s'.ctrl &&& psx.SIO_CTRL_CS_PORT_2 =
        (selectPort psx (simPad 7 padReply) 1
          { dev := padIdle, ctrl := 0, log := [] }).ctrl &&& psx.SIO_CTRL_CS_PORT_2 :=
  ⟨simPad_ready 7 padReply, by decide, by decide, by decide,
    exchangePacket_handshake psx (simPad 7 padReply) 2 (simPad_ready 7 padReply)
      (by decide) (by decide) (by decide) 1 psx.ADDR_CONTROLLER (pollRequest psx)
      (fun _ => 0) 4 8 { dev := padIdle, ctrl := 0, log := [] }⟩

/-! ## Which request bytes are read -/

theorem exchangeStep_congr {σ : Type} (K : Consts) (hw : Hardware σ) (fuel : Nat)
    (req req' : Nat → Nat) (x : Transfer σ)
    (h : 0 < x.reqLength → req' x.request = req x.request) :
    exchangeStep K hw fuel req' x = exchangeStep K hw fuel req x := by
  unfold exchangeStep
  by_cases hq : x.reqLength > 0
  · rw [if_pos hq, if_pos hq, h hq]
  · rw [if_neg hq, if_neg hq]

theorem exchangeStep_fields {σ : Type} (K : Consts) (hw : Hardware σ) (fuel : Nat)
    (req : Nat → Nat) (x x1 : Transfer σ) (h : exchangeStep K hw fuel req x = some x1) :
    (0 < x.reqLength → x1.request = x.request + 1 ∧ x1.reqLength = x.reqLength - 1) ∧
    (¬ 0 < x.reqLength → x1.reqLength = x.reqLength) := by
  unfold exchangeStep at h
  by_cases hq : x.reqLength > 0
  · rw [if_pos hq] at h
    cases he : exchangeByte K hw fuel (req x.request) x.bus with
    | none => rw [he] at h; cases h
    | some p =>
      rw [he] at h
      cases h
      exact ⟨fun _ => ⟨rfl, rfl⟩, fun hn => absurd hq hn⟩
  · rw [if_neg hq] at h
    cases he : exchangeByte K hw fuel 0 x.bus with
    | none => rw [he] at h; cases h
    | some p =>
      rw [he] at h
      cases h
      exact ⟨fun hp => absurd hp hq, fun _ => rfl⟩

theorem exchangeLoop_congr {σ : Type} (K : Consts) (hw : Hardware σ) (fuel : Nat)
    (req req' : Nat → Nat) (maxRespLength : Int) (n : Nat) :
    ∀ x x' : Transfer σ, exchangeLoop K hw fuel req maxRespLength n x = some x' →
      (∀ j : Nat, (j : Int) < x.reqLength → (j : Int) < x'.respLength - x.respLength →
        req' (x.request + j) = req (x.request + j)) →
      exchangeLoop K hw fuel req' maxRespLength n x = some x' := by
  induction n with
  | zero =>
    intro x x' h _
    simpa [exchangeLoop] using h
  | succ n ih =>
    intro x x' h hagree
    rw [exchangeLoop_succ] at h ⊢
    by_cases hlt : x.respLength < maxRespLength
    · rw [if_pos hlt] at h ⊢
      cases hs : exchangeStep K hw fuel req x with
      | none => rw [hs] at h; cases h
      | some x1 =>
        rw [hs] at h
        dsimp only at h
        obtain ⟨_, hr1⟩ := exchangeStep_ctrl K hw fuel req x x1 hs
        obtain ⟨hf1, hf2⟩ := exchangeStep_fields K hw fuel req x x1 hs
        have hmono : x1.respLength ≤ x'.respLength := by
          cases hack : (waitForAcknowledge K hw DSR_TIMEOUT x1.bus).1 with
          | false =>
            simp only [hack, Bool.not_false, if_true, Option.some.injEq] at h
            rw [← h]
          | true =>
            simp only [hack, Bool.not_true, Bool.false_eq_true, if_false] at h
            exact (exchangeLoop_ctrl K hw fuel req maxRespLength 0 (Nat.zero_and _) n _ _ h).2
        have hstep : exchangeStep K hw fuel req' x = some x1 := by
          rw [exchangeStep_congr K hw fuel req req' x, hs]
          intro hpos
          have := hagree 0 (by simpa using hpos) (by simp only [Nat.cast_zero]; omega)
          simpa using this
        rw [hstep]
        dsimp only
        cases hack : (waitForAcknowledge K hw DSR_TIMEOUT x1.bus).1 with
        | false =>
          simpa [hack] using h
        | true =>
          simp only [hack, Bool.not_true, Bool.false_eq_true, if_false] at h ⊢
          apply ih _ _ h
          intro j hj1 hj2
          have hj1' : (j : Int) < x1.reqLength := hj1
          have hj2' : (j : Int) < x'.respLength - x1.respLength := hj2
          have hpos : 0 < x.reqLength := by
            by_contra hn
            rw [hf2 hn] at hj1'
            have : (0 : Int) ≤ (j : Int) := Int.natCast_nonneg j
            omega
          obtain ⟨e1, e2⟩ := hf1 hpos
          have := hagree (j + 1) (by push_cast; omega) (by push_cast; omega)
          show req' (x1.request + j) = req (x1.request + j)
          rw [e1, Nat.add_assoc, Nat.add_comm 1 j]
          exact this
    · rw [if_neg hlt] at h ⊢
      exact h

theorem padded_split (request : Nat → Nat) (reqLength : Int) (n : Nat) :
    (List.range n).map (fun i : Nat => if (i : Int) < reqLength then request i else 0) =
      (List.range (min reqLength.toNat n)).map request ++
        List.replicate (n - min reqLength.toNat n) 0 := by
  apply List.ext_getElem
  · simp
  · intro i h1 h2
    simp only [List.length_map, List.length_range] at h1
    simp only [List.getElem_map, List.getElem_range]
    by_cases hi : i < min reqLength.toNat n
    · rw [List.getElem_append_left (by
        simp only [List.length_map, List.length_range]; omega)]
      simp only [List.getElem_map, List.getElem_range]
      rw [if_pos (by omega)]
    · rw [List.getElem_append_right (by
        simp only [List.length_map, List.length_range]; omega)]
      simp only [List.getElem_replicate]
      rw [if_neg (by omega)]

/-- C19: of the request, `exchangePacket` puts on the wire the first
`min(reqLength, n)` bytes, `n` being the returned length, followed by filler
zeroes up to `n` bytes; the request buffer is not read beyond those
`min(reqLength, n)` bytes, since changing it there changes nothing in the
outcome of the call. -/
theorem exchangePacket_request_bytes {σ : Type} (K : Consts) (hw : Hardware σ) (fuel : Nat)
    (hready : HwReady K hw fuel) (address : Nat) (request response : Nat → Nat)
    (reqLength maxRespLength : Int) (d : σ) (ctrl : Nat) :
    ∃ (n : Nat) (resp' : Nat → Nat) (s' : Bus σ),
      exchangePacket K hw fuel address request response reqLength maxRespLength
        { dev := d, ctrl := ctrl, log := [] } = some ((n : Int), resp', s') ∧
      txBytes s'.log = address ::
        ((List.range (min reqLength.toNat n)).map request ++
          List.replicate (n - min reqLength.toNat n) 0) ∧
      (0 ≤ reqLength → ((min reqLength.toNat n : Nat) : Int) = min reqLength (n : Int)) ∧
      ∀ request' : Nat → Nat,
        (∀ i, i < min reqLength.toNat n → request' i = request i) →
        exchangePacket K hw fuel address request' response reqLength maxRespLength
          { dev := d, ctrl := ctrl, log := [] } = some ((n : Int), resp', s') := by
  have hmin : ∀ n : Nat, 0 ≤ reqLength →
      ((min reqLength.toNat n : Nat) : Int) = min reqLength (n : Int) := by
    intro n h0
    rcases Nat.le_total reqLength.toNat n with h | h
    · rw [Nat.min_eq_left h, min_eq_left (by omega)]; omega
    · rw [Nat.min_eq_right h, min_eq_right (by omega)]
  cases hack : (waitForAcknowledge K hw DSR_TIMEOUT
      (sendAddress K hw address { dev := d, ctrl := ctrl, log := [] })).1 with
  | false =>
    obtain ⟨_, w2, _⟩ := waitForAcknowledge_obs K hw DSR_TIMEOUT
      (sendAddress K hw address { dev := d, ctrl := ctrl, log := [] })
    refine ⟨0, response, _, exchangePacket_unacked K hw fuel address request response
      reqLength maxRespLength _ hack, ?_, hmin 0, ?_⟩
    · show txBytes (waitForAcknowledge K hw DSR_TIMEOUT
        (sendAddress K hw address { dev := d, ctrl := ctrl, log := [] })).2.log = _
      rw [w2]
      simp [sendAddress, writeReg, readReg, delayMicroseconds, txBytes]
    · intro request' _
      exact exchangePacket_unacked K hw fuel address request' response reqLength
        maxRespLength _ hack
  | true =>
    obtain ⟨resp', s', stale, rx, flags, hrun, _, _, htx, _⟩ :=
      exchangePacket_acked K hw fuel hready address request response reqLength maxRespLength
        d ctrl hack
    refine ⟨rx.length, resp', s', hrun, ?_, hmin rx.length, ?_⟩
    · rw [htx, padded_split]
    · intro request' hagree
      rcases (exchangePacket_cases K hw fuel address request response reqLength
        maxRespLength _ _ _ _).1 hrun with ⟨hf, _⟩ | ⟨_, s1, x', hd, hl, hr, hb, hs⟩
      · rw [hack] at hf; cases hf
      · apply (exchangePacket_cases K hw fuel address request' response reqLength
          maxRespLength _ _ _ _).2
        refine Or.inr ⟨hack, s1, x', hd, ?_, hr, hb, hs⟩
        apply exchangeLoop_congr K hw fuel request request' maxRespLength _ _ _ hl
        intro j hj1 hj2
        simp only [sub_zero, zero_add] at hj1 hj2 ⊢
        apply hagree
        rw [← hr] at hj2
        have : j < rx.length := by exact_mod_cast hj2
        have : j < reqLength.toNat := by omega
        omega


/-- Witness for C19: the simulated controller that acknowledges one data byte
only, polled with the 4-byte request. -/
theorem exchangePacket_request_bytes_witness :
    HwReady psx (simPad 1 padReply) 2 ∧
    ∃ (n : Nat) (resp' : Nat → Nat) (s' : Bus PadState),
      exchangePacket psx (simPad 1 padReply) 2 psx.ADDR_CONTROLLER (pollRequest psx)
        (fun _ => 0) 4 8 { dev := padIdle, ctrl := 0, log := [] } = some ((n : Int), resp', s') ∧
      txBytes s'.log = psx.ADDR_CONTROLLER ::
        ((List.range (min (4 : Int).toNat n)).map (pollRequest psx) ++
          List.replicate (n - min (4 : Int).toNat n) 0) ∧
      ((0 : Int) ≤ 4 → ((min (4 : Int).toNat n : Nat) : Int) = min 4 (n : Int)) ∧
      ∀ request' : Nat → Nat,
        (∀ i, i < min (4 : Int).toNat n → request' i = pollRequest psx i) →
        exchangePacket psx (simPad 1 padReply) 2 psx.ADDR_CONTROLLER request'
          (fun _ => 0) 4 8 { dev := padIdle, ctrl := 0, log := [] } = some ((n : Int), resp', s') :=
  ⟨simPad_ready 1 padReply,
    exchangePacket_request_bytes psx (simPad 1 padReply) 2 (simPad_ready 1 padReply)
      psx.ADDR_CONTROLLER (pollRequest psx) (fun _ => 0) 4 8 padIdle 0⟩

/-! ## The cursor stays inside the buffer -/

/-- C18: after a reset and any sequence of successful `allocatePacket` calls
with non-negative sizes the cursor satisfies
`data ≤ nextPacket < data + CHAIN_BUFFER_SIZE`, so the end tag written at the
cursor when the frame is terminated changes no word outside the buffer. -/
theorem cursor_inside (G : GpuConsts) (hsize : 0 < G.CHAIN_BUFFER_SIZE)
    (chain0 chain : DMAChain) (sizes : List Nat)
    (hreach : allocateAll G (resetChain chain0) (sizes.map (fun n : Nat => (n : Int))) =
      some chain) :
    0 ≤ chain.nextPacket ∧ chain.nextPacket < (G.CHAIN_BUFFER_SIZE : Int) ∧
    ∀ p, p < 0 ∨ (G.CHAIN_BUFFER_SIZE : Int) ≤ p →
      (terminateChain chain).data p = chain0.data p := by
  obtain ⟨h0, h1, hout⟩ := allocateAll_inside G sizes (resetChain chain0) chain hreach
    (le_refl _) (by show (0 : Int) < _; exact_mod_cast hsize)
  refine ⟨h0, h1, ?_⟩
  intro p hp
  show Function.update chain.data chain.nextPacket _ p = _
  rw [Function.update_noteq (by omega), hout p hp]
  rfl

/-- Witness for C18: the three packets that open a frame in `main`. -/
theorem cursor_inside_witness :
    0 < psxGpu.CHAIN_BUFFER_SIZE ∧
    allocateAll psxGpu (resetChain blankChain) ([4, 3, 3].map (fun n : Nat => (n : Int))) =
      some { data := Function.update (Function.update (Function.update blankChain.data 0
                (gp0_tag 4 5)) 5 (gp0_tag 3 9)) 9 (gp0_tag 3 13)
             nextPacket := 13 } ∧
    (0 : Int) ≤ 13 ∧ (13 : Int) < (psxGpu.CHAIN_BUFFER_SIZE : Int) ∧
    ∀ p, p < 0 ∨ (psxGpu.CHAIN_BUFFER_SIZE : Int) ≤ p →
      (terminateChain
        { data := Function.update (Function.update (Function.update blankChain.data 0
              (gp0_tag 4 5)) 5 (gp0_tag 3 9)) 9 (gp0_tag 3 13)
          nextPacket := 13 }).data p = blankChain.data p :=
  ⟨by decide, rfl,
    cursor_inside psxGpu (by decide) blankChain
      { data := Function.update (Function.update (Function.update blankChain.data 0
            (gp0_tag 4 5)) 5 (gp0_tag 3 9)) 9 (gp0_tag 3 13)
        nextPacket := 13 } [4, 3, 3] rfl⟩

/-! ## The block count of a VRAM transfer -/

theorem waitForGP0Ready_suffix {σ : Type} (G : GpuConsts) (hw : Hardware σ) (n : Nat) :
    ∀ s s' : Bus σ, waitForGP0Ready G hw n s = some s' → s.log <:+ s'.log := by
  induction n with
  | zero => intro s s' h; simp [waitForGP0Ready] at h
  | succ n ih =>
    intro s s' h
    simp only [waitForGP0Ready] at h
    by_cases hc : (readReg hw Reg.GPU_GP1 s).1 &&& G.GP1_STAT_CMD_READY ≠ 0
    · rw [if_pos hc] at h
      cases h
      exact List.suffix_cons _ _
    · rw [if_neg hc] at h
      exact (List.suffix_cons _ _).trans (ih _ _ h)

theorem waitForDMADone_suffix {σ : Type} (G : GpuConsts) (hw : Hardware σ) (n : Nat) :
    ∀ s s' : Bus σ, waitForDMADone G hw n s = some s' → s.log <:+ s'.log := by
  induction n with
  | zero => intro s s' h; simp [waitForDMADone] at h
  | succ n ih =>
    intro s s' h
    simp only [waitForDMADone] at h
    by_cases hc : (readReg hw Reg.DMA_CHCR s).1 &&& G.DMA_CHCR_ENABLE ≠ 0
    · rw [if_pos hc] at h
      exact (List.suffix_cons _ _).trans (ih _ _ h)
    · rw [if_neg hc] at h
      cases h
      exact List.suffix_cons _ _

theorem startVRAMTransfer_returned {σ : Type} (G : GpuConsts) (hw : Hardware σ) (fuel : Nat)
    (data : Nat) (x y width height : Int) (chunkSize numChunks : Nat) (s s' : Bus σ)
    (h : startVRAMTransfer G hw fuel data x y width height chunkSize numChunks s =
      Outcome.returned s') :
    ∃ older : List Event,
      s'.log =
        Event.write Reg.DMA_CHCR
            (G.DMA_CHCR_WRITE ||| G.DMA_CHCR_MODE_SLICE ||| G.DMA_CHCR_ENABLE) ::
          Event.write Reg.DMA_BCR ((chunkSize ||| (numChunks <<< 16)) % 2 ^ 32) ::
          Event.write Reg.DMA_MADR (data % 2 ^ 32) ::
          Event.write Reg.GPU_GP0 (G.gp0_xy width height) ::
          Event.write Reg.GPU_GP0 (G.gp0_xy x y) ::
          Event.write Reg.GPU_GP0 G.gp0_vramWrite :: older ∧
      s.log <:+ older := by
  unfold startVRAMTransfer at h
  cases hg : waitForGP0Ready G hw fuel s with
  | none => rw [hg] at h; cases h
  | some s1 =>
    rw [hg] at h
    simp only [Outcome.returned.injEq] at h
    refine ⟨s1.log, ?_, waitForGP0Ready_suffix G hw fuel s s1 hg⟩
    rw [← h]
    rfl

theorem sendVRAMData_returned {σ : Type} (G : GpuConsts) (hw : Hardware σ) (fuel : Nat)
    (data : Nat) (x y width height : Int) (s s' : Bus σ)
    (h : sendVRAMData G hw fuel data x y width height s = Outcome.returned s') :
    ∃ (chunkSize numChunks : Nat) (older : List Event),
      s'.log =
        Event.write Reg.DMA_CHCR
            (G.DMA_CHCR_WRITE ||| G.DMA_CHCR_MODE_SLICE ||| G.DMA_CHCR_ENABLE) ::
          Event.write Reg.DMA_BCR ((chunkSize ||| (numChunks <<< 16)) % 2 ^ 32) ::
          Event.write Reg.DMA_MADR (data % 2 ^ 32) ::
          Event.write Reg.GPU_GP0 (G.gp0_xy width height) ::
          Event.write Reg.GPU_GP0 (G.gp0_xy x y) ::
          Event.write Reg.GPU_GP0 G.gp0_vramWrite :: older ∧
      s.log <:+ older ∧
      ((vramLength width height < G.DMA_MAX_CHUNK_SIZE ∧
          chunkSize = vramLength width height ∧ numChunks = 1) ∨
        (¬ vramLength width height < G.DMA_MAX_CHUNK_SIZE ∧
          vramLength width height % G.DMA_MAX_CHUNK_SIZE = 0 ∧
          chunkSize = G.DMA_MAX_CHUNK_SIZE ∧
          numChunks = vramLength width height / G.DMA_MAX_CHUNK_SIZE)) := by
  unfold sendVRAMData at h
  cases hd : waitForDMADone G hw fuel s with
  | none => rw [hd] at h; cases h
  | some s1 =>
    rw [hd] at h
    simp only at h
    have hsuf := waitForDMADone_suffix G hw fuel s s1 hd
    by_cases ha : data % 2 ^ 32 % 4 ≠ 0
    · rw [if_pos ha] at h; cases h
    · rw [if_neg ha] at h
      by_cases hlt : vramLength width height < G.DMA_MAX_CHUNK_SIZE
      · rw [if_pos hlt] at h
        obtain ⟨older, hlog, ho⟩ := startVRAMTransfer_returned G hw fuel _ _ _ _ _ _ _ _ _ h
        exact ⟨_, _, older, hlog, hsuf.trans ho, Or.inl ⟨hlt, rfl, rfl⟩⟩
      · rw [if_neg hlt] at h
        by_cases hr : vramLength width height % G.DMA_MAX_CHUNK_SIZE ≠ 0
        · rw [if_pos hr] at h; cases h
        · rw [if_neg hr] at h
          obtain ⟨older, hlog, ho⟩ := startVRAMTransfer_returned G hw fuel _ _ _ _ _ _ _ _ _ h
          exact ⟨_, _, older, hlog, hsuf.trans ho,
            Or.inr ⟨hlt, by simpa using hr, rfl, rfl⟩⟩

theorem lor_shift16 (a b : Nat) (ha : a < 2 ^ 16) :
    a ||| (b <<< 16) = 2 ^ 16 * b + a := by
  rw [Nat.mul_add_lt_is_or ha b, Nat.shiftLeft_eq, Nat.lor_comm, Nat.mul_comm]

theorem and_shift16 (a b : Nat) (ha : a < 2 ^ 16) : a &&& (b <<< 16) = 0 := by
  apply Nat.eq_of_testBit_eq
  intro i
  simp only [Nat.testBit_land, Nat.testBit_shiftLeft, Nat.zero_testBit]
  by_cases hi : i < 16
  · simp [show ¬ i ≥ 16 by omega]
  · have : a.testBit i = false :=
      Nat.testBit_lt_two_pow (lt_of_lt_of_le ha (Nat.pow_le_pow_right (by norm_num) (by omega)))
    simp [this]

/-- C11, as the code has it: when `sendVRAMData` returns for `width, height ≥ 0`
whose word count `width * height / 2` is below `65536 * DMA_MAX_CHUNK_SIZE`
(with `DMA_MAX_CHUNK_SIZE < 65536`), the value `v` it writes to `DMA_BCR` has
a chunk size `v mod 2^16` of at most `DMA_MAX_CHUNK_SIZE` and a chunk count
`v / 2^16` whose product is `width * height / 2`, and the two fields of
`chunkSize | (numChunks << 16)` share no bit. -/
theorem sendVRAMData_block_count {σ : Type} (G : GpuConsts) (hw : Hardware σ) (fuel : Nat)
    (data : Nat) (x y width height : Int) (s s' : Bus σ)
    (hw0 : 0 ≤ width) (hh0 : 0 ≤ height) (hfit : width * height < 2 ^ 31)
    (hmax : G.DMA_MAX_CHUNK_SIZE < 2 ^ 16)
    (hcount : width * height / 2 < 65536 * (G.DMA_MAX_CHUNK_SIZE : Int))
    (hrun : sendVRAMData G hw fuel data x y width height s = Outcome.returned s') :
    ∃ (v : Nat) (older : List Event),
      s'.log =
        Event.write Reg.DMA_CHCR
            (G.DMA_CHCR_WRITE ||| G.DMA_CHCR_MODE_SLICE ||| G.DMA_CHCR_ENABLE) ::
          Event.write Reg.DMA_BCR v :: older ∧
      v = (v % 2 ^ 16) ||| ((v / 2 ^ 16) <<< 16) ∧
      (v % 2 ^ 16) &&& ((v / 2 ^ 16) <<< 16) = 0 ∧
      v % 2 ^ 16 ≤ G.DMA_MAX_CHUNK_SIZE ∧
      (((v % 2 ^ 16) * (v / 2 ^ 16) : Nat) : Int) = width * height / 2 := by
  obtain ⟨chunkSize, numChunks, older, hlog, _, hcase⟩ :=
    sendVRAMData_returned G hw fuel data x y width height s s' hrun
  have hlen := vramLength_eq width height hw0 hh0 hfit
  have hfacts : chunkSize < 2 ^ 16 ∧ numChunks < 2 ^ 16 ∧ chunkSize ≤ G.DMA_MAX_CHUNK_SIZE ∧
      chunkSize * numChunks = vramLength width height := by
    rcases hcase with ⟨hlt, hc, hn⟩ | ⟨hge, hdiv, hc, hn⟩
    · subst hc hn
      exact ⟨by omega, by norm_num, by omega, by simp⟩
    · subst hc hn
      have hl : vramLength width height < 65536 * G.DMA_MAX_CHUNK_SIZE := by
        have : (vramLength width height : Int) < 65536 * (G.DMA_MAX_CHUNK_SIZE : Int) := by
          rw [hlen]; exact hcount
        exact_mod_cast this
      refine ⟨hmax, ?_, le_refl _, Nat.mul_div_cancel' (Nat.dvd_of_mod_eq_zero hdiv)⟩
      have hpos : 0 < G.DMA_MAX_CHUNK_SIZE := by
        rcases Nat.eq_zero_or_pos G.DMA_MAX_CHUNK_SIZE with h0 | h0
        · rw [h0] at hl; omega
        · exact h0
      exact (Nat.div_lt_iff_lt_mul hpos).2 (by norm_num; omega)
  obtain ⟨hc16, hn16, hcm, hprod⟩ := hfacts
  have hv : (chunkSize ||| (numChunks <<< 16)) % 2 ^ 32 = 2 ^ 16 * numChunks + chunkSize := by
    rw [lor_shift16 _ _ hc16]
    apply Nat.mod_eq_of_lt
    have : numChunks ≤ 65535 := by norm_num at hn16; omega
    norm_num at hc16 ⊢
    omega
  have hmod : (2 ^ 16 * numChunks + chunkSize) % 2 ^ 16 = chunkSize := by
    rw [Nat.mul_add_mod]; exact Nat.mod_eq_of_lt hc16
  have hdivv : (2 ^ 16 * numChunks + chunkSize) / 2 ^ 16 = numChunks := by
    rw [Nat.mul_add_div (by norm_num), Nat.div_eq_of_lt hc16, Nat.add_zero]
  refine ⟨_, _, hlog, ?_, ?_, ?_, ?_⟩
  · rw [hv, hmod, hdivv, lor_shift16 _ _ hc16]
  · rw [hv, hmod, hdivv]; exact and_shift16 _ _ hc16
  · rw [hv, hmod]; exact hcm
  · rw [hv, hmod, hdivv, hprod]; exact hlen

/-- Witness for C11: a 64 by 64 block is 2048 words, sent as 128 chunks of 16. -/
theorem sendVRAMData_block_count_witness :
    (0 : Int) ≤ 64 ∧ (64 : Int) * 64 < 2 ^ 31 ∧ psxGpu.DMA_MAX_CHUNK_SIZE < 2 ^ 16 ∧
    (64 : Int) * 64 / 2 < 65536 * (psxGpu.DMA_MAX_CHUNK_SIZE : Int) ∧
    sendVRAMData psxGpu idleGpu 1 0 0 0 64 64 { dev := (), ctrl := 0, log := [] } =
      Outcome.returned
        { dev := ()
          ctrl := 0
          log := [Event.write Reg.DMA_CHCR 0x01000201, Event.write Reg.DMA_BCR 0x00800010,
            Event.write Reg.DMA_MADR 0, Event.write Reg.GPU_GP0 0x00400040,
            Event.write Reg.GPU_GP0 0, Event.write Reg.GPU_GP0 0xa0000000,
            Event.read Reg.GPU_GP1 0x04000000, Event.read Reg.DMA_CHCR 0] } ∧
    ∃ (v : Nat) (older : List Event),
      [Event.write Reg.DMA_CHCR 0x01000201, Event.write Reg.DMA_BCR 0x00800010,
          Event.write Reg.DMA_MADR 0, Event.write Reg.GPU_GP0 0x00400040,
          Event.write Reg.GPU_GP0 0, Event.write Reg.GPU_GP0 0xa0000000,
          Event.read Reg.GPU_GP1 0x04000000, Event.read Reg.DMA_CHCR 0] =
        Event.write Reg.DMA_CHCR
            (psxGpu.DMA_CHCR_WRITE ||| psxGpu.DMA_CHCR_MODE_SLICE ||| psxGpu.DMA_CHCR_ENABLE) ::
          Event.write Reg.DMA_BCR v :: older ∧
      v = (v % 2 ^ 16) ||| ((v / 2 ^ 16) <<< 16) ∧
      (v % 2 ^ 16) &&& ((v / 2 ^ 16) <<< 16) = 0 ∧
      v % 2 ^ 16 ≤ psxGpu.DMA_MAX_CHUNK_SIZE ∧
      (((v % 2 ^ 16) * (v / 2 ^ 16) : Nat) : Int) = 64 * 64 / 2 :=
  ⟨by decide, by decide, by decide, by decide, rfl,
    sendVRAMData_block_count psxGpu idleGpu 1 0 0 0 64 64 { dev := (), ctrl := 0, log := [] }
      { dev := ()
        ctrl := 0
        log := [Event.write Reg.DMA_CHCR 0x01000201, Event.write Reg.DMA_BCR 0x00800010,
          Event.write Reg.DMA_MADR 0, Event.write Reg.GPU_GP0 0x00400040,
          Event.write Reg.GPU_GP0 0, Event.write Reg.GPU_GP0 0xa0000000,
          Event.read Reg.GPU_GP1 0x04000000, Event.read Reg.DMA_CHCR 0] }
      (by decide) (by decide) (by decide) (by decide) (by decide) rfl⟩

/-- C11 as stated fails for large blocks: a 2048 by 1024 block is `2^20` words,
a multiple of 16, so no assertion fails; the chunk count `65536` does not fit
the upper half of the 32-bit register value and `DMA_BCR` receives `16`, whose
fields give `16 * 0` words. -/
theorem sendVRAMData_large_block_wraps :
    sendVRAMData psxGpu idleGpu 1 0 0 0 2048 1024 { dev := (), ctrl := 0, log := [] } =
      Outcome.returned
        { dev := ()
          ctrl := 0
          log := [Event.write Reg.DMA_CHCR 0x01000201, Event.write Reg.DMA_BCR 16,
            Event.write Reg.DMA_MADR 0, Event.write Reg.GPU_GP0 0x04000800,
            Event.write Reg.GPU_GP0 0, Event.write Reg.GPU_GP0 0xa0000000,
            Event.read Reg.GPU_GP1 0x04000000, Event.read Reg.DMA_CHCR 0] } ∧
    (((16 % 2 ^ 16) * (16 / 2 ^ 16) : Nat) : Int) ≠ 2048 * 1024 / 2 := by
  constructor
  · rfl
  · decide

/-! ## Texture uploads -/

/-- C12, as the code has it: for `x, y ≥ 0` and `width, height` in `0..256`
whose block passes the assertions of `sendVRAMData` (the transfer returns and
the wait for the DMA channel ends), `uploadTexture` fills in the page selector
built from `(x / 64, y / 256)`, `u = x mod 64` and `v = y mod 256` (both below
`2^8`), `clut = 0` and the width and height given; for `width > 256` or
`height > 256` it fails its assertion without having touched a register. -/
theorem uploadTexture_descriptor {σ : Type} (G : GpuConsts) (T : TexConsts)
    (hw : Hardware σ) (fuel : Nat) (info : TextureInfo) (data : Nat) (x y width height : Int)
    (s s1 s2 : Bus σ)
    (hx : 0 ≤ x) (hy : 0 ≤ y) (hw0 : 0 ≤ width) (hw1 : width ≤ 256)
    (hh0 : 0 ≤ height) (hh1 : height ≤ 256)
    (hsend : sendVRAMData G hw fuel data x y width height s = Outcome.returned s1)
    (hdone : waitForDMADone G hw fuel s1 = some s2) :
    (∃ info' : TextureInfo,
      uploadTexture G T hw fuel info data x y width height s = (info', Outcome.returned s2) ∧
      info'.page = T.gp0_page (x / 64) (y / 256) T.GP0_BLEND_SEMITRANS T.GP0_COLOR_16BPP ∧
      info'.clut = 0 ∧
      (info'.u : Int) = x % 64 ∧ info'.u < 2 ^ 8 ∧
      (info'.v : Int) = y % 256 ∧ info'.v < 2 ^ 8 ∧
      (info'.width : Int) = width ∧ (info'.height : Int) = height) ∧
    (∀ width' height' : Int, 256 < width' ∨ 256 < height' →
      uploadTexture G T hw fuel info data x y width' height' s =
        (info, Outcome.assertFailed s)) := by
  constructor
  · refine ⟨{ page := T.gp0_page (Int.tdiv x 64) (Int.tdiv y 256) T.GP0_BLEND_SEMITRANS
                  T.GP0_COLOR_16BPP,
                clut := 0,
                u := (Int.tmod x 64 % 2 ^ 8).toNat,
                v := (Int.tmod y 256 % 2 ^ 8).toNat,
                width := (width % 2 ^ 16).toNat,
                height := (height % 2 ^ 16).toNat }, ?_, ?_, rfl, ?_, ?_, ?_, ?_, ?_, ?_⟩
    · simp only [uploadTexture, hw1, hh1, and_self, not_true_eq_false, if_false, hsend, hdone]
    · show T.gp0_page (Int.tdiv x 64) (Int.tdiv y 256) _ _ = _
      rw [Int.tdiv_eq_ediv hx (by decide), Int.tdiv_eq_ediv hy (by decide)]
    · show (((Int.tmod x 64 % 2 ^ 8).toNat : Nat) : Int) = _
      rw [Int.tmod_eq_emod hx (by decide)]
      omega
    · show (Int.tmod x 64 % 2 ^ 8).toNat < 2 ^ 8
      omega
    · show (((Int.tmod y 256 % 2 ^ 8).toNat : Nat) : Int) = _
      rw [Int.tmod_eq_emod hy (by decide)]
      omega
    · show (Int.tmod y 256 % 2 ^ 8).toNat < 2 ^ 8
      omega
    · show (((width % 2 ^ 16).toNat : Nat) : Int) = _
      omega
    · show (((height % 2 ^ 16).toNat : Nat) : Int) = _
      omega
  · intro width' height' h
    have : ¬ (width' ≤ 256 ∧ height' ≤ 256) := by omega
    simp only [uploadTexture, this, not_false_eq_true, if_true]


/-- Witness for C12: a 64 by 64 texture placed at (640, 0). -/
theorem uploadTexture_descriptor_witness :
    sendVRAMData psxGpu idleGpu 1 0 640 0 64 64 { dev := (), ctrl := 0, log := [] } =
      Outcome.returned
        { dev := ()
          ctrl := 0
          log := [Event.write Reg.DMA_CHCR 0x01000201, Event.write Reg.DMA_BCR 0x00800010,
            Event.write Reg.DMA_MADR 0, Event.write Reg.GPU_GP0 0x00400040,
            Event.write Reg.GPU_GP0 640, Event.write Reg.GPU_GP0 0xa0000000,
            Event.read Reg.GPU_GP1 0x04000000, Event.read Reg.DMA_CHCR 0] } ∧
    (∃ info' : TextureInfo,
      uploadTexture psxGpu psxTex idleGpu 1 blankTexture 0 640 0 64 64
          { dev := (), ctrl := 0, log := [] } =
        (info', Outcome.returned
          { dev := ()
            ctrl := 0
            log := [Event.read Reg.DMA_CHCR 0,
              Event.write Reg.DMA_CHCR 0x01000201, Event.write Reg.DMA_BCR 0x00800010,
              Event.write Reg.DMA_MADR 0, Event.write Reg.GPU_GP0 0x00400040,
              Event.write Reg.GPU_GP0 640, Event.write Reg.GPU_GP0 0xa0000000,
              Event.read Reg.GPU_GP1 0x04000000, Event.read Reg.DMA_CHCR 0] }) ∧
      info'.page = psxTex.gp0_page (640 / 64) (0 / 256) psxTex.GP0_BLEND_SEMITRANS
        psxTex.GP0_COLOR_16BPP ∧
      info'.clut = 0 ∧
      (info'.u : Int) = 640 % 64 ∧ info'.u < 2 ^ 8 ∧
      (info'.v : Int) = 0 % 256 ∧ info'.v < 2 ^ 8 ∧
      (info'.width : Int) = 64 ∧ (info'.height : Int) = 64) ∧
    (∀ width' height' : Int, 256 < width' ∨ 256 < height' →
      uploadTexture psxGpu psxTex idleGpu 1 blankTexture 0 640 0 width' height'
          { dev := (), ctrl := 0, log := [] } =
        (blankTexture, Outcome.assertFailed { dev := (), ctrl := 0, log := [] })) :=
  ⟨rfl,
    uploadTexture_descriptor psxGpu psxTex idleGpu 1 blankTexture 0 640 0 64 64
      { dev := (), ctrl := 0, log := [] }
      { dev := ()
        ctrl := 0
        log := [Event.write Reg.DMA_CHCR 0x01000201, Event.write Reg.DMA_BCR 0x00800010,
          Event.write Reg.DMA_MADR 0, Event.write Reg.GPU_GP0 0x00400040,
          Event.write Reg.GPU_GP0 640, Event.write Reg.GPU_GP0 0xa0000000,
          Event.read Reg.GPU_GP1 0x04000000, Event.read Reg.DMA_CHCR 0] }
      { dev := ()
        ctrl := 0
        log := [Event.read Reg.DMA_CHCR 0,
          Event.write Reg.DMA_CHCR 0x01000201, Event.write Reg.DMA_BCR 0x00800010,
          Event.write Reg.DMA_MADR 0, Event.write Reg.GPU_GP0 0x00400040,
          Event.write Reg.GPU_GP0 640, Event.write Reg.GPU_GP0 0xa0000000,
          Event.read Reg.GPU_GP1 0x04000000, Event.read Reg.DMA_CHCR 0] }
      (by decide) (by decide) (by decide) (by decide) (by decide) (by decide) rfl rfl⟩

/-- C12 as stated fails: a 10 by 10 texture is within `0..256`, but its 50
words are neither fewer than 16 nor a multiple of 16, so the assertion of
`sendVRAMData` fails and no descriptor is produced. -/
theorem uploadTexture_small_block_rejected :
    uploadTexture psxGpu psxTex idleGpu 1 blankTexture 0 0 0 10 10
        { dev := (), ctrl := 0, log := [] } =
      (blankTexture,
        Outcome.assertFailed { dev := (), ctrl := 0, log := [Event.read Reg.DMA_CHCR 0] }) := by
  rfl

/-- C13, as the code has it: for `x, y, paletteX ≥ 0` and `width, height` in
`0..256` passing the two assertions of `uploadIndexedTexture`, when both block
transfers pass the assertions of `sendVRAMData` and the waits end, the image
goes to `(x, y)` as a block of `width / widthDivider` by `height`, the palette
to `(paletteX, paletteY)` as a block of `numColors` by 1, and the descriptor
holds the page for `(x / 64, y / 256)`, the palette selector for
`(paletteX / 16, paletteY)`, `u = (x mod 64) * widthDivider`, `v = y mod 256`
and the width and height given. -/
theorem uploadIndexedTexture_descriptor {σ : Type} (G : GpuConsts) (T : TexConsts)
    (hw : Hardware σ) (fuel : Nat) (info : TextureInfo) (image palette : Nat)
    (x y paletteX paletteY width height : Int) (colorDepth : Nat)
    (s s1 s2 s3 s4 : Bus σ)
    (hx : 0 ≤ x) (hy : 0 ≤ y) (hw0 : 0 ≤ width) (hw1 : width ≤ 256)
    (hh0 : 0 ≤ height) (hh1 : height ≤ 256)
    (hp0 : 0 ≤ paletteX) (hp16 : paletteX % 16 = 0)
    (hp1 : paletteX + (if colorDepth = T.GP0_COLOR_8BPP then 256 else 16) ≤ 1024)
    (hsend1 : sendVRAMData G hw fuel image x y
      (width / (if colorDepth = T.GP0_COLOR_8BPP then 2 else 4)) height s =
        Outcome.returned s1)
    (hdone1 : waitForDMADone G hw fuel s1 = some s2)
    (hsend2 : sendVRAMData G hw fuel palette paletteX paletteY
      (if colorDepth = T.GP0_COLOR_8BPP then 256 else 16) 1 s2 = Outcome.returned s3)
    (hdone2 : waitForDMADone G hw fuel s3 = some s4) :
    ∃ info' : TextureInfo,
      uploadIndexedTexture G T hw fuel info image palette x y paletteX paletteY width height
        colorDepth s = (info', Outcome.returned s4) ∧
      [Event.write Reg.DMA_MADR (image % 2 ^ 32),
        Event.write Reg.GPU_GP0
          (G.gp0_xy (width / (if colorDepth = T.GP0_COLOR_8BPP then 2 else 4)) height),
        Event.write Reg.GPU_GP0 (G.gp0_xy x y),
        Event.write Reg.GPU_GP0 G.gp0_vramWrite] <:+: s4.log ∧
      [Event.write Reg.DMA_MADR (palette % 2 ^ 32),
        Event.write Reg.GPU_GP0
          (G.gp0_xy (if colorDepth = T.GP0_COLOR_8BPP then 256 else 16) 1),
        Event.write Reg.GPU_GP0 (G.gp0_xy paletteX paletteY),
        Event.write Reg.GPU_GP0 G.gp0_vramWrite] <:+: s4.log ∧
      info'.page = T.gp0_page (x / 64) (y / 256) T.GP0_BLEND_SEMITRANS colorDepth ∧
      info'.clut = T.gp0_clut (paletteX / 16) paletteY ∧
      (info'.u : Int) = x % 64 * (if colorDepth = T.GP0_COLOR_8BPP then 2 else 4) ∧
      (info'.v : Int) = y % 256 ∧
      (info'.width : Int) = width ∧ (info'.height : Int) = height := by
  have hdiv : Int.tdiv width (if colorDepth = T.GP0_COLOR_8BPP then 2 else 4) =
      width / (if colorDepth = T.GP0_COLOR_8BPP then 2 else 4) := by
    apply Int.tdiv_eq_ediv hw0
    split <;> decide
  have hpal : Int.tmod paletteX 16 = 0 := by
    rw [Int.tmod_eq_emod hp0 (by decide)]; exact hp16
  obtain ⟨c1, n1, o1, hlog1, _, _⟩ := sendVRAMData_returned G hw fuel _ _ _ _ _ _ _ hsend1
  obtain ⟨c3, n3, o3, hlog3, _, _⟩ := sendVRAMData_returned G hw fuel _ _ _ _ _ _ _ hsend2
  have hs12 := waitForDMADone_suffix G hw fuel _ _ hdone1
  have hs34 := waitForDMADone_suffix G hw fuel _ _ hdone2
  obtain ⟨_, _, o3', hlog3', hs23, _⟩ := sendVRAMData_returned G hw fuel _ _ _ _ _ _ _ hsend2
  refine ⟨{ page := T.gp0_page (Int.tdiv x 64) (Int.tdiv y 256) T.GP0_BLEND_SEMITRANS
                colorDepth,
            clut := T.gp0_clut (Int.tdiv paletteX 16) paletteY,
            u := (Int.tmod x 64 * (if colorDepth = T.GP0_COLOR_8BPP then 2 else 4)
              % 2 ^ 8).toNat,
            v := (Int.tmod y 256 % 2 ^ 8).toNat,
            width := (width % 2 ^ 16).toNat,
            height := (height % 2 ^ 16).toNat }, ?_, ?_, ?_, ?_, ?_, ?_, ?_, ?_, ?_⟩
  · simp only [uploadIndexedTexture, hw1, hh1, and_self, not_true_eq_false, if_false, hpal,
      hp1, hdiv, hsend1, hdone1, hsend2, hdone2]
  · have h14 : s1.log <:+ s4.log := by
      have h13 : s1.log <:+ s3.log := by
        rw [hlog3']
        exact (hs12.trans hs23).trans ((List.suffix_cons _ _).trans
          ((List.suffix_cons _ _).trans ((List.suffix_cons _ _).trans
            ((List.suffix_cons _ _).trans ((List.suffix_cons _ _).trans
              (List.suffix_cons _ _))))))
      exact h13.trans hs34
    obtain ⟨pre, hpre⟩ := h14
    refine ⟨pre ++ [Event.write Reg.DMA_CHCR
        (G.DMA_CHCR_WRITE ||| G.DMA_CHCR_MODE_SLICE ||| G.DMA_CHCR_ENABLE),
      Event.write Reg.DMA_BCR ((c1 ||| (n1 <<< 16)) % 2 ^ 32)], o1, ?_⟩
    rw [← hpre, hlog1]
    simp
  · obtain ⟨pre, hpre⟩ := hs34
    refine ⟨pre ++ [Event.write Reg.DMA_CHCR
        (G.DMA_CHCR_WRITE ||| G.DMA_CHCR_MODE_SLICE ||| G.DMA_CHCR_ENABLE),
      Event.write Reg.DMA_BCR ((c3 ||| (n3 <<< 16)) % 2 ^ 32)], o3, ?_⟩
    rw [← hpre, hlog3]
    simp
  · show T.gp0_page (Int.tdiv x 64) (Int.tdiv y 256) _ _ = _
    rw [Int.tdiv_eq_ediv hx (by decide), Int.tdiv_eq_ediv hy (by decide)]
  · show T.gp0_clut (Int.tdiv paletteX 16) paletteY = _
    rw [Int.tdiv_eq_ediv hp0 (by decide)]
  · show (((Int.tmod x 64 * (if colorDepth = T.GP0_COLOR_8BPP then 2 else 4)
      % 2 ^ 8).toNat : Nat) : Int) = _
    rw [Int.tmod_eq_emod hx (by decide)]
    split <;> omega
  · show (((Int.tmod y 256 % 2 ^ 8).toNat : Nat) : Int) = _
    rw [Int.tmod_eq_emod hy (by decide)]
    omega
  · show (((width % 2 ^ 16).toNat : Nat) : Int) = _
    omega
  · show (((height % 2 ^ 16).toNat : Nat) : Int) = _
    omega


/-- Witness for C13: the font upload of `main`, a 96 by 84 image at 4 bits per
pixel placed at (640, 0) with its palette at (640, 84). -/
theorem uploadIndexedTexture_descriptor_witness :
    sendVRAMData psxGpu idleGpu 1 0 640 0
        (96 / (if psxTex.GP0_COLOR_4BPP = psxTex.GP0_COLOR_8BPP then 2 else 4)) 84
        { dev := (), ctrl := 0, log := [] } =
      Outcome.returned { dev := (), ctrl := 0, log := fontImageLog } ∧
    sendVRAMData psxGpu idleGpu 1 32 640 84
        (if psxTex.GP0_COLOR_4BPP = psxTex.GP0_COLOR_8BPP then 256 else 16) 1
        { dev := (), ctrl := 0, log := Event.read Reg.DMA_CHCR 0 :: fontImageLog } =
      Outcome.returned { dev := (), ctrl := 0, log := fontPaletteLog } ∧
    ∃ info' : TextureInfo,
      uploadIndexedTexture psxGpu psxTex idleGpu 1 blankTexture 0 32 640 0 640 84 96 84
        psxTex.GP0_COLOR_4BPP { dev := (), ctrl := 0, log := [] } =
        (info', Outcome.returned
          { dev := (), ctrl := 0, log := Event.read Reg.DMA_CHCR 0 :: fontPaletteLog }) ∧
      [Event.write Reg.DMA_MADR (0 % 2 ^ 32),
        Event.write Reg.GPU_GP0
          (psxGpu.gp0_xy
            (96 / (if psxTex.GP0_COLOR_4BPP = psxTex.GP0_COLOR_8BPP then 2 else 4)) 84),
        Event.write Reg.GPU_GP0 (psxGpu.gp0_xy 640 0),
        Event.write Reg.GPU_GP0 psxGpu.gp0_vramWrite] <:+:
          (Event.read Reg.DMA_CHCR 0 :: fontPaletteLog) ∧
      [Event.write Reg.DMA_MADR (32 % 2 ^ 32),
        Event.write Reg.GPU_GP0
          (psxGpu.gp0_xy (if psxTex.GP0_COLOR_4BPP = psxTex.GP0_COLOR_8BPP then 256 else 16) 1),
        Event.write Reg.GPU_GP0 (psxGpu.gp0_xy 640 84),
        Event.write Reg.GPU_GP0 psxGpu.gp0_vramWrite] <:+:
          (Event.read Reg.DMA_CHCR 0 :: fontPaletteLog) ∧
      info'.page = psxTex.gp0_page (640 / 64) (0 / 256) psxTex.GP0_BLEND_SEMITRANS
        psxTex.GP0_COLOR_4BPP ∧
      info'.clut = psxTex.gp0_clut (640 / 16) 84 ∧
      (info'.u : Int) =
        640 % 64 * (if psxTex.GP0_COLOR_4BPP = psxTex.GP0_COLOR_8BPP then 2 else 4) ∧
      (info'.v : Int) = 0 % 256 ∧
      (info'.width : Int) = 96 ∧ (info'.height : Int) = 84 :=
  ⟨rfl, rfl,
    uploadIndexedTexture_descriptor psxGpu psxTex idleGpu 1 blankTexture 0 32 640 0 640 84
      96 84 psxTex.GP0_COLOR_4BPP
      { dev := (), ctrl := 0, log := [] }
      { dev := (), ctrl := 0, log := fontImageLog }
      { dev := (), ctrl := 0, log := Event.read Reg.DMA_CHCR 0 :: fontImageLog }
      { dev := (), ctrl := 0, log := fontPaletteLog }
      { dev := (), ctrl := 0, log := Event.read Reg.DMA_CHCR 0 :: fontPaletteLog }
      (by decide) (by decide) (by decide) (by decide) (by decide) (by decide)
      (by decide) (by decide) (by decide) rfl rfl rfl rfl⟩

/-- C13 as stated fails in two ways.  A 20 by 5 image at 8 bits per pixel
passes both assertions of `uploadIndexedTexture`, but its 10 by 5 block of 25
words fails the assertion of `sendVRAMData`: nothing is transferred and no
descriptor is written.  And for an image placed at `x = 1` the descriptor gets
`u = 2`, not `x mod 64 = 1`. -/
theorem uploadIndexedTexture_not_as_stated :
    uploadIndexedTexture psxGpu psxTex idleGpu 1 blankTexture 0 32 0 0 0 480 20 5
        psxTex.GP0_COLOR_8BPP { dev := (), ctrl := 0, log := [] } =
      (blankTexture,
        Outcome.assertFailed { dev := (), ctrl := 0, log := [Event.read Reg.DMA_CHCR 0] }) ∧
    (uploadIndexedTexture psxGpu psxTex idleGpu 1 blankTexture 0 32 1 0 0 480 64 64
        psxTex.GP0_COLOR_8BPP { dev := (), ctrl := 0, log := [] }).1.u = 2 ∧
    (1 : Int) % 64 = 1 := by
  refine ⟨rfl, ?_, by decide⟩
  rfl

/-! ## The font table -/

/-- C20 fails on the code: the table has 116 entries, so the index is in range
exactly for the bytes `0x21..0x94` and `0x99..0xFF`.  A byte such as `0x96`
gives index 117, past the end of the table, and a control byte such as `0x0D`
gives index -20. -/
theorem printString_index_out_of_range :
    fontSprites.length = 116 ∧
    printStringIndices [0x96] = [117] ∧
    printStringIndices [0x0D] = [-20] ∧
    ∀ ch : Nat, 0 < ch → ch < 256 → ch ≠ 0x09 → ch ≠ 0x0A → ch ≠ 0x20 →
      ((0 ≤ spriteIndex ch ∧ spriteIndex ch < (fontSprites.length : Int)) ↔
        (0x21 ≤ ch ∧ ch ≤ 0x94) ∨ 0x99 ≤ ch) := by
  refine ⟨by decide, by decide, by decide, ?_⟩
  intro ch h0 h1 _ _ _
  have hl : (fontSprites.length : Int) = 116 := by decide
  rw [hl]
  unfold spriteIndex FONT_FIRST_TABLE_CHAR
  by_cases h : 0x99 ≤ ch ∧ ch ≤ 0xFF
  · rw [if_pos h]
    constructor
    · intro _; exact Or.inr h.1
    · intro _; constructor <;> norm_num
  · rw [if_neg h]
    constructor
    · intro ⟨a, b⟩
      left
      omega
    · intro hc
      rcases hc with hc | hc
      · omega
      · omega

/-! ## Alternation of the chain buffers -/

/-- The trace `l'` extends `l` by accesses that leave the DMA channel alone. -/
theorem dmaInFlight_append (G : GpuConsts) (new l : List Event)
    (h : ∀ e ∈ new, dmaFree e = true) : dmaInFlight G (new ++ l) = dmaInFlight G l := by
  induction new with
  | nil => rfl
  | cons e new ih =>
    have he := h e (List.mem_cons_self _ _)
    have ih' := ih (fun e' he' => h e' (List.mem_cons_of_mem _ he'))
    rw [List.cons_append]
    cases e with
    | read r v =>
      cases r <;> first | (simpa [dmaInFlight] using ih') | (exact absurd he (by simp [dmaFree]))
    | write r v =>
      cases r <;> first | (simpa [dmaInFlight] using ih') | (exact absurd he (by simp [dmaFree]))
    | delay us => simpa [dmaInFlight] using ih'

theorem grows_refl (l : List Event) : ∃ new, l = new ++ l ∧ ∀ e ∈ new, dmaFree e = true :=
  ⟨[], rfl, fun _ h => absurd h (List.not_mem_nil _)⟩

theorem grows_trans {l1 l2 l3 : List Event}
    (h12 : ∃ new, l2 = new ++ l1 ∧ ∀ e ∈ new, dmaFree e = true)
    (h23 : ∃ new, l3 = new ++ l2 ∧ ∀ e ∈ new, dmaFree e = true) :
    ∃ new, l3 = new ++ l1 ∧ ∀ e ∈ new, dmaFree e = true := by
  obtain ⟨a, ha, pa⟩ := h12
  obtain ⟨b, hb, pb⟩ := h23
  refine ⟨b ++ a, by rw [hb, ha, List.append_assoc], ?_⟩
  intro e he
  rcases List.mem_append.1 he with h | h
  · exact pb e h
  · exact pa e h

theorem grows_cons (e : Event) (l : List Event) (he : dmaFree e = true) :
    ∃ new, e :: l = new ++ l ∧ ∀ e' ∈ new, dmaFree e' = true :=
  ⟨[e], rfl, fun e' h => by rw [List.mem_singleton.1 h]; exact he⟩

theorem spinUntil_grows {σ : Type} (hw : Hardware σ) (mask n : Nat) :
    ∀ s s' : Bus σ, spinUntil hw mask n s = some s' →
      ∃ new, s'.log = new ++ s.log ∧ ∀ e ∈ new, dmaFree e = true := by
  induction n with
  | zero => intro s s' h; simp [spinUntil] at h
  | succ n ih =>
    intro s s' h
    rw [spinUntil_succ] at h
    have h1 : ∃ new, (readReg hw Reg.SIO_STAT s).2.log = new ++ s.log ∧
        ∀ e ∈ new, dmaFree e = true := grows_cons _ _ rfl
    by_cases hc : hw.read Reg.SIO_STAT s.dev &&& mask ≠ 0
    · rw [if_pos hc] at h
      cases h
      exact h1
    · rw [if_neg hc] at h
      exact grows_trans h1 (ih _ _ h)

theorem exchangeByte_grows {σ : Type} (K : Consts) (hw : Hardware σ) (fuel v : Nat)
    (s s' : Bus σ) (b : Nat) (h : exchangeByte K hw fuel v s = some (b, s')) :
    ∃ new, s'.log = new ++ s.log ∧ ∀ e ∈ new, dmaFree e = true := by
  unfold exchangeByte at h
  cases h1 : spinUntil hw K.SIO_STAT_TX_NOT_FULL fuel s with
  | none => rw [h1] at h; cases h
  | some s1 =>
    rw [h1] at h
    simp only at h
    cases h2 : spinUntil hw K.SIO_STAT_RX_NOT_EMPTY fuel (writeReg hw Reg.SIO_DATA v s1) with
    | none => rw [h2] at h; cases h
    | some s2 =>
      rw [h2] at h
      simp only [Option.some.injEq, Prod.mk.injEq] at h
      rw [← h.2]
      have a := spinUntil_grows hw _ _ _ _ h1
      have c := spinUntil_grows hw _ _ _ _ h2
      have w : ∃ new, (writeReg hw Reg.SIO_DATA v s1).log = new ++ s1.log ∧
          ∀ e ∈ new, dmaFree e = true := grows_cons _ _ rfl
      have r : ∃ new, (readReg hw Reg.SIO_DATA s2).2.log = new ++ s2.log ∧
          ∀ e ∈ new, dmaFree e = true := grows_cons _ _ rfl
      exact grows_trans (grows_trans (grows_trans a w) c) r

theorem drainRx_grows {σ : Type} (K : Consts) (hw : Hardware σ) (n : Nat) :
    ∀ s s' : Bus σ, drainRx K hw n s = some s' →
      ∃ new, s'.log = new ++ s.log ∧ ∀ e ∈ new, dmaFree e = true := by
  induction n with
  | zero => intro s s' h; simp [drainRx] at h
  | succ n ih =>
    intro s s' h
    rw [drainRx_succ] at h
    have h1 : ∃ new, (readReg hw Reg.SIO_STAT s).2.log = new ++ s.log ∧
        ∀ e ∈ new, dmaFree e = true := grows_cons _ _ rfl
    by_cases hc : hw.read Reg.SIO_STAT s.dev &&& K.SIO_STAT_RX_NOT_EMPTY ≠ 0
    · rw [if_pos hc] at h
      have h2 : ∃ new, (readReg hw Reg.SIO_DATA (readReg hw Reg.SIO_STAT s).2).2.log =
          new ++ (readReg hw Reg.SIO_STAT s).2.log ∧ ∀ e ∈ new, dmaFree e = true :=
        grows_cons _ _ rfl
      exact grows_trans (grows_trans h1 h2) (ih _ _ h)
    · rw [if_neg hc] at h
      cases h
      exact h1

theorem waitLoop_grows {σ : Type} (K : Consts) (hw : Hardware σ) (n : Nat) :
    ∀ (t : Int) (s : Bus σ),
      ∃ new, (waitForAcknowledgeLoop K hw n t s).2.log = new ++ s.log ∧
        ∀ e ∈ new, dmaFree e = true := by
  induction n with
  | zero => intro t s; exact grows_refl _
  | succ n ih =>
    intro t s
    rw [waitLoop_succ]
    by_cases ht : t > 0
    · rw [if_pos ht]
      by_cases hf : hw.read Reg.IRQ_STAT s.dev &&& (1 <<< K.IRQ_SIO0) ≠ 0
      · rw [if_pos hf]
        refine ⟨[Event.write Reg.SIO_CTRL (s.ctrl ||| K.SIO_CTRL_ACKNOWLEDGE),
          Event.read Reg.SIO_CTRL s.ctrl,
          Event.write Reg.IRQ_STAT (not32 (1 <<< K.IRQ_SIO0)),
          Event.read Reg.IRQ_STAT (hw.read Reg.IRQ_STAT s.dev)], ?_, ?_⟩
        · simp [writeReg, readReg]
        · intro e he
          simp only [List.mem_cons, List.mem_singleton, List.not_mem_nil, or_false] at he
          rcases he with h | h | h | h <;> rw [h] <;> rfl
      · rw [if_neg hf]
        have h1 : ∃ new, (delayMicroseconds hw 10 (readReg hw Reg.IRQ_STAT s).2).log =
            new ++ s.log ∧ ∀ e ∈ new, dmaFree e = true := by
          refine ⟨[Event.delay 10, Event.read Reg.IRQ_STAT (hw.read Reg.IRQ_STAT s.dev)],
            ?_, ?_⟩
          · simp [delayMicroseconds, readReg]
          · intro e he
            simp only [List.mem_cons, List.mem_singleton, List.not_mem_nil, or_false] at he
            rcases he with h | h <;> rw [h] <;> rfl
        exact grows_trans h1 (ih _ _)
    · rw [if_neg ht]
      exact grows_refl _

theorem exchangeLoop_grows {σ : Type} (K : Consts) (hw : Hardware σ) (fuel : Nat)
    (req : Nat → Nat) (maxRespLength : Int) (n : Nat) :
    ∀ x x' : Transfer σ, exchangeLoop K hw fuel req maxRespLength n x = some x' →
      ∃ new, x'.bus.log = new ++ x.bus.log ∧ ∀ e ∈ new, dmaFree e = true := by
  induction n with
  | zero =>
    intro x x' h
    simp only [exchangeLoop] at h
    split at h
    · cases h
    · cases h; exact grows_refl _
  | succ n ih =>
    intro x x' h
    rw [exchangeLoop_succ] at h
    by_cases hlt : x.respLength < maxRespLength
    · rw [if_pos hlt] at h
      cases hs : exchangeStep K hw fuel req x with
      | none => rw [hs] at h; cases h
      | some x1 =>
        rw [hs] at h
        dsimp only at h
        have h1 : ∃ new, x1.bus.log = new ++ x.bus.log ∧ ∀ e ∈ new, dmaFree e = true := by
          unfold exchangeStep at hs
          by_cases hq : x.reqLength > 0
          · rw [if_pos hq] at hs
            cases he : exchangeByte K hw fuel (req x.request) x.bus with
            | none => rw [he] at hs; cases hs
            | some p =>
              obtain ⟨b, bus⟩ := p
              rw [he] at hs
              cases hs
              exact exchangeByte_grows K hw fuel _ _ _ _ he
          · rw [if_neg hq] at hs
            cases he : exchangeByte K hw fuel 0 x.bus with
            | none => rw [he] at hs; cases hs
            | some p =>
              obtain ⟨b, bus⟩ := p
              rw [he] at hs
              cases hs
              exact exchangeByte_grows K hw fuel _ _ _ _ he
        have h2 := waitLoop_grows K hw DSR_TIMEOUT.toNat DSR_TIMEOUT x1.bus
        cases hack : (waitForAcknowledge K hw DSR_TIMEOUT x1.bus).1 with
        | false =>
          simp only [hack, Bool.not_false, if_true, Option.some.injEq] at h
          rw [← h]
          exact grows_trans h1 h2
        | true =>
          simp only [hack, Bool.not_true, Bool.false_eq_true, if_false] at h
          exact grows_trans (grows_trans h1 h2) (ih _ _ h)
    · rw [if_neg hlt] at h
      cases h
      exact grows_refl _

theorem exchangePacket_grows {σ : Type} (K : Consts) (hw : Hardware σ) (fuel : Nat)
    (address : Nat) (request response : Nat → Nat) (reqLength maxRespLength : Int)
    (s : Bus σ) (r : Int) (resp' : Nat → Nat) (s' : Bus σ)
    (h : exchangePacket K hw fuel address request response reqLength maxRespLength s =
      some (r, resp', s')) :
    ∃ new, s'.log = new ++ s.log ∧ ∀ e ∈ new, dmaFree e = true := by
  have hpro : ∃ new, (sendAddress K hw address s).log = new ++ s.log ∧
      ∀ e ∈ new, dmaFree e = true := by
    refine ⟨[Event.write Reg.SIO_DATA address, Event.delay DTR_DELAY,
      Event.write Reg.SIO_CTRL (s.ctrl ||| (K.SIO_CTRL_DTR ||| K.SIO_CTRL_ACKNOWLEDGE)),
      Event.read Reg.SIO_CTRL s.ctrl,
      Event.write Reg.IRQ_STAT (not32 (1 <<< K.IRQ_SIO0)), Event.delay DTR_PRE_DELAY], ?_, ?_⟩
    · simp [sendAddress, writeReg, readReg, delayMicroseconds]
    · intro e he
      simp only [List.mem_cons, List.mem_singleton, List.not_mem_nil, or_false] at he
      rcases he with h | h | h | h | h | h <;> rw [h] <;> rfl
  have hwait := waitLoop_grows K hw DSR_TIMEOUT.toNat DSR_TIMEOUT (sendAddress K hw address s)
  have hrel : ∀ t : Bus σ, ∃ new, (releaseDTR K hw t).log = new ++ t.log ∧
      ∀ e ∈ new, dmaFree e = true := by
    intro t
    refine ⟨[Event.delay DTR_POST_DELAY,
      Event.write Reg.SIO_CTRL (t.ctrl &&& not32 K.SIO_CTRL_DTR),
      Event.read Reg.SIO_CTRL t.ctrl, Event.delay DTR_DELAY], ?_, ?_⟩
    · simp [releaseDTR, writeReg, readReg, delayMicroseconds]
    · intro e he
      simp only [List.mem_cons, List.mem_singleton, List.not_mem_nil, or_false] at he
      rcases he with h | h | h | h <;> rw [h] <;> rfl
  rcases (exchangePacket_cases K hw fuel address request response reqLength
    maxRespLength _ _ _ _).1 h with ⟨_, _, _, hs⟩ | ⟨_, s1, x', hd, hl, _, _, hs⟩
  · rw [hs]
    exact grows_trans (grows_trans hpro hwait) (hrel _)
  · rw [hs]
    have hdr := drainRx_grows K hw fuel _ _ hd
    have hlo := exchangeLoop_grows K hw fuel request maxRespLength _ _ _ hl
    exact grows_trans (grows_trans (grows_trans (grows_trans hpro hwait) hdr) hlo) (hrel _)

theorem getButtonPress_grows {σ : Type} (K : Consts) (hw : Hardware σ) (fuel : Nat)
    (port : Int) (response0 : Nat → Nat) (s s' : Bus σ) (v : Nat)
    (h : getButtonPress K hw fuel port response0 s = some (v, s')) :
    ∃ new, s'.log = new ++ s.log ∧ ∀ e ∈ new, dmaFree e = true := by
  have hsel : ∃ new, (selectPort K hw port s).log = new ++ s.log ∧
      ∀ e ∈ new, dmaFree e = true := by
    by_cases hp : port ≠ 0
    · refine ⟨[Event.write Reg.SIO_CTRL (s.ctrl ||| K.SIO_CTRL_CS_PORT_2),
        Event.read Reg.SIO_CTRL s.ctrl], ?_, ?_⟩
      · simp [selectPort, hp, writeReg, readReg]
      · intro e he
        simp only [List.mem_cons, List.mem_singleton, List.not_mem_nil, or_false] at he
        rcases he with h | h <;> rw [h] <;> rfl
    · refine ⟨[Event.write Reg.SIO_CTRL (s.ctrl &&& not32 K.SIO_CTRL_CS_PORT_2),
        Event.read Reg.SIO_CTRL s.ctrl], ?_, ?_⟩
      · simp [selectPort, hp, writeReg, readReg]
      · intro e he
        simp only [List.mem_cons, List.mem_singleton, List.not_mem_nil, or_false] at he
        rcases he with h | h <;> rw [h] <;> rfl
  simp only [getButtonPress] at h
  cases hx : exchangePacket K hw fuel K.ADDR_CONTROLLER (pollRequest K) response0 4 8
      (selectPort K hw port s) with
  | none => rw [hx] at h; cases h
  | some res =>
    obtain ⟨n, resp', s2⟩ := res
    rw [hx] at h
    have hg := exchangePacket_grows K hw fuel _ _ _ _ _ _ _ _ _ hx
    dsimp only at h
    split at h
    · cases h; exact grows_trans hsel hg
    · cases h; exact grows_trans hsel hg

theorem waitForGP0Ready_grows {σ : Type} (G : GpuConsts) (hw : Hardware σ) (n : Nat) :
    ∀ s s' : Bus σ, waitForGP0Ready G hw n s = some s' →
      ∃ new, s'.log = new ++ s.log ∧ ∀ e ∈ new, dmaFree e = true := by
  induction n with
  | zero => intro s s' h; simp [waitForGP0Ready] at h
  | succ n ih =>
    intro s s' h
    simp only [waitForGP0Ready] at h
    have h1 : ∃ new, (readReg hw Reg.GPU_GP1 s).2.log = new ++ s.log ∧
        ∀ e ∈ new, dmaFree e = true := grows_cons _ _ rfl
    by_cases hc : (readReg hw Reg.GPU_GP1 s).1 &&& G.GP1_STAT_CMD_READY ≠ 0
    · rw [if_pos hc] at h
      cases h
      exact h1
    · rw [if_neg hc] at h
      exact grows_trans h1 (ih _ _ h)

theorem waitForVSync_grows {σ : Type} (F : FrameConsts) (hw : Hardware σ) (n : Nat) :
    ∀ s s' : Bus σ, waitForVSync F hw n s = some s' →
      ∃ new, s'.log = new ++ s.log ∧ ∀ e ∈ new, dmaFree e = true := by
  induction n with
  | zero => intro s s' h; simp [waitForVSync] at h
  | succ n ih =>
    intro s s' h
    simp only [waitForVSync] at h
    have h1 : ∃ new, (readReg hw Reg.IRQ_STAT s).2.log = new ++ s.log ∧
        ∀ e ∈ new, dmaFree e = true := grows_cons _ _ rfl
    by_cases hc : (readReg hw Reg.IRQ_STAT s).1 &&& (1 <<< F.IRQ_VSYNC) ≠ 0
    · rw [if_pos hc] at h
      cases h
      have h2 : ∃ new, (writeReg hw Reg.IRQ_STAT (not32 (1 <<< F.IRQ_VSYNC))
          (readReg hw Reg.IRQ_STAT s).2).log = new ++ (readReg hw Reg.IRQ_STAT s).2.log ∧
          ∀ e ∈ new, dmaFree e = true := grows_cons _ _ rfl
      exact grows_trans h1 h2
    · rw [if_neg hc] at h
      exact grows_trans h1 (ih _ _ h)

theorem waitForDMADone_last {σ : Type} (G : GpuConsts) (hw : Hardware σ) (n : Nat) :
    ∀ s s' : Bus σ, waitForDMADone G hw n s = some s' →
      ∃ (v : Nat) (older : List Event),
        s'.log = Event.read Reg.DMA_CHCR v :: older ∧ v &&& G.DMA_CHCR_ENABLE = 0 := by
  induction n with
  | zero => intro s s' h; simp [waitForDMADone] at h
  | succ n ih =>
    intro s s' h
    simp only [waitForDMADone] at h
    by_cases hc : (readReg hw Reg.DMA_CHCR s).1 &&& G.DMA_CHCR_ENABLE ≠ 0
    · rw [if_pos hc] at h
      exact ih _ _ h
    · rw [if_neg hc] at h
      cases h
      exact ⟨hw.read Reg.DMA_CHCR s.dev, s.log, rfl, not_not.1 hc⟩

theorem sendLinkedList_inFlight {σ : Type} (G : GpuConsts) (hw : Hardware σ) (fuel data : Nat)
    (s s' : Bus σ) (h : sendLinkedList G hw fuel data s = Outcome.returned s') :
    (∃ (c v : Nat) (older : List Event),
      s'.log = Event.write Reg.DMA_CHCR c :: Event.write Reg.DMA_MADR (data % 2 ^ 32) ::
        Event.read Reg.DMA_CHCR v :: older ∧ v &&& G.DMA_CHCR_ENABLE = 0) ∧
    ∀ a ∈ dmaInFlight G s'.log, a = data % 2 ^ 32 := by
  unfold sendLinkedList at h
  cases hd : waitForDMADone G hw fuel s with
  | none => rw [hd] at h; cases h
  | some s1 =>
    rw [hd] at h
    dsimp only at h
    obtain ⟨v, older, hlog, hv⟩ := waitForDMADone_last G hw fuel s s1 hd
    by_cases ha : data % 2 ^ 32 % 4 ≠ 0
    · rw [if_pos ha] at h; cases h
    · rw [if_neg ha] at h
      cases h
      have hl : (writeReg hw Reg.DMA_CHCR
          (G.DMA_CHCR_WRITE ||| G.DMA_CHCR_MODE_LIST ||| G.DMA_CHCR_ENABLE)
          (writeReg hw Reg.DMA_MADR (data % 2 ^ 32) s1)).log =
          Event.write Reg.DMA_CHCR
            (G.DMA_CHCR_WRITE ||| G.DMA_CHCR_MODE_LIST ||| G.DMA_CHCR_ENABLE) ::
          Event.write Reg.DMA_MADR (data % 2 ^ 32) :: Event.read Reg.DMA_CHCR v :: older := by
        show _ :: _ :: s1.log = _
        rw [hlog]
      refine ⟨⟨_, v, older, hl, hv⟩, ?_⟩
      rw [hl]
      intro a hmem
      simp only [dmaInFlight, lastMADR, if_pos hv, Option.toList, List.append_nil] at hmem
      split_ifs at hmem
      · exact List.mem_singleton.1 hmem
      · exact absurd hmem (List.not_mem_nil _)

theorem buildFrame_spec {σ : Type} (G : GpuConsts) (K : Consts) (F : FrameConsts)
    (hw : Hardware σ) (fuel : Nat) (response0 : Nat → Nat) (work : MenuWork σ)
    (hcd : ∀ s s' : Bus σ, work.cdrom s = some s' →
      ∃ new, s'.log = new ++ s.log ∧ ∀ e ∈ new, dmaFree e = true)
    (st st1 : FrameLoop σ) (h : buildFrame G K F hw fuel response0 work st = some st1) :
    st1.usingSecondFrame = (!st.usingSecondFrame) ∧
    (∃ chain, allocateAll G (resetChain (st.dmaChains st.usingSecondFrame)) work.sizes =
        some chain ∧
      st1.dmaChains = Function.update st.dmaChains st.usingSecondFrame (terminateChain chain)) ∧
    ∃ new, st1.bus.log = new ++ st.bus.log ∧ ∀ e ∈ new, dmaFree e = true := by
  unfold buildFrame at h
  dsimp only at h
  cases ha : allocateAll G (resetChain (st.dmaChains st.usingSecondFrame)) work.sizes with
  | none => rw [ha] at h; cases h
  | some chain =>
    rw [ha] at h
    dsimp only at h
    cases h1 : getButtonPress K hw fuel 0 response0
        (writeReg hw Reg.GPU_GP1
          (F.gp1_fbOffset (if st.usingSecondFrame = true then SCREEN_WIDTH else 0) 0) st.bus) with
    | none => rw [h1] at h; cases h
    | some r1 =>
      obtain ⟨v1, b1⟩ := r1
      rw [h1] at h
      dsimp only at h
      cases h2 : getButtonPress K hw fuel 0 response0 b1 with
      | none => rw [h2] at h; cases h
      | some r2 =>
        obtain ⟨v2, b2⟩ := r2
        rw [h2] at h
        dsimp only at h
        cases h3 : work.cdrom b2 with
        | none => rw [h3] at h; cases h
        | some b3 =>
          rw [h3] at h
          cases h
          refine ⟨rfl, ⟨chain, rfl, rfl⟩, ?_⟩
          have g0 : ∃ new, (writeReg hw Reg.GPU_GP1
              (F.gp1_fbOffset (if st.usingSecondFrame = true then SCREEN_WIDTH else 0) 0)
              st.bus).log = new ++ st.bus.log ∧ ∀ e ∈ new, dmaFree e = true :=
            grows_cons _ _ rfl
          exact grows_trans (grows_trans (grows_trans g0
            (getButtonPress_grows K hw fuel 0 response0 _ _ _ h1))
            (getButtonPress_grows K hw fuel 0 response0 _ _ _ h2)) (hcd _ _ h3)

theorem submitFrame_spec {σ : Type} (G : GpuConsts) (F : FrameConsts) (hw : Hardware σ)
    (fuel : Nat) (second : Bool) (st st2 : FrameLoop σ)
    (h : submitFrame G F hw fuel second st = some st2) :
    st2.usingSecondFrame = st.usingSecondFrame ∧
    (∃ (c v : Nat) (older : List Event),
      st2.bus.log = Event.write Reg.DMA_CHCR c ::
        Event.write Reg.DMA_MADR (F.chainData second % 2 ^ 32) ::
        Event.read Reg.DMA_CHCR v :: older ∧ v &&& G.DMA_CHCR_ENABLE = 0) ∧
    ∀ a ∈ dmaInFlight G st2.bus.log, a = F.chainData second % 2 ^ 32 := by
  unfold submitFrame at h
  cases h1 : waitForGP0Ready G hw fuel st.bus with
  | none => rw [h1] at h; cases h
  | some b1 =>
    rw [h1] at h
    dsimp only at h
    cases h2 : waitForVblank F hw fuel b1 with
    | none => rw [h2] at h; cases h
    | some b2 =>
      rw [h2] at h
      dsimp only at h
      cases h3 : sendLinkedList G hw fuel (F.chainData second) b2 with
      | returned b3 =>
        rw [h3] at h
        cases h
        have hs := sendLinkedList_inFlight G hw fuel _ _ _ h3
        exact ⟨rfl, hs.1, hs.2⟩
      | assertFailed b3 => rw [h3] at h; cases h
      | spinning => rw [h3] at h; cases h

theorem frame_spec {σ : Type} (G : GpuConsts) (K : Consts) (F : FrameConsts)
    (hw : Hardware σ) (fuel : Nat) (response0 : Nat → Nat) (work : MenuWork σ)
    (st st2 : FrameLoop σ) (h : frame G K F hw fuel response0 work st = some st2) :
    st2.usingSecondFrame = (!st.usingSecondFrame) ∧
    (∃ (c v : Nat) (older : List Event),
      st2.bus.log = Event.write Reg.DMA_CHCR c ::
        Event.write Reg.DMA_MADR (F.chainData (!st2.usingSecondFrame) % 2 ^ 32) ::
        Event.read Reg.DMA_CHCR v :: older ∧ v &&& G.DMA_CHCR_ENABLE = 0) ∧
    ∀ a ∈ dmaInFlight G st2.bus.log, a = F.chainData (!st2.usingSecondFrame) % 2 ^ 32 := by
  unfold frame at h
  cases hb : buildFrame G K F hw fuel response0 work st with
  | none => rw [hb] at h; cases h
  | some st1 =>
    rw [hb] at h
    dsimp only at h
    have hs := submitFrame_spec G F hw fuel _ _ _ h
    have hu : st1.usingSecondFrame = (!st.usingSecondFrame) := by
      unfold buildFrame at hb
      dsimp only at hb
      split at hb
      · cases hb
      · split at hb
        · cases hb
        · split at hb
          · cases hb
          · split at hb
            · cases hb
            · cases hb; rfl
    have hu2 : st2.usingSecondFrame = (!st.usingSecondFrame) := by rw [hs.1, hu]
    refine ⟨hu2, ?_⟩
    rw [hu2, Bool.not_not]
    exact hs.2

theorem runFrames_spec {σ : Type} (G : GpuConsts) (K : Consts) (F : FrameConsts)
    (hw : Hardware σ) (fuel : Nat) (response0 : Nat → Nat) (frames : List (MenuWork σ)) :
    ∀ st0 st : FrameLoop σ,
      (∀ a ∈ dmaInFlight G st0.bus.log, a = F.chainData (!st0.usingSecondFrame) % 2 ^ 32) →
      runFrames G K F hw fuel response0 frames st0 = some st →
      st.usingSecondFrame = xor st0.usingSecondFrame (decide (frames.length % 2 = 1)) ∧
      (∀ a ∈ dmaInFlight G st.bus.log, a = F.chainData (!st.usingSecondFrame) % 2 ^ 32) ∧
      (frames ≠ [] → ∃ (c v : Nat) (older : List Event),
        st.bus.log = Event.write Reg.DMA_CHCR c ::
          Event.write Reg.DMA_MADR (F.chainData (!st.usingSecondFrame) % 2 ^ 32) ::
          Event.read Reg.DMA_CHCR v :: older ∧ v &&& G.DMA_CHCR_ENABLE = 0) := by
  induction frames with
  | nil =>
    intro st0 st h0 h
    simp only [runFrames, Option.some.injEq] at h
    subst h
    exact ⟨by simp, h0, fun hne => absurd rfl hne⟩
  | cons work rest ih =>
    intro st0 st h0 h
    simp only [runFrames] at h
    cases hf : frame G K F hw fuel response0 work st0 with
    | none => rw [hf] at h; cases h
    | some st1 =>
      rw [hf] at h
      dsimp only at h
      have hs := frame_spec G K F hw fuel response0 work _ _ hf
      have hi := ih st1 st hs.2.2 h
      refine ⟨?_, hi.2.1, ?_⟩
      · rw [hi.1, hs.1, List.length_cons]
        by_cases hp : rest.length % 2 = 1
        · have hq : ¬ (rest.length + 1) % 2 = 1 := by omega
          simp [hp, hq]
        · have hq : (rest.length + 1) % 2 = 1 := by omega
          simp [hp, hq]
      · intro _
        cases rest with
        | nil =>
          simp only [runFrames, Option.some.injEq] at h
          subst h
          exact hs.2.1
        | cons w rest2 => exact hi.2.2 (List.cons_ne_nil _ _)

/-- C17: in the frame loop, started with `usingSecondFrame` clear and no
submission in flight, the frame that follows `n` complete frames builds into
`dmaChains[n mod 2]` and leaves the other chain alone.  A submission is in
flight from the write of `DMA_CHCR` with the enable bit by `sendLinkedList`
until `DMA_CHCR` is read with the enable bit clear.  The `sendLinkedList` of
the frame before has read `DMA_CHCR` with the enable bit clear, which ends
the submission of two frames earlier, right before it submitted the other
buffer; so at no point of the trace of the build, from its first access to its
last, is a submission of the buffer being built in flight.  The CD-ROM
commands of the menu are taken to leave the DMA channel of the GPU alone. -/
theorem frames_alternate {σ : Type} (G : GpuConsts) (K : Consts) (F : FrameConsts)
    (hw : Hardware σ) (fuel : Nat) (response0 : Nat → Nat)
    (hdistinct : F.chainData false % 2 ^ 32 ≠ F.chainData true % 2 ^ 32)
    (st0 : FrameLoop σ) (hfirst : st0.usingSecondFrame = false)
    (hidle : dmaInFlight G st0.bus.log = [])
    (frames : List (MenuWork σ)) (work : MenuWork σ)
    (hcd : ∀ s s' : Bus σ, work.cdrom s = some s' →
      ∃ new, s'.log = new ++ s.log ∧ ∀ e ∈ new, dmaFree e = true)
    (st st1 : FrameLoop σ)
    (hrun : runFrames G K F hw fuel response0 frames st0 = some st)
    (hbuild : buildFrame G K F hw fuel response0 work st = some st1) :
    st.usingSecondFrame = decide (frames.length % 2 = 1) ∧
    st1.dmaChains (!st.usingSecondFrame) = st.dmaChains (!st.usingSecondFrame) ∧
    (∃ chain, allocateAll G (resetChain (st.dmaChains st.usingSecondFrame)) work.sizes =
        some chain ∧
      st1.dmaChains st.usingSecondFrame = terminateChain chain) ∧
    (frames ≠ [] → ∃ (c v : Nat) (older : List Event),
      st.bus.log = Event.write Reg.DMA_CHCR c ::
        Event.write Reg.DMA_MADR (F.chainData (!st.usingSecondFrame) % 2 ^ 32) ::
        Event.read Reg.DMA_CHCR v :: older ∧ v &&& G.DMA_CHCR_ENABLE = 0) ∧
    ∃ new, st1.bus.log = new ++ st.bus.log ∧
      ∀ later, later <:+ new →
        F.chainData st.usingSecondFrame % 2 ^ 32 ∉ dmaInFlight G (later ++ st.bus.log) := by
  have hr := runFrames_spec G K F hw fuel response0 frames st0 st
    (by rw [hidle]; exact fun a ha => absurd ha (List.not_mem_nil _)) hrun
  obtain ⟨_, ⟨chain, hch, hupd⟩, new, hnew, hfree⟩ :=
    buildFrame_spec G K F hw fuel response0 work hcd st st1 hbuild
  refine ⟨by rw [hr.1, hfirst]; simp, ?_, ⟨chain, hch, ?_⟩, hr.2.2, new, hnew, ?_⟩
  · rw [hupd]
    cases st.usingSecondFrame <;> simp [Function.update]
  · rw [hupd]
    simp [Function.update]
  · intro later hl
    rw [dmaInFlight_append G later st.bus.log
      (fun e he => hfree e (hl.subset he))]
    intro hmem
    have hc := hr.2.1 _ hmem
    cases hb : st.usingSecondFrame with
    | false => rw [hb] at hc; exact hdistinct hc
    | true => rw [hb] at hc; exact hdistinct hc.symm

theorem frames_alternate_witness :
    ∃ st st1 : FrameLoop Unit,
      runFrames psxGpu psx psxFrame idleConsole 16 (fun _ => 0)
        [plainFrame, plainFrame, plainFrame] frameStart = some st ∧
      buildFrame psxGpu psx psxFrame idleConsole 16 (fun _ => 0) plainFrame st = some st1 ∧
      st.usingSecondFrame = true ∧
      dmaInFlight psxGpu st.bus.log = [psxFrame.chainData false % 2 ^ 32] ∧
      st1.dmaChains false = st.dmaChains false ∧
      (∃ (c v : Nat) (older : List Event),
        st.bus.log = Event.write Reg.DMA_CHCR c ::
          Event.write Reg.DMA_MADR (psxFrame.chainData false % 2 ^ 32) ::
          Event.read Reg.DMA_CHCR v :: older ∧ v &&& psxGpu.DMA_CHCR_ENABLE = 0) ∧
      ∃ new, st1.bus.log = new ++ st.bus.log ∧
        ∀ later, later <:+ new →
          psxFrame.chainData true % 2 ^ 32 ∉ dmaInFlight psxGpu (later ++ st.bus.log) := by
  have hsome : (runFrames psxGpu psx psxFrame idleConsole 16 (fun _ => 0)
      [plainFrame, plainFrame, plainFrame] frameStart).isSome = true := by decide
  obtain ⟨st, hst⟩ := Option.isSome_iff_exists.1 hsome
  have hsome1 : ((runFrames psxGpu psx psxFrame idleConsole 16 (fun _ => 0)
      [plainFrame, plainFrame, plainFrame] frameStart).bind
      (buildFrame psxGpu psx psxFrame idleConsole 16 (fun _ => 0) plainFrame)).isSome = true := by
    decide
  rw [hst] at hsome1
  obtain ⟨st1, hst1⟩ := Option.isSome_iff_exists.1 hsome1
  have hfl : ((runFrames psxGpu psx psxFrame idleConsole 16 (fun _ => 0)
      [plainFrame, plainFrame, plainFrame] frameStart).map
      (fun t => dmaInFlight psxGpu t.bus.log)) = some [psxFrame.chainData false % 2 ^ 32] := by
    decide
  rw [hst] at hfl
  have h := frames_alternate psxGpu psx psxFrame idleConsole 16 (fun _ => 0) (by decide)
    frameStart rfl rfl [plainFrame, plainFrame, plainFrame] plainFrame
    (fun s s' hs => ⟨[], by cases hs; rfl, fun _ he => absurd he (List.not_mem_nil _)⟩)
    st st1 hst hst1
  have hu : st.usingSecondFrame = true := by rw [h.1]; decide
  rw [hu] at h
  exact ⟨st, st1, hst, hst1, hu, Option.some.inj hfl, h.2.1,
    h.2.2.2.1 (List.cons_ne_nil _ _), h.2.2.2.2⟩

/-! ## The order of `caseInsensitiveCompare` -/

theorem toChar_sign (s : Bool) (c : Nat) (h0 : 0 < c) (h1 : c < 256) :
    toChar s c ≠ 0 ∧ toChar s (tolower c) ≠ 0 ∧
      (0 < toChar s c ↔ 0 < toChar s (tolower c)) := by
  unfold toChar tolower
  cases s <;> simp only [Bool.false_eq_true, false_and, if_false, true_and] <;>
    split_ifs <;> omega

theorem caseInsensitiveCompare_self (s : Bool) (a : List Nat) :
    caseInsensitiveCompare s a a = 0 := by
  induction a with
  | nil => simp [caseInsensitiveCompare]
  | cons x xs ih => simp [caseInsensitiveCompare, ih]

theorem caseInsensitiveCompare_swap (s : Bool) (a : List Nat) :
    ∀ b, caseInsensitiveCompare s b a = - caseInsensitiveCompare s a b := by
  induction a with
  | nil =>
    intro b
    cases b <;> simp [caseInsensitiveCompare]
  | cons x xs ih =>
    intro b
    cases b with
    | nil => simp [caseInsensitiveCompare]
    | cons y ys =>
      simp only [caseInsensitiveCompare]
      by_cases h : toChar s (tolower x) = toChar s (tolower y)
      · rw [if_neg (not_not.2 h), if_neg (not_not.2 h.symm)]
        exact ih ys
      · rw [if_pos h, if_pos (fun e => h e.symm)]
        omega

theorem caseInsensitiveCompare_trans (s : Bool) (a : List Nat) :
    ∀ b c : List Nat, (∀ x ∈ a, 0 < x ∧ x < 256) → (∀ x ∈ b, 0 < x ∧ x < 256) →
      (∀ x ∈ c, 0 < x ∧ x < 256) →
      caseInsensitiveCompare s a b ≤ 0 → caseInsensitiveCompare s b c ≤ 0 →
      caseInsensitiveCompare s a c ≤ 0 := by
  induction a with
  | nil =>
    intro b c _ hb hc hab hbc
    cases c with
    | nil => simp [caseInsensitiveCompare]
    | cons z zs =>
      have hz := toChar_sign s z (hc z (List.mem_cons_self _ _)).1 (hc z (List.mem_cons_self _ _)).2
      cases b with
      | nil => exact hbc
      | cons y ys =>
        have hy := toChar_sign s y (hb y (List.mem_cons_self _ _)).1
          (hb y (List.mem_cons_self _ _)).2
        simp only [caseInsensitiveCompare, List.headD_nil, List.headD_cons] at hab hbc ⊢
        have h0 : toChar s 0 = 0 := by simp [toChar]
        rw [h0] at hab ⊢
        split_ifs at hbc <;> omega
  | cons x xs ih =>
    intro b c ha hb hc hab hbc
    have hx := toChar_sign s x (ha x (List.mem_cons_self _ _)).1 (ha x (List.mem_cons_self _ _)).2
    have h0 : toChar s 0 = 0 := by simp [toChar]
    cases b with
    | nil =>
      cases c with
      | nil => exact hab
      | cons z zs =>
        have hz := toChar_sign s z (hc z (List.mem_cons_self _ _)).1
          (hc z (List.mem_cons_self _ _)).2
        simp only [caseInsensitiveCompare, List.headD_nil, List.headD_cons] at hab hbc ⊢
        rw [h0] at hab hbc
        split_ifs <;> omega
    | cons y ys =>
      have hy := toChar_sign s y (hb y (List.mem_cons_self _ _)).1
        (hb y (List.mem_cons_self _ _)).2
      cases c with
      | nil =>
        simp only [caseInsensitiveCompare, List.headD_nil, List.headD_cons] at hab hbc ⊢
        rw [h0] at hbc ⊢
        split_ifs at hab <;> omega
      | cons z zs =>
        simp only [caseInsensitiveCompare] at hab hbc ⊢
        by_cases hxy : toChar s (tolower x) = toChar s (tolower y)
        · rw [if_neg (not_not.2 hxy)] at hab
          by_cases hyz : toChar s (tolower y) = toChar s (tolower z)
          · rw [if_neg (not_not.2 hyz)] at hbc
            rw [if_neg (not_not.2 (hxy.trans hyz))]
            exact ih ys zs (fun w hw => ha w (List.mem_cons_of_mem _ hw))
              (fun w hw => hb w (List.mem_cons_of_mem _ hw))
              (fun w hw => hc w (List.mem_cons_of_mem _ hw)) hab hbc
          · rw [if_pos hyz] at hbc
            rw [if_pos (by rw [hxy]; exact hyz)]
            omega
        · rw [if_pos hxy] at hab
          by_cases hyz : toChar s (tolower y) = toChar s (tolower z)
          · rw [if_neg (not_not.2 hyz)] at hbc
            rw [if_pos (by rw [← hyz]; exact hxy)]
            omega
          · rw [if_pos hyz] at hbc
            rw [if_pos (by omega)]
            omega

/-! ## Quicksort -/

theorem swap_eq (lines : Int → List Nat) (a b k : Int) :
    swap lines a b k = lines (Equiv.swap a b k) := by
  unfold swap
  by_cases hb : k = b
  · subst hb
    simp
  · by_cases ha : k = a
    · subst ha
      simp [Function.update, hb]
    · simp [Function.update, hb, ha, Equiv.swap_apply_of_ne_of_ne ha hb]

theorem swapIndex_eq (indexes : Int → Nat) (a b k : Int) :
    swapIndex indexes a b k = indexes (Equiv.swap a b k) := by
  unfold swapIndex
  by_cases hb : k = b
  · subst hb
    simp
  · by_cases ha : k = a
    · subst ha
      simp [Function.update, hb]
    · simp [Function.update, hb, ha, Equiv.swap_apply_of_ne_of_ne ha hb]

theorem permuted_refl (low high : Int) (L : Listing) : Permuted low high L L :=
  ⟨1, fun _ _ => rfl, fun _ => rfl, fun _ => rfl⟩

theorem permuted_trans {low high low1 high1 low2 high2 : Int} {L L1 L2 : Listing}
    (h1 : Permuted low1 high1 L L1) (h2 : Permuted low2 high2 L1 L2)
    (hl1 : low ≤ low1) (hh1 : high1 ≤ high) (hl2 : low ≤ low2) (hh2 : high2 ≤ high) :
    Permuted low high L L2 := by
  obtain ⟨p1, f1, l1, i1⟩ := h1
  obtain ⟨p2, f2, l2, i2⟩ := h2
  refine ⟨p1 * p2, ?_, ?_, ?_⟩
  · intro k hk
    rw [Equiv.Perm.mul_apply, f2 k (by omega), f1 k (by omega)]
  · intro k
    rw [l2, l1, Equiv.Perm.mul_apply]
  · intro k
    rw [i2, i1, Equiv.Perm.mul_apply]

theorem permuted_swap (low high a b : Int) (L : Listing)
    (ha : low ≤ a ∧ a ≤ high) (hb : low ≤ b ∧ b ≤ high) :
    Permuted low high L { lines := swap L.lines a b, indexes := swapIndex L.indexes a b } := by
  refine ⟨Equiv.swap a b, ?_, fun k => swap_eq _ _ _ _, fun k => swapIndex_eq _ _ _ _⟩
  intro k hk
  exact Equiv.swap_apply_of_ne_of_ne (by omega) (by omega)

theorem perm_stays_inside (p : Equiv.Perm Int) (low high : Int)
    (hfix : ∀ k, k < low ∨ high < k → p k = k) (k : Int) (hk : low ≤ k ∧ k ≤ high) :
    low ≤ p k ∧ p k ≤ high := by
  by_contra hout
  have hout' : p k < low ∨ high < p k := by omega
  have h := hfix (p k) hout'
  have hk' : p k = k := p.injective h
  omega

theorem permuted_isLine {low high : Int} {L L' : Listing} (h : Permuted low high L L')
    (hv : ∀ k, low ≤ k → k ≤ high → isLine (L.lines k)) :
    ∀ k, low ≤ k → k ≤ high → isLine (L'.lines k) := by
  obtain ⟨p, hfix, hl, _⟩ := h
  intro k h0 h1
  rw [hl]
  have := perm_stays_inside p low high hfix k ⟨h0, h1⟩
  exact hv _ this.1 this.2

theorem partitionLoop_spec (s : Bool) (pivot : List Nat) (low high : Int) :
    ∀ (n : Nat) (j i : Int) (L : Listing),
      j + (n : Int) = high → low ≤ j → low - 1 ≤ i → i < j →
      L.lines high = pivot →
      (∀ k, low ≤ k → k ≤ i → caseInsensitiveCompare s (L.lines k) pivot < 0) →
      (∀ k, i < k → k < j → 0 ≤ caseInsensitiveCompare s (L.lines k) pivot) →
      low - 1 ≤ (partitionLoop s pivot high n j i L).1 ∧
      (partitionLoop s pivot high n j i L).1 < high ∧
      (partitionLoop s pivot high n j i L).2.lines high = pivot ∧
      (∀ k, low ≤ k → k ≤ (partitionLoop s pivot high n j i L).1 →
        caseInsensitiveCompare s ((partitionLoop s pivot high n j i L).2.lines k) pivot < 0) ∧
      (∀ k, (partitionLoop s pivot high n j i L).1 < k → k < high →
        0 ≤ caseInsensitiveCompare s ((partitionLoop s pivot high n j i L).2.lines k) pivot) ∧
      Permuted low high L (partitionLoop s pivot high n j i L).2 := by
  intro n
  induction n with
  | zero =>
    intro j i L hj hlow hi hij hp hlt hge
    simp only [partitionLoop]
    have hjh : j = high := by simpa using hj
    subst hjh
    exact ⟨hi, hij, hp, hlt, hge, permuted_refl _ _ _⟩
  | succ n ih =>
    intro j i L hj hlow hi hij hp hlt hge
    have hjh : j < high := by push_cast at hj; omega
    simp only [partitionLoop]
    rw [if_pos hjh]
    by_cases hc : caseInsensitiveCompare s (L.lines j) pivot < 0
    · rw [if_pos hc]
      have hstep := ih (j + 1) (i + 1)
        { lines := swap L.lines (i + 1) j, indexes := swapIndex L.indexes (i + 1) j }
        (by push_cast at hj; omega) (by omega) (by omega) (by omega)
        (by
          show swap L.lines (i + 1) j high = pivot
          rw [swap_eq, Equiv.swap_apply_of_ne_of_ne (by omega) (by omega)]
          exact hp)
        (by
          intro k hk0 hk1
          show caseInsensitiveCompare s (swap L.lines (i + 1) j k) pivot < 0
          rw [swap_eq]
          by_cases hki : k = i + 1
          · subst hki
            rw [Equiv.swap_apply_left]
            exact hc
          · rw [Equiv.swap_apply_of_ne_of_ne hki (by omega)]
            exact hlt k hk0 (by omega))
        (by
          intro k hk0 hk1
          show 0 ≤ caseInsensitiveCompare s (swap L.lines (i + 1) j k) pivot
          rw [swap_eq]
          by_cases hkj : k = j
          · subst hkj
            rw [Equiv.swap_apply_right]
            exact hge _ (by omega) (by omega)
          · rw [Equiv.swap_apply_of_ne_of_ne (by omega) hkj]
            exact hge k (by omega) (by omega))
      obtain ⟨r1, r2, r3, r4, r5, r6⟩ := hstep
      exact ⟨by omega, r2, r3, r4, r5,
        permuted_trans (permuted_swap low high (i + 1) j L ⟨by omega, by omega⟩
          ⟨by omega, by omega⟩) r6 le_rfl le_rfl le_rfl le_rfl⟩
    · rw [if_neg hc]
      exact ih (j + 1) i L (by push_cast at hj; omega) (by omega) hi (by omega) hp hlt
        (by
          intro k hk0 hk1
          by_cases hkj : k = j
          · subst hkj; omega
          · exact hge k hk0 (by omega))

theorem partition_spec (s : Bool) (low high : Int) (L : Listing) (hlh : low < high) :
    low ≤ (partition s low high L).1 ∧ (partition s low high L).1 ≤ high ∧
    Permuted low high L (partition s low high L).2 ∧
    (∀ k, low ≤ k → k < (partition s low high L).1 →
      caseInsensitiveCompare s ((partition s low high L).2.lines k)
        ((partition s low high L).2.lines (partition s low high L).1) < 0) ∧
    (∀ k, (partition s low high L).1 < k → k ≤ high →
      0 ≤ caseInsensitiveCompare s ((partition s low high L).2.lines k)
        ((partition s low high L).2.lines (partition s low high L).1)) := by
  obtain ⟨r1, r2, r3, r4, r5, r6⟩ := partitionLoop_spec s (L.lines high) low high
    (high - low).toNat low (low - 1) L (by omega) le_rfl le_rfl (by omega) rfl
    (fun k h0 h1 => by omega) (fun k h0 h1 => by omega)
  generalize hres : partitionLoop s (L.lines high) high (high - low).toNat low (low - 1) L = res
    at r1 r2 r3 r4 r5 r6
  obtain ⟨i, L1⟩ := res
  have hpart : partition s low high L =
      (i + 1, { lines := swap L1.lines (i + 1) high,
                indexes := swapIndex L1.indexes (i + 1) high }) := by
    unfold partition
    simp only [hres]
  rw [hpart]
  simp only at r1 r2 r3 r4 r5 r6 ⊢
  have hpiv : swap L1.lines (i + 1) high (i + 1) = L.lines high := by
    rw [swap_eq, Equiv.swap_apply_left]; exact r3
  refine ⟨by omega, by omega, ?_, ?_, ?_⟩
  · exact permuted_trans r6
      (permuted_swap low high (i + 1) high L1 ⟨by omega, by omega⟩ ⟨by omega, le_rfl⟩)
      le_rfl le_rfl le_rfl le_rfl
  · intro k h0 h1
    rw [hpiv, swap_eq, Equiv.swap_apply_of_ne_of_ne (by omega) (by omega)]
    exact r4 k h0 (by omega)
  · intro k h0 h1
    rw [hpiv, swap_eq]
    by_cases hk : k = high
    · subst hk
      rw [Equiv.swap_apply_right]
      exact r5 _ (by omega) (by omega)
    · rw [Equiv.swap_apply_of_ne_of_ne (by omega) hk]
      exact r5 k (by omega) (by omega)

theorem quickSort_spec (s : Bool) :
    ∀ (fuel : Nat) (low high : Int) (L : Listing),
      (high - low + 1).toNat < fuel →
      (∀ k, low ≤ k → k ≤ high → isLine (L.lines k)) →
      ∃ L', quickSort s fuel low high L = some L' ∧ Permuted low high L L' ∧
        ∀ i j, low ≤ i → i ≤ j → j ≤ high →
          caseInsensitiveCompare s (L'.lines i) (L'.lines j) ≤ 0 := by
  intro fuel
  induction fuel with
  | zero => intro low high L h; omega
  | succ fuel ih =>
    intro low high L hfuel hv
    simp only [quickSort]
    by_cases hlh : low < high
    · rw [if_pos hlh]
      obtain ⟨p1, p2, p3, p4, p5⟩ := partition_spec s low high L hlh
      generalize hres : partition s low high L = res at p1 p2 p3 p4 p5
      obtain ⟨pi, L1⟩ := res
      simp only at p1 p2 p3 p4 p5 ⊢
      have hv1 := permuted_isLine p3 hv
      obtain ⟨L2, hq2, hperm2, hs2⟩ := ih low (pi - 1) L1 (by omega)
        (fun k h0 h1 => hv1 k h0 (by omega))
      rw [hq2]
      simp only
      have hperm12 : Permuted low high L1 L2 :=
        permuted_trans (permuted_refl low high L1) hperm2 le_rfl le_rfl le_rfl (by omega)
      have hv2 := permuted_isLine hperm12 hv1
      obtain ⟨L3, hq3, hperm3, hs3⟩ := ih (pi + 1) high L2 (by omega)
        (fun k h0 h1 => hv2 k (by omega) h1)
      refine ⟨L3, hq3, ?_, ?_⟩
      · exact permuted_trans (permuted_trans p3 hperm12 le_rfl le_rfl le_rfl le_rfl) hperm3
          le_rfl le_rfl (by omega) le_rfl
      · obtain ⟨q2, f2, l2, _⟩ := hperm2
        obtain ⟨q3, f3, l3, _⟩ := hperm3
        have hv3 : ∀ k, low ≤ k → k ≤ high → isLine (L3.lines k) :=
          permuted_isLine (permuted_trans (permuted_refl low high L2) ⟨q3, f3, l3, by assumption⟩
            le_rfl le_rfl (by omega) le_rfl) hv2
        have hpivot : L3.lines pi = L1.lines pi := by
          rw [l3, f3 pi (by omega), l2, f2 pi (by omega)]
        have hleft : ∀ k, low ≤ k → k < pi →
            L3.lines k = L2.lines k ∧
              caseInsensitiveCompare s (L3.lines k) (L3.lines pi) < 0 := by
          intro k h0 h1
          have e3 : L3.lines k = L2.lines k := by rw [l3, f3 k (by omega)]
          refine ⟨e3, ?_⟩
          rw [hpivot, e3, l2]
          have := perm_stays_inside q2 low (pi - 1) f2 k ⟨h0, by omega⟩
          exact p4 _ this.1 (by omega)
        have hright : ∀ k, pi < k → k ≤ high →
            0 ≤ caseInsensitiveCompare s (L3.lines k) (L3.lines pi) := by
          intro k h0 h1
          have := perm_stays_inside q3 (pi + 1) high f3 k ⟨by omega, h1⟩
          rw [hpivot, l3, l2, f2 _ (by omega)]
          exact p5 _ (by omega) this.2
        intro i j hi hij hj
        by_cases hjl : j < pi
        · rw [(hleft i hi (by omega)).1, (hleft j (by omega) hjl).1]
          exact hs2 i j hi hij (by omega)
        · by_cases hir : pi < i
          · exact hs3 i j (by omega) hij hj
          · by_cases hipi : i = pi
            · by_cases hjpi : j = pi
              · rw [hipi, hjpi, caseInsensitiveCompare_self]
              · have h := hright j (by omega) hj
                rw [hipi, caseInsensitiveCompare_swap]
                omega
            · have hl := (hleft i hi (by omega)).2
              by_cases hjpi : j = pi
              · rw [hjpi]; omega
              · have hr := hright j (by omega) hj
                have hr' : caseInsensitiveCompare s (L3.lines pi) (L3.lines j) ≤ 0 := by
                  rw [caseInsensitiveCompare_swap]; omega
                exact caseInsensitiveCompare_trans s _ _ _
                  (hv3 i hi (by omega)).2 (hv3 pi p1 p2).2 (hv3 j (by omega) hj).2
                  (by omega) hr'
    · rw [if_neg hlh]
      refine ⟨L, rfl, permuted_refl _ _ _, ?_⟩
      intro i j hi hij hj
      have : i = j := by omega
      rw [this, caseInsensitiveCompare_self]

theorem perm_range (p : Equiv.Perm Int) (n : Nat)
    (hfix : ∀ k : Int, k < 0 ∨ (n : Int) - 1 < k → p k = k) :
    (((List.range n).map (fun i : Nat => (i : Int))).map p).Perm
      ((List.range n).map (fun i : Nat => (i : Int))) := by
  have hnd : ((List.range n).map (fun i : Nat => (i : Int))).Nodup :=
    List.Nodup.map (fun a b h => by simpa using h) (List.nodup_range n)
  have hmem : ∀ x : Int, x ∈ (List.range n).map (fun i : Nat => (i : Int)) ↔
      0 ≤ x ∧ x ≤ (n : Int) - 1 := by
    intro x
    simp only [List.mem_map, List.mem_range]
    constructor
    · rintro ⟨i, hi, rfl⟩; omega
    · intro h; exact ⟨x.toNat, by omega, by omega⟩
  have hfix' : ∀ k : Int, k < 0 ∨ (n : Int) - 1 < k → p.symm k = k := by
    intro k hk
    have := hfix k hk
    exact (Equiv.symm_apply_eq p).2 this.symm
  refine (List.perm_ext_iff_of_nodup (List.Nodup.map p.injective hnd) hnd).2 ?_
  intro x
  rw [hmem, List.mem_map]
  constructor
  · rintro ⟨k, hk, rfl⟩
    exact perm_stays_inside p 0 ((n : Int) - 1) hfix k ((hmem k).1 hk)
  · intro hx
    refine ⟨p.symm x, (hmem _).2 (perm_stays_inside p.symm 0 ((n : Int) - 1) hfix' x hx), ?_⟩
    exact p.apply_symm_apply x

/-- C21: for `n` lines as `list_and_parse` stores them and `indexes` holding
the identity, `quickSort(lines, indexes, 0, n - 1)` returns (a recursion depth
of `n + 1` is enough); afterwards `lines[0..n)` is a permutation of what it
was, in non-decreasing `caseInsensitiveCompare` order, `indexes[0..n)` is a
permutation of `0..n-1`, `lines[i]` is the line that was at position
`indexes[i]`, and nothing outside `0..n-1` has changed.  This holds whether
`char` is signed or not. -/
theorem quickSort_sorts (signedChar : Bool) (n fuel : Nat) (L : Listing) (hfuel : n < fuel)
    (hlines : ∀ k : Int, 0 ≤ k → k < n → isLine (L.lines k))
    (hid : ∀ k : Int, 0 ≤ k → k < n → (L.indexes k : Int) = k) :
    ∃ L', quickSort signedChar fuel 0 ((n : Int) - 1) L = some L' ∧
      ((List.range n).map (fun i : Nat => L'.lines i)).Perm
        ((List.range n).map (fun i : Nat => L.lines i)) ∧
      (∀ i j : Int, 0 ≤ i → i ≤ j → j < n →
        caseInsensitiveCompare signedChar (L'.lines i) (L'.lines j) ≤ 0) ∧
      ((List.range n).map (fun i : Nat => L'.indexes i)).Perm (List.range n) ∧
      (∀ i : Int, 0 ≤ i → i < n → L'.lines i = L.lines (L'.indexes i)) ∧
      (∀ k : Int, k < 0 ∨ (n : Int) ≤ k →
        L'.lines k = L.lines k ∧ L'.indexes k = L.indexes k) := by
  obtain ⟨L', hq, ⟨p, hfix, hl, hi⟩, hsorted⟩ :=
    quickSort_spec signedChar fuel 0 ((n : Int) - 1) L (by omega)
      (fun k h0 h1 => hlines k h0 (by omega))
  have hperm := perm_range p n hfix
  refine ⟨L', hq, ?_, ?_, ?_, ?_, ?_⟩
  · have e1 : (List.range n).map (fun i : Nat => L'.lines i) =
        (((List.range n).map (fun i : Nat => (i : Int))).map p).map L.lines := by
      rw [List.map_map, List.map_map]
      exact List.map_congr_left (fun i _ => hl i)
    have e2 : (List.range n).map (fun i : Nat => L.lines i) =
        ((List.range n).map (fun i : Nat => (i : Int))).map L.lines := by
      rw [List.map_map]; rfl
    rw [e1, e2]
    exact hperm.map _
  · intro i j h0 h1 h2
    exact hsorted i j h0 h1 (by omega)
  · have e1 : (List.range n).map (fun i : Nat => L'.indexes i) =
        (((List.range n).map (fun i : Nat => (i : Int))).map p).map L.indexes := by
      rw [List.map_map, List.map_map]
      exact List.map_congr_left (fun i _ => hi i)
    have e2 : List.range n =
        ((List.range n).map (fun i : Nat => (i : Int))).map L.indexes := by
      rw [List.map_map]
      conv_lhs => rw [← List.map_id (List.range n)]
      apply List.map_congr_left
      intro i hi'
      have := hid (i : Int) (by omega) (by simpa using List.mem_range.1 hi')
      simp only [id, Function.comp]
      omega
    rw [e1]
    conv_rhs => rw [e2]
    exact hperm.map _
  · intro i h0 h1
    have hin := perm_stays_inside p 0 ((n : Int) - 1) hfix i ⟨h0, by omega⟩
    rw [hl, hi, hid (p i) hin.1 (by omega)]
  · intro k hk
    rw [hl, hi, hfix k (by omega)]
    exact ⟨rfl, rfl⟩

theorem quickSort_sorts_witness :
    (∃ L', quickSort true 4 0 (((3 : Nat) : Int) - 1) threeLines = some L' ∧
      ((List.range 3).map (fun i : Nat => L'.lines i)).Perm
        ((List.range 3).map (fun i : Nat => threeLines.lines i)) ∧
      (∀ i j : Int, 0 ≤ i → i ≤ j → j < (3 : Nat) →
        caseInsensitiveCompare true (L'.lines i) (L'.lines j) ≤ 0) ∧
      ((List.range 3).map (fun i : Nat => L'.indexes i)).Perm (List.range 3) ∧
      (∀ i : Int, 0 ≤ i → i < (3 : Nat) → L'.lines i = threeLines.lines (L'.indexes i)) ∧
      (∀ k : Int, k < 0 ∨ ((3 : Nat) : Int) ≤ k →
        L'.lines k = threeLines.lines k ∧ L'.indexes k = threeLines.indexes k)) ∧
    (quickSort true 4 0 2 threeLines).map
        (fun L => ([L.lines 0, L.lines 1, L.lines 2], [L.indexes 0, L.indexes 1, L.indexes 2])) =
      some ([[0x61, 0x6C, 0x70, 0x68, 0x61], [0x41, 0x6C, 0x70, 0x68, 0x61],
        [0x62, 0x65, 0x74, 0x61]], [2, 1, 0]) := by
  refine ⟨quickSort_sorts true 3 4 threeLines (by decide) ?_ ?_, by decide⟩
  · intro k h0 h1
    have hk : k = 0 ∨ k = 1 ∨ k = 2 := by omega
    rcases hk with rfl | rfl | rfl <;>
      exact ⟨by decide, by decide⟩
  · intro k h0 h1
    have hk : k = 0 ∨ k = 1 ∨ k = 2 := by omega
    rcases hk with rfl | rfl | rfl <;> rfl

/-! ## The selection of the list menu -/

theorem pressUp_onPage (total : Int) (m : Menu) (hs : (m.selectedindex : Int) ≤ total)
    (ht : total < 65536) (hp : OnPage m) :
    OnPage (pressUp m) ∧ (pressUp m).selectedindex ≤ m.selectedindex := by
  unfold OnPage at hp ⊢
  unfold pressUp
  dsimp only
  split_ifs <;> (try simp only []) <;> omega

theorem pressDown_onPage (dirFix : Nat) (g d : Int) (m : Menu)
    (ht : (dirFix : Int) + g + d < 65536) (hp : OnPage m) :
    OnPage (pressDown dirFix g d m) ∧
      ((m.selectedindex : Int) < (dirFix : Int) + g + d →
        ((pressDown dirFix g d m).selectedindex : Int) < (dirFix : Int) + g + d) ∧
      ((m.selectedindex : Int) ≤ (dirFix : Int) + g + d →
        ((pressDown dirFix g d m).selectedindex : Int) ≤ (dirFix : Int) + g + d) := by
  unfold OnPage at hp ⊢
  unfold pressDown
  dsimp only
  split_ifs <;> (try simp only []) <;> omega

theorem pressLeft_onPage (total : Int) (m : Menu) (hs : (m.selectedindex : Int) ≤ total)
    (ht : total < 65536) (hp : OnPage m) :
    OnPage (pressLeft m) ∧ (pressLeft m).selectedindex ≤ m.selectedindex := by
  unfold OnPage at hp ⊢
  unfold pressLeft
  dsimp only
  split_ifs <;> (try simp only []) <;> omega

theorem pressRight_onPage (dirFix : Nat) (g d : Int) (m : Menu) (hd : dirFix ≤ 1)
    (hg : 0 ≤ g) (hd0 : 0 ≤ d)
    (ht : (dirFix : Int) + g + d < 65536) (hp : OnPage m) :
    OnPage (pressRight dirFix g d m) ∧
      ((m.selectedindex : Int) ≤ (dirFix : Int) + g + d →
        ((pressRight dirFix g d m).selectedindex : Int) ≤ (dirFix : Int) + g + d) ∧
      (dirFix = 1 → (m.selectedindex : Int) < (dirFix : Int) + g + d →
        ((pressRight dirFix g d m).selectedindex : Int) < (dirFix : Int) + g + d) := by
  unfold OnPage at hp ⊢
  unfold pressRight
  split_ifs <;> (try simp only []) <;> omega

/-- C22 fails on the code for `dirFix = 0`: RIGHT compares and assigns with
`gameLineCount + dirLineCount`, which is the last index only when the list
starts with the "Go Back" entry.  With 21 entries and the selection on entry
1, RIGHT moves the selection to 21, one past the last entry; with 30 entries
and the selection on entry 12 it moves it to 30.  For `dirFix = 1` the
selection stays below the total and on the page shown, whatever is pressed;
for `dirFix = 0` it stays on the page shown and never exceeds the total. -/
theorem navigate_right_leaves_list :
    navigate psxButtons 0 21 0 psxButtons.BUTTON_MASK_RIGHT
        { selectedindex := 1, startnumber := 0 } =
      { selectedindex := 21, startnumber := 20 } ∧
    navigate psxButtons 0 30 0 psxButtons.BUTTON_MASK_RIGHT
        { selectedindex := 12, startnumber := 0 } =
      { selectedindex := 30, startnumber := 20 } ∧
    (∀ (B : ButtonMasks) (dirFix : Nat) (g d : Int) (pressed : Nat) (m : Menu),
      dirFix ≤ 1 → 0 ≤ g → g ≤ MAX_LINES → 0 ≤ d → d ≤ MAX_LINES →
      (m.selectedindex : Int) < (dirFix : Int) + g + d → OnPage m →
      OnPage (navigate B dirFix g d pressed m) ∧
      ((navigate B dirFix g d pressed m).selectedindex : Int) ≤ (dirFix : Int) + g + d ∧
      (dirFix = 1 →
        ((navigate B dirFix g d pressed m).selectedindex : Int) < (dirFix : Int) + g + d)) := by
  refine ⟨by decide, by decide, ?_⟩
  intro B dirFix g d pressed m hdf hg0 hg1 hd0 hd1 hsel hpage
  have hM : MAX_LINES = 3000 := rfl
  unfold navigate
  dsimp only
  have ht : (dirFix : Int) + g + d < 65536 := by omega
  have hu := pressUp_onPage ((dirFix : Int) + g + d) m (by omega) ht hpage
  have hu' : OnPage (if pressed &&& B.BUTTON_MASK_UP ≠ 0 then pressUp m else m) ∧
      (((if pressed &&& B.BUTTON_MASK_UP ≠ 0 then pressUp m else m).selectedindex : Nat) : Int) <
        (dirFix : Int) + g + d := by
    split_ifs
    · exact ⟨hu.1, by have := hu.2; omega⟩
    · exact ⟨hpage, hsel⟩
  generalize (if pressed &&& B.BUTTON_MASK_UP ≠ 0 then pressUp m else m) = m1 at hu' ⊢
  have hdn := pressDown_onPage dirFix g d m1 ht hu'.1
  have hdn' : OnPage (if pressed &&& B.BUTTON_MASK_DOWN ≠ 0 then pressDown dirFix g d m1
        else m1) ∧
      (((if pressed &&& B.BUTTON_MASK_DOWN ≠ 0 then pressDown dirFix g d m1
        else m1).selectedindex : Nat) : Int) < (dirFix : Int) + g + d := by
    split_ifs
    · exact ⟨hdn.1, hdn.2.1 hu'.2⟩
    · exact hu'
  generalize (if pressed &&& B.BUTTON_MASK_DOWN ≠ 0 then pressDown dirFix g d m1 else m1) = m2
    at hdn' ⊢
  have hr := pressRight_onPage dirFix g d m2 hdf hg0 hd0 ht hdn'.1
  have hr' : OnPage (if pressed &&& B.BUTTON_MASK_RIGHT ≠ 0 then pressRight dirFix g d m2
        else m2) ∧
      (((if pressed &&& B.BUTTON_MASK_RIGHT ≠ 0 then pressRight dirFix g d m2
        else m2).selectedindex : Nat) : Int) ≤ (dirFix : Int) + g + d ∧
      (dirFix = 1 → (((if pressed &&& B.BUTTON_MASK_RIGHT ≠ 0 then pressRight dirFix g d m2
        else m2).selectedindex : Nat) : Int) < (dirFix : Int) + g + d) := by
    split_ifs
    · exact ⟨hr.1, hr.2.1 (by omega), fun h1 => hr.2.2 h1 hdn'.2⟩
    · exact ⟨hdn'.1, by omega, fun _ => hdn'.2⟩
  generalize (if pressed &&& B.BUTTON_MASK_RIGHT ≠ 0 then pressRight dirFix g d m2 else m2) = m3
    at hr' ⊢
  have hl := pressLeft_onPage ((dirFix : Int) + g + d) m3 hr'.2.1 ht hr'.1
  split_ifs
  · exact ⟨hl.1, by have := hl.2; omega, fun h1 => by have := hl.2; have := hr'.2.2 h1; omega⟩
  · exact hr'

end Picostation
